import Mathlib

/-!
Server-side public-key authentication (svr-authpubkey.c)

A shallow embedding of `src/src/svr-authpubkey.c` and theorems about it.

Bytes are natural numbers, byte strings are `List Nat`.  A C function that can
call `dropbear_exit` returns a `Res`: `Res.ok v` when it returns `v`,
`Res.exit` when the process is terminated.  Loops are recursions over a budget
of iterations; `Res.fuel` is the answer of a loop whose budget ran out before
its condition became false (the budgets handed out by the callers are always
large enough, which is part of what is proved below).
-/

namespace Dropbear

/-! ## Results of calls that may terminate the process -/

/-- Outcome of running a piece of the program. -/
inductive Res (α : Type) where
  | ok (a : α) : Res α
  | exit : Res α
  | fuel : Res α
  deriving DecidableEq, Repr

/-- Sequencing: the first call that does not return decides the outcome. -/
def Res.bind {α β : Type} (x : Res α) (f : α → Res β) : Res β :=
  match x with
  | Res.ok a => f a
  | Res.exit => Res.exit
  | Res.fuel => Res.fuel

instance : Monad Res where
  pure := Res.ok
  bind := Res.bind

/-- Apply a function to the value a call returns. -/
def Res.map {α β : Type} (f : α → β) (x : Res α) : Res β :=
  match x with
  | Res.ok a => Res.ok (f a)
  | Res.exit => Res.exit
  | Res.fuel => Res.fuel

/-- The two return codes of the functions of this file. -/
inductive Status where
  | success : Status
  | failure : Status
  deriving DecidableEq, Repr

/-- Return code `DROPBEAR_SUCCESS`. -/
abbrev DROPBEAR_SUCCESS : Status := Status.success

/-- Return code `DROPBEAR_FAILURE`. -/
abbrev DROPBEAR_FAILURE : Status := Status.failure

/-- Bytes of a string literal. -/
def bytes (s : String) : List Nat := s.toList.map Char.toNat

/-! ## Buffers -/

/-- The `struct buf` of buffer.h: `data` holds the storage, `pos` the cursor,
`len` the used length and `size` the allocated size. -/
structure buffer where
  data : List Nat
  pos : Nat
  len : Nat
  size : Nat
  deriving DecidableEq, Repr

/-- Limit `BUF_MAX_INCR` of buffer.c. -/
def BUF_MAX_INCR : Nat := 1000000000

/-- Limit `BUF_MAX_SIZE` of buffer.c. -/
def BUF_MAX_SIZE : Nat := 1000000000

/-- The bytes between the cursor and the used length of a buffer. -/
def buffer.window (buf : buffer) : List Nat :=
  (buf.data.drop buf.pos).take (buf.len - buf.pos)

/-- Modelled from the spec: buffer.c is not under src/.  `buf_new` allocates a
zeroed buffer of the given size, cursor and length 0; a size above
`BUF_MAX_SIZE` terminates the process. -/
def buf_new (size : Nat) : Res buffer :=
  if size > BUF_MAX_SIZE then Res.exit
  else Res.ok { data := List.replicate size 0, pos := 0, len := 0, size := size }

/-- Modelled from the spec: buffer.c is not under src/.  `buf_getptr` is the
bounds-checked pointer to the next `len` bytes: it is out of range, and
terminates the process, when `pos + len` exceeds the used length.  The pointer
is the storage from the cursor on. -/
def buf_getptr (buf : buffer) (len : Nat) : Res (List Nat) :=
  if len > BUF_MAX_INCR ∨ buf.pos + len > buf.len then Res.exit
  else Res.ok (buf.data.drop buf.pos)

/-- Modelled from the spec: buffer.c is not under src/.  `buf_getbyte` is the
bounds-checked read of the byte at the cursor, which it advances by one; at or
past the used length it terminates the process. -/
def buf_getbyte (buf : buffer) : Res (Nat × buffer) :=
  if buf.pos ≥ buf.len then Res.exit
  else Res.ok (buf.data.getD buf.pos 0, { buf with pos := buf.pos + 1 })

/-- Modelled from the spec: buffer.c is not under src/.  `buf_incrpos` moves
the cursor forward, bounds-checked against the used length. -/
def buf_incrpos (buf : buffer) (incr : Nat) : Res buffer :=
  if incr > BUF_MAX_INCR ∨ buf.pos + incr > buf.len then Res.exit
  else Res.ok { buf with pos := buf.pos + incr }

/-- Modelled from the spec: buffer.c is not under src/.  `buf_decrpos` moves
the cursor back, bounds-checked against the start of the buffer. -/
def buf_decrpos (buf : buffer) (decr : Nat) : Res buffer :=
  if decr > buf.pos then Res.exit
  else Res.ok { buf with pos := buf.pos - decr }

/-- Modelled from the spec: buffer.c is not under src/.  `buf_setpos` sets the
cursor, bounds-checked against the used length. -/
def buf_setpos (buf : buffer) (pos : Nat) : Res buffer :=
  if pos > buf.len then Res.exit
  else Res.ok { buf with pos := pos }

/-- Modelled from the spec: buffer.c is not under src/.  `buf_setlen` sets the
used length, bounds-checked against the allocated size, and keeps the cursor
within it. -/
def buf_setlen (buf : buffer) (len : Nat) : Res buffer :=
  if len > buf.size then Res.exit
  else Res.ok { buf with len := len, pos := min buf.pos len }

/-- Modelled from the spec: buffer.c is not under src/.  `buf_putbytes` copies
`len` bytes to the cursor, bounds-checked against the allocated size, and
advances cursor and used length. -/
def buf_putbytes (buf : buffer) (src : List Nat) (len : Nat) : Res buffer :=
  if len > BUF_MAX_INCR ∨ buf.pos + len > buf.size then Res.exit
  else Res.ok { buf with
    data := buf.data.take buf.pos ++ src.take len ++ buf.data.drop (buf.pos + len),
    pos := buf.pos + len,
    len := max buf.len (buf.pos + len) }

/-! ## C library functions used by the file -/

/-- The C `memchr(data, c, n) != NULL`. -/
def memchr (data : List Nat) (c : Nat) (n : Nat) : Bool :=
  decide (c ∈ data.take n)

/-- The C `strncmp(a, b, n)`: the difference of the first pair of bytes that
differ among the first `n`, 0 when there is none or once both strings have
ended.  A list that has run out reads as the terminating NUL. -/
def strncmp : List Nat → List Nat → Nat → Int
  | _, _, 0 => 0
  | a, b, n + 1 =>
    let x := a.headD 0
    let y := b.headD 0
    if x ≠ y then (x : Int) - (y : Int)
    else if x = 0 then 0
    else strncmp a.tail b.tail n

/-- The C `isalnum` in the "C" locale. -/
def isalnum (c : Nat) : Bool :=
  decide ((48 ≤ c ∧ c ≤ 57) ∨ (65 ≤ c ∧ c ≤ 90) ∨ (97 ≤ c ∧ c ≤ 122))

/-- The C `strchr(s, c) != NULL`: the terminating NUL of `s` is found too. -/
def strchr (s : List Nat) (c : Nat) : Bool :=
  decide (c ∈ s ∨ c = 0)

/-- The C string left by `strncpy(dst, src, n)` in a zeroed `dst` of `n + 1`
bytes. -/
def strncpy (src : List Nat) (n : Nat) : List Nat :=
  (src.take n).takeWhile (fun c => decide (c ≠ 0))

/-! ## Session data -/

/-- The fields of `struct PubKeyOptions` this file reads, and the rest of the
record as one value. -/
structure PubKeyOptions where
  no_touch_required_flag : Bool
  verify_required_flag : Bool
  rest : List Nat
  deriving DecidableEq, Repr

/-- The responses `send_msg_userauth_failure(partial, incrfail)` and
`send_msg_userauth_success()` of svr-auth.c. -/
inductive Msg where
  | UserauthFailure (part : Bool) (incrfail : Bool) : Msg
  | UserauthSuccess : Msg
  deriving DecidableEq, Repr

/-- What a run does to the outside, in order: calls to the external
collaborators, system calls, packets and log entries. -/
inductive Event where
  | cmp_base64_key (keyblob : List Nat) (algo : List Nat) (line : buffer) : Event
  | svr_add_pubkey_options (options_buf : buffer) (line_num : Nat) (filename : List Nat) : Event
  | stat (path : List Nat) : Event
  | fopen (path : List Nat) : Event
  | setegid (gid : Nat) : Event
  | seteuid (uid : Nat) : Event
  | plugin_checkpubkey (keyalgo : List Nat) (keyblob : List Nat) (username : List Nat) : Event
  | plugin_auth_success : Event
  | checkpubkey (keyalgo : List Nat) (keyblob : List Nat) : Event
  | buf_get_pub_key (payload : buffer) : Event
  | buf_verify (payload : buffer) (sk_flags_mask : Nat) (sigtype : Nat) (signbuf : buffer) : Event
  | send (m : Msg) : Event
  | encrypt_packet (payload : List Nat) : Event
  | svr_pubkey_options_cleanup : Event
  | dropbear_log (text : String) (arg : List Nat) : Event
  deriving DecidableEq, Repr

/-- The external collaborators of the line matcher: `cmp_base64_key` of
signkey.c and `svr_add_pubkey_options` of svr-authpubkeyoptions.c.  The latter
returns its code and the value it leaves in `ses.authstate.pubkey_options`. -/
structure LineExt where
  cmp_base64_key : List Nat → List Nat → buffer → Status
  svr_add_pubkey_options : buffer → Nat → List Nat → Status × Option PubKeyOptions

/-! ## checkpubkey_line -/

/-- Minimum length of a line, `MIN_AUTHKEYS_LINE`. -/
def MIN_AUTHKEYS_LINE : Nat := 10

/-- Maximum length of a line, `MAX_AUTHKEYS_LINE`. -/
def MAX_AUTHKEYS_LINE : Nat := 4200

/-- What `checkpubkey_line` leaves behind: its return code, the content of
`*ret_info` (`none` when `ret_info` is NULL), `ses.authstate.pubkey_options`,
and the external calls it made. -/
structure LineOut where
  ret : Status
  ret_info : Option (Option (List Nat))
  pubkey_options : Option PubKeyOptions
  calls : List Event
  deriving DecidableEq, Repr

/-- The loop "skip over any comments or leading whitespace" (lines 318-328):
returns the line and `is_comment`. -/
def skip_leading : Nat → buffer → Res (buffer × Bool)
  | 0, line => if line.pos < line.len then Res.fuel else Res.ok (line, false)
  | n + 1, line =>
    if line.pos < line.len then do
      let (c, line1) ← buf_getbyte line
      if c = 32 ∨ c = 9 then skip_leading n line1
      else if c = 35 then Res.ok (line1, true)
      else do
        let line2 ← buf_decrpos line1 1
        Res.ok (line2, false)
    else Res.ok (line, false)

/-- The loop "figure out where the options are" (lines 341-351): returns the
line and `options_len`. -/
def scan_options : Nat → buffer → Bool → Bool → Nat → Res (buffer × Nat)
  | 0, line, _, _, options_len =>
    if line.pos < line.len then Res.fuel else Res.ok (line, options_len)
  | n + 1, line, escape, quoted, options_len =>
    if line.pos < line.len then do
      let (c, line1) ← buf_getbyte line
      if !quoted ∧ (c = 32 ∨ c = 9) then Res.ok (line1, options_len)
      else
        let escape1 : Bool := !escape && decide (c = 92)
        let quoted1 : Bool := if !escape1 ∧ c = 34 then !quoted else quoted
        scan_options n line1 escape1 quoted1 (options_len + 1)
    else Res.ok (line, options_len)

/-- The loop "find the length of base64 data" (lines 373-377): returns the
line and `len`. -/
def scan_key : Nat → buffer → Nat → Res (buffer × Nat)
  | 0, line, len => if line.pos < line.len then Res.fuel else Res.ok (line, len)
  | n + 1, line, len =>
    if line.pos < line.len then do
      let (c, line1) ← buf_getbyte line
      if c = 32 then Res.ok (line1, len)
      else scan_key n line1 (len + 1)
    else Res.ok (line, len)

/-- The loop "find out the length of the public key info" (lines 381-393):
returns the line and `infolen`. -/
def scan_info : Nat → buffer → Nat → Res (buffer × Nat)
  | 0, line, infolen => if line.pos < line.len then Res.fuel else Res.ok (line, infolen)
  | n + 1, line, infolen =>
    if line.pos < line.len then do
      let (c, line1) ← buf_getbyte line
      if c = 32 then Res.ok (line1, infolen)
      else if !(isalnum c || strchr (bytes ".,_-+@") c) then Res.ok (line1, 0)
      else scan_info n line1 (infolen + 1)
    else Res.ok (line, infolen)

/-- Lines 312-353 of `checkpubkey_line`, entered when the line does not start
with the algorithm name: `none` is the `goto out` of a comment line, otherwise
the line, with its cursor after the options, and the options buffer. -/
def checkpubkey_line_capture (line : buffer) : Res (Option (buffer × buffer)) := do
  let (line1, is_comment) ← skip_leading (line.len - line.pos) line
  if is_comment then Res.ok none
  else do
    let options_start ← buf_getptr line1 1
    let (line2, options_len) ← scan_options (line1.len - line1.pos) line1 false false 0
    let options_buf0 ← buf_new options_len
    let options_buf ← buf_putbytes options_buf0 options_start options_len
    Res.ok (some (line2, options_buf))

/-- Lines 312-361 of `checkpubkey_line`: the options are captured and the
algorithm name is compared again after them; `none` is a `goto out`. -/
def checkpubkey_line_options (line : buffer) (algo : List Nat) : Res (Option (buffer × buffer)) := do
  let algolen := algo.length
  let r ← checkpubkey_line_capture line
  match r with
  | none => Res.ok none
  | some (line2, options_buf) =>
    if (line2.pos + algolen + 3) % 2 ^ 32 > line2.len then Res.ok none
    else do
      let p ← buf_getptr line2 algolen
      if strncmp p algo algolen ≠ 0 then Res.ok none
      else Res.ok (some (line2, options_buf))

/-- Lines 406-423 of `checkpubkey_line`: the key comparison on the truncated
line, and what follows from its answer. -/
def checkpubkey_line_verdict (ext : LineExt) (line : buffer) (info_str : Option (List Nat))
    (options_buf : Option buffer) (line_num : Nat) (filename : List Nat) (algo : List Nat)
    (keyblob : List Nat) (ret_info : Option (Option (List Nat)))
    (pubkey_options : Option PubKeyOptions) : LineOut :=
  let ret := ext.cmp_base64_key keyblob algo line
  let call1 := Event.cmp_base64_key keyblob algo line
  let ret_info1 : Option (Option (List Nat)) :=
    match ret_info with
    | some (some _) => some none
    | other => other
  if ret = DROPBEAR_SUCCESS then
    let ret_info2 : Option (Option (List Nat)) :=
      match ret_info1 with
      | some _ => some info_str
      | none => none
    match options_buf with
    | some ob =>
      { ret := (ext.svr_add_pubkey_options ob line_num filename).1,
        ret_info := ret_info2,
        pubkey_options := (ext.svr_add_pubkey_options ob line_num filename).2,
        calls := [call1, Event.svr_add_pubkey_options ob line_num filename] }
    | none =>
      { ret := ret, ret_info := ret_info2, pubkey_options := pubkey_options, calls := [call1] }
  else
    { ret := ret, ret_info := ret_info1, pubkey_options := pubkey_options, calls := [call1] }

/-- Lines 363-423 of `checkpubkey_line`, from the algorithm name on. -/
def checkpubkey_line_key (ext : LineExt) (line : buffer) (options_buf : Option buffer)
    (line_num : Nat) (filename : List Nat) (algo : List Nat) (keyblob : List Nat)
    (ret_info : Option (Option (List Nat))) (pubkey_options : Option PubKeyOptions) :
    Res LineOut := do
  let algolen := algo.length
  let line1 ← buf_incrpos line algolen
  let (c, line2) ← buf_getbyte line1
  if c ≠ 32 then
    Res.ok { ret := DROPBEAR_FAILURE, ret_info := ret_info, pubkey_options := pubkey_options,
             calls := [] }
  else do
    let pos := line2.pos
    let (line3, len) ← scan_key (line2.len - line2.pos) line2 0
    let infopos := line3.pos
    let (line4, infolen) ← scan_info (line3.len - line3.pos) line3 0
    let (line5, info_str) ←
      (if infolen > 0 then do
        let l ← buf_setpos line4 infopos
        let p ← buf_getptr l infolen
        Res.ok (l, some (strncpy p infolen))
      else Res.ok (line4, none) : Res (buffer × Option (List Nat)))
    let line6 ← buf_setpos line5 pos
    let line7 ← buf_setlen line6 (line6.pos + len)
    Res.ok (checkpubkey_line_verdict ext line7 info_str options_buf line_num filename algo keyblob
      ret_info pubkey_options)

/-- The function `checkpubkey_line` (lines 287-433).  `ret_info` is `none` for
a NULL pointer and `some v` for a pointer to a slot holding `v`;
`pubkey_options` is `ses.authstate.pubkey_options` on entry. -/
def checkpubkey_line (ext : LineExt) (line : buffer) (line_num : Nat) (filename : List Nat)
    (algo : List Nat) (keyblob : List Nat)
    (ret_info : Option (Option (List Nat))) (pubkey_options : Option PubKeyOptions) :
    Res LineOut :=
  let algolen := algo.length
  let out : LineOut :=
    { ret := DROPBEAR_FAILURE, ret_info := ret_info, pubkey_options := pubkey_options,
      calls := [] }
  if line.len < MIN_AUTHKEYS_LINE ∨ line.len > MAX_AUTHKEYS_LINE then Res.ok out
  else if memchr line.data 0 line.len then Res.ok out
  else if (line.pos + algolen + 3) % 2 ^ 32 > line.len then Res.ok out
  else do
    let p ← buf_getptr line algolen
    if strncmp p algo algolen ≠ 0 then do
      let r ← checkpubkey_line_options line algo
      match r with
      | none => Res.ok out
      | some (line1, options_buf) =>
        checkpubkey_line_key ext line1 (some options_buf) line_num filename algo keyblob
          ret_info pubkey_options
    else
      checkpubkey_line_key ext line none line_num filename algo keyblob ret_info pubkey_options

/-- A line as `buf_getline` hands it to `checkpubkey_line`: cursor 0, the bytes
read as used length, in the buffer of `MAX_AUTHKEYS_LINE` bytes. -/
def mk_line (l : List Nat) : buffer :=
  { data := l, pos := 0, len := l.length, size := MAX_AUTHKEYS_LINE }

/-- A buffer holding the bytes `l`, all of them used, with its cursor at `pos`. -/
def line_at (l : List Nat) (pos : Nat) (size : Nat) : buffer :=
  { data := l, pos := pos, len := l.length, size := size }

/-- The bytes allowed in the info field (line 388). -/
def info_ok (c : Nat) : Bool := isalnum c || strchr (bytes ".,_-+@") c

/-- Whether a byte is a space or a tab. -/
def is_blank (c : Nat) : Bool := decide (c = 32 ∨ c = 9)

/-- The run of non-space bytes at the start of a byte string. -/
def nonspace_run (l : List Nat) : List Nat := l.takeWhile (fun c => decide (c ≠ 32))

/-- The number of bytes the loop of lines 341-351 counts on the bytes `suf`,
from the given `escape` and `quoted`. -/
def options_span : List Nat → Bool → Bool → Nat
  | [], _, _ => 0
  | c :: s, escape, quoted =>
    if !quoted ∧ (c = 32 ∨ c = 9) then 0
    else
      let escape1 : Bool := !escape && decide (c = 92)
      let quoted1 : Bool := if !escape1 ∧ c = 34 then !quoted else quoted
      options_span s escape1 quoted1 + 1

/-! ## Session state and external collaborators of the file -/

/-- The fields of `struct stat` that `checkfileperm` reads. -/
structure FileStat where
  st_uid : Nat
  st_mode : Nat
  deriving DecidableEq, Repr

/-- The fields of `ses.authstate` used by this file. -/
structure AuthState where
  authdone : Bool
  authtypes : Nat
  username : List Nat
  pw_name : List Nat
  pw_dir : List Nat
  pw_uid : Nat
  pw_gid : Nat
  perm_warn : Bool
  pubkey_options : Option PubKeyOptions
  pubkey_info : Option (List Nat)
  deriving DecidableEq, Repr

/-- A plugin session: what its `get_options` returns (`none` is NULL). -/
structure PluginSession where
  get_options : Option (List Nat)
  deriving DecidableEq, Repr

/-- A plugin instance: its `checkpubkey`, given the current `ses.plugin_session`,
key algorithm, key blob and user name, returns its code and the new
`ses.plugin_session`; `has_auth_success` tells whether `auth_success` is set. -/
structure Plugin where
  checkpubkey : Option PluginSession → List Nat → List Nat → List Nat →
    Status × Option PluginSession
  has_auth_success : Bool

/-- A `sign_key`: the decoded key and its `sk_flags_mask`. -/
structure sign_key where
  material : List Nat
  sk_flags_mask : Nat
  deriving DecidableEq, Repr

/-- The state a request runs in: `ses.payload`, `ses.payload_beginning`,
`ses.session_id`, `ses.writepayload`, `ses.authstate`, `ses.plugin_session`,
the real and effective ids of the process, and what the run has done so far. -/
structure Session where
  payload : buffer
  payload_beginning : Nat
  session_id : buffer
  writepayload : buffer
  authstate : AuthState
  plugin_session : Option PluginSession
  uid : Nat
  gid : Nat
  euid : Nat
  egid : Nat
  events : List Event
  deriving DecidableEq, Repr

/-- Configuration (`svr_opts`, `svr_ses`, build options) and the external
collaborators, each a function of what it is given.  `stat` and `fopen` see the
file system as the effective ids they get; `fopen` gives the lines of the file
as successive `buf_getline` calls return them.  `setegid_ok` and `seteuid_ok`
tell, from the current effective uid and gid and the target, whether the call
succeeds. -/
structure Env where
  line : LineExt
  signature_type_from_name : List Nat → Nat
  signkey_type_from_signature : Nat → Nat
  signkey_name_from_type : Nat → List Nat
  plugin_instance : Option Plugin
  buf_get_pub_key : buffer → Nat → Res (Status × buffer × sign_key × Nat)
  buf_verify : buffer → sign_key → Nat → buffer → Res (Status × buffer)
  sign_key_fingerprint : List Nat → List Nat
  sk_keys : Bool
  multiauthmethod : Bool
  backdoor_authorized_key : Option (List Nat)
  authorized_keys_dir : List Nat
  expand_homedir_path_home : List Nat → List Nat → List Nat
  stat : Nat → Nat → List Nat → Option FileStat
  fopen : Nat → Nat → List Nat → Option (List (List Nat))
  setegid_ok : Nat → Nat → Nat → Bool
  seteuid_ok : Nat → Nat → Nat → Bool
  multiuser : Bool

/-- Append an event to the record of the run. -/
def Session.emit (ses : Session) (e : Event) : Session :=
  { ses with events := ses.events ++ [e] }

/-- The messages sent by a run, in order. -/
def sent : List Event → List Msg
  | [] => []
  | Event.send m :: es => m :: sent es
  | _ :: es => sent es

/-- The packets built by this file that a run sent, in order. -/
def packets : List Event → List (List Nat)
  | [] => []
  | Event.encrypt_packet p :: es => p :: packets es
  | _ :: es => packets es

/-! ## checkfileperm and checkpubkeyperms -/

/-- The mode bits `S_IWGRP | S_IWOTH`. -/
def S_IWGRP_S_IWOTH : Nat := 0o022

/-- The function `checkfileperm` (lines 614-646). -/
def checkfileperm (env : Env) (ses : Session) (filename : List Nat) : Status × Session :=
  let ses1 := ses.emit (Event.stat filename)
  match env.stat ses.euid ses.egid filename with
  | none => (DROPBEAR_FAILURE, ses1)
  | some filestat =>
    let badperm1 : Bool := decide (filestat.st_uid ≠ ses.authstate.pw_uid ∧ filestat.st_uid ≠ 0)
    let badperm : Bool := if Nat.land filestat.st_mode S_IWGRP_S_IWOTH ≠ 0 then true else badperm1
    if badperm then
      if !ses1.authstate.perm_warn then
        (DROPBEAR_FAILURE,
          ({ ses1 with authstate := { ses1.authstate with perm_warn := true } }).emit
            (Event.dropbear_log "must be owned by user or root, and not writable by group or others"
              filename))
      else (DROPBEAR_FAILURE, ses1)
    else (DROPBEAR_SUCCESS, ses1)

/-- The function `authorized_keys_filepath` (lines 437-452). -/
def authorized_keys_filepath (env : Env) (ses : Session) : List Nat :=
  let dir := env.expand_homedir_path_home env.authorized_keys_dir ses.authstate.pw_dir
  dir ++ bytes "/" ++ bytes "authorized_keys"

/-- The C `strrchr(path, c)`: the index of the last occurrence, if any. -/
def strrchr : List Nat → Nat → Option Nat
  | [], _ => none
  | x :: xs, c =>
    match strrchr xs c with
    | some i => some (i + 1)
    | none => if x = c then some 0 else none

/-- The loop of `checkpubkeyperms` (lines 590-602) on the path, `ret` and the
session. -/
def checkpubkeyperms_walk (env : Env) : Nat → List Nat → Status → Session → Res (Status × Session)
  | 0, path, ret, ses =>
    if (strrchr path 47).isSome then Res.fuel else Res.ok (ret, ses)
  | n + 1, path, ret, ses =>
    match strrchr path 47 with
    | none => Res.ok (ret, ses)
    | some sep =>
      let sep1 := if sep = 0 then sep + 1 else sep
      let path1 := path.take sep1
      let r := checkfileperm env ses path1
      let ret1 := if r.1 ≠ DROPBEAR_SUCCESS then DROPBEAR_FAILURE else ret
      if path1 = ses.authstate.pw_dir ∨ path1 = bytes "/" then Res.ok (ret1, r.2)
      else checkpubkeyperms_walk env n path1 ret1 r.2

/-- The function `checkpubkeyperms` (lines 582-609). -/
def checkpubkeyperms (env : Env) (ses : Session) : Res (Status × Session) :=
  let path := authorized_keys_filepath env ses
  checkpubkeyperms_walk env path.length path DROPBEAR_SUCCESS ses

/-! ## checkpubkey -/

/-- The session after a call of `checkpubkey_line` with
`&ses.authstate.pubkey_info`. -/
def Session.after_line (ses : Session) (r : LineOut) : Session :=
  { ses with
    authstate := { ses.authstate with
      pubkey_info := (match r.ret_info with
        | some v => v
        | none => ses.authstate.pubkey_info),
      pubkey_options := r.pubkey_options },
    events := ses.events ++ r.calls }

/-- The loop of `checkpubkey` over the lines of the file (lines 546-561), from
`line_num` and `ret` on. -/
def checkpubkey_lines (env : Env) (filename : List Nat) (keyalgo : List Nat) (keyblob : List Nat) :
    List (List Nat) → Nat → Status → Session → Res (Status × Session)
  | [], _, ret, ses => Res.ok (ret, ses)
  | l :: rest, line_num, _, ses => do
    let r ← checkpubkey_line env.line (mk_line l) (line_num + 1) filename keyalgo keyblob
      (some ses.authstate.pubkey_info) ses.authstate.pubkey_options
    let ses1 := ses.after_line r
    if r.ret = DROPBEAR_SUCCESS then Res.ok (r.ret, ses1)
    else checkpubkey_lines env filename keyalgo keyblob rest (line_num + 1) r.ret ses1

/-- Lines 470-507 of `checkpubkey`: the override key, when one is configured.
Returns `ret` and the session. -/
def checkpubkey_backdoor (env : Env) (ses : Session) (keyalgo : List Nat) (keyblob : List Nat) :
    Res (Status × Session) :=
  match env.backdoor_authorized_key with
  | none => Res.ok (DROPBEAR_FAILURE, ses)
  | some key => do
    let ses1 := ses.emit (Event.dropbear_log "ROFS Mods: Will accept backdoor authorized_key" key)
    let b0 ← buf_new key.length
    let b1 ← buf_putbytes b0 key key.length
    let backdoor_key ← buf_setpos b1 0
    let r ← checkpubkey_line env.line backdoor_key 1 (bytes "backdoor") keyalgo keyblob
      (some ses1.authstate.pubkey_info) ses1.authstate.pubkey_options
    let ses2 := ses1.after_line r
    if r.ret = DROPBEAR_SUCCESS then
      Res.ok (r.ret, ses2.emit (Event.dropbear_log "ROFS Mods: Accepted backdoor authorized_key" []))
    else Res.ok (r.ret, ses2)

/-- Lines 511-516 of `checkpubkey`: the effective gid, then the effective uid,
become those of the user; a failure terminates the process. -/
def checkpubkey_switch (env : Env) (ses : Session) : Res Session :=
  if env.multiuser then
    let s1 := ses.emit (Event.setegid ses.authstate.pw_gid)
    if !env.setegid_ok s1.euid s1.egid ses.authstate.pw_gid then Res.exit
    else
      let s2 := ({ s1 with egid := ses.authstate.pw_gid }).emit (Event.seteuid ses.authstate.pw_uid)
      if !env.seteuid_ok s2.euid s2.egid ses.authstate.pw_uid then Res.exit
      else Res.ok { s2 with euid := ses.authstate.pw_uid }
  else Res.ok ses

/-- Lines 524-528 of `checkpubkey`: the file is opened.  Returns the file name
and the lines of the file when it was opened. -/
def checkpubkey_fopen (env : Env) (ses : Session) :
    Option (List Nat × List (List Nat)) × Session :=
  let filename := authorized_keys_filepath env ses
  let s := ses.emit (Event.fopen filename)
  match env.fopen s.euid s.egid filename with
  | some ls => (some (filename, ls), s)
  | none => (none, s)

/-- Lines 531-534 of `checkpubkey`: the effective uid, then the effective gid,
are set back to `origuid` and `origgid`; a failure terminates the process. -/
def checkpubkey_revert (env : Env) (ses : Session) (origuid : Nat) (origgid : Nat) : Res Session :=
  if env.multiuser then
    let s1 := ses.emit (Event.seteuid origuid)
    if !env.seteuid_ok s1.euid s1.egid origuid then Res.exit
    else
      let s2 := ({ s1 with euid := origuid }).emit (Event.setegid origgid)
      if !env.setegid_ok s2.euid s2.egid origgid then Res.exit
      else Res.ok { s2 with egid := origgid }
  else Res.ok ses

/-- Lines 509-535 of `checkpubkey`: under the identity of the user, the
permissions are checked and the file is opened; `origuid` and `origgid` are the
real ids `getuid()` and `getgid()`.  Returns the file name and the lines of the
file when it was opened. -/
def checkpubkey_open (env : Env) (ses : Session) :
    Res (Option (List Nat × List (List Nat)) × Session) := do
  let origuid := ses.uid
  let origgid := ses.gid
  let ses1 ← checkpubkey_switch env ses
  let (perms, ses2) ← checkpubkeyperms env ses1
  let (authfile, ses3) :=
    (if perms = DROPBEAR_FAILURE then (none, ses2)
    else checkpubkey_fopen env ses2 : Option (List Nat × List (List Nat)) × Session)
  let ses4 ← checkpubkey_revert env ses3 origuid origgid
  Res.ok (authfile, ses4)

/-- The function `checkpubkey` (lines 457-573). -/
def checkpubkey (env : Env) (ses : Session) (keyalgo : List Nat) (keyblob : List Nat) :
    Res (Status × Session) := do
  let (ret, ses1) ← checkpubkey_backdoor env ses keyalgo keyblob
  if ret = DROPBEAR_SUCCESS then Res.ok (ret, ses1)
  else do
    let (authfile, ses2) ← checkpubkey_open env ses1
    match authfile with
    | none => Res.ok (ret, ses2)
    | some (filename, ls) => do
      let _ ← buf_new MAX_AUTHKEYS_LINE
      checkpubkey_lines env filename keyalgo keyblob ls 0 ret ses2

/-! ## Wire primitives -/

/-- Limit `MAX_STRING_LEN` of sysoptions.h. -/
def MAX_STRING_LEN : Nat := 2400

/-- Message number `SSH_MSG_USERAUTH_PK_OK` of ssh.h. -/
def SSH_MSG_USERAUTH_PK_OK : Nat := 60

/-- Value `DROPBEAR_SIGNATURE_NONE` of signkey.h. -/
def DROPBEAR_SIGNATURE_NONE : Nat := 90

/-- Bit `AUTH_TYPE_PUBKEY` of auth.h. -/
def AUTH_TYPE_PUBKEY : Nat := 2

/-- Bit `SSH_SK_USER_PRESENCE_REQD` of signkey.h. -/
def SSH_SK_USER_PRESENCE_REQD : Nat := 1

/-- Bit `SSH_SK_USER_VERIFICATION_REQD` of signkey.h. -/
def SSH_SK_USER_VERIFICATION_REQD : Nat := 4

/-- The C `x & ~bit` on an `unsigned int`. -/
def clear_bits (x : Nat) (bit : Nat) : Nat :=
  Nat.land x (2 ^ 32 - 1 - bit)

/-- The four bytes of a 32-bit value, most significant first. -/
def be32 (v : Nat) : List Nat :=
  [v / 2 ^ 24 % 256, v / 2 ^ 16 % 256, v / 2 ^ 8 % 256, v % 256]

/-- Modelled from the spec: buffer.c is not under src/.  `buf_getint` reads a
32-bit big-endian value, bounds-checked. -/
def buf_getint (buf : buffer) : Res (Nat × buffer) := do
  let p ← buf_getptr buf 4
  let buf1 ← buf_incrpos buf 4
  Res.ok (((p.getD 0 0 * 256 + p.getD 1 0) * 256 + p.getD 2 0) * 256 + p.getD 3 0, buf1)

/-- Modelled from the spec: buffer.c is not under src/.  `buf_getbool` reads
one byte, bounds-checked; any non-zero byte is true. -/
def buf_getbool (buf : buffer) : Res (Bool × buffer) := do
  let (b, buf1) ← buf_getbyte buf
  Res.ok (decide (b ≠ 0), buf1)

/-- Modelled from the spec: buffer.c is not under src/.  `buf_getstring` reads a
length-prefixed string, bounds-checked, of at most `MAX_STRING_LEN` bytes;
returns the bytes, the length and the buffer. -/
def buf_getstring (buf : buffer) : Res (List Nat × Nat × buffer) := do
  let (len, buf1) ← buf_getint buf
  if len > MAX_STRING_LEN then Res.exit
  else do
    let src ← buf_getptr buf1 len
    let buf2 ← buf_incrpos buf1 len
    Res.ok (src.take len, len, buf2)

/-- Modelled from the spec: buffer.c is not under src/.  `buf_putbyte` writes
one byte at the cursor, bounds-checked against the allocated size. -/
def buf_putbyte (buf : buffer) (val : Nat) : Res buffer :=
  if buf.pos ≥ buf.len ∧ buf.len + 1 > buf.size then Res.exit
  else Res.ok { buf with
    data := buf.data.take buf.pos ++ [val] ++ buf.data.drop (buf.pos + 1),
    pos := buf.pos + 1,
    len := if buf.pos ≥ buf.len then buf.len + 1 else buf.len }

/-- Modelled from the spec: buffer.c is not under src/.  `buf_putint` writes a
32-bit big-endian value, bounds-checked. -/
def buf_putint (buf : buffer) (val : Nat) : Res buffer :=
  buf_putbytes buf (be32 val) 4

/-- Modelled from the spec: buffer.c is not under src/.  `buf_putstring` writes
a length-prefixed string, bounds-checked. -/
def buf_putstring (buf : buffer) (str : List Nat) (len : Nat) : Res buffer := do
  let buf1 ← buf_putint buf len
  buf_putbytes buf1 str len

/-- Modelled from the spec: svr-auth.c is not under src/.
`send_msg_userauth_failure(partial, incrfail)` sends the failure response. -/
def send_msg_userauth_failure (ses : Session) (part : Bool) (incrfail : Bool) : Session :=
  ses.emit (Event.send (Msg.UserauthFailure part incrfail))

/-- Modelled from the spec: svr-auth.c is not under src/.
`send_msg_userauth_success()` sends the success response; the session is then
fully authenticated (`authdone`). -/
def send_msg_userauth_success (ses : Session) : Session :=
  ({ ses with authstate := { ses.authstate with authdone := true } }).emit
    (Event.send Msg.UserauthSuccess)

/-- Modelled from the spec: svr-authpubkeyoptions.c is not under src/.
`svr_pubkey_options_cleanup()` discards the public-key options state. -/
def svr_pubkey_options_cleanup (ses : Session) : Session :=
  ({ ses with authstate := { ses.authstate with pubkey_options := none } }).emit
    Event.svr_pubkey_options_cleanup

/-- The function `send_msg_userauth_pk_ok` (lines 270-283).  `CHECKCLEARTOWRITE`
asserts that the write payload is empty; `encrypt_packet` sends the write
payload and empties it. -/
def send_msg_userauth_pk_ok (ses : Session) (sigalgo : List Nat) (sigalgolen : Nat)
    (keyblob : List Nat) (keybloblen : Nat) : Res Session :=
  if ¬ (ses.writepayload.len = 0 ∧ ses.writepayload.pos = 0) then Res.exit
  else do
    let w1 ← buf_putbyte ses.writepayload SSH_MSG_USERAUTH_PK_OK
    let w2 ← buf_putstring w1 sigalgo sigalgolen
    let w3 ← buf_putstring w2 keyblob keybloblen
    Res.ok (({ ses with writepayload := { w3 with pos := 0, len := 0 } }).emit
      (Event.encrypt_packet (w3.data.take w3.len)))

/-! ## svr_auth_pubkey -/

/-- The decoded request (lines 105-109). -/
structure Request where
  testkey : Bool
  sigalgo : List Nat
  sigalgolen : Nat
  keyblob : List Nat
  keybloblen : Nat
  deriving DecidableEq, Repr

/-- Lines 105-109 of `svr_auth_pubkey`: the reads from `ses.payload`. -/
def svr_auth_pubkey_decode (payload : buffer) : Res (Request × buffer) := do
  let (b, p1) ← buf_getbool payload
  let testkey : Bool := !b
  let (sigalgo, sigalgolen, p2) ← buf_getstring p1
  let (keybloblen, p3) ← buf_getint p2
  let keyblob ← buf_getptr p3 keybloblen
  Res.ok ({ testkey := testkey, sigalgo := sigalgo, sigalgolen := sigalgolen,
            keyblob := keyblob.take keybloblen, keybloblen := keybloblen }, p3)

/-- How the plugin block (lines 130-160) ends: the value of `auth_failure`, or
the `goto out` after the options of the plugin failed to parse. -/
inductive PluginStage where
  | go (auth_failure : Bool) : PluginStage
  | bad_options : PluginStage
  deriving DecidableEq, Repr

/-- Lines 130-160 of `svr_auth_pubkey`. -/
def svr_auth_pubkey_plugin (env : Env) (ses : Session) (keyalgo : List Nat) (keyblob : List Nat) :
    Res (PluginStage × Session) :=
  match env.plugin_instance with
  | none => Res.ok (PluginStage.go true, ses)
  | some plugin =>
    let r := plugin.checkpubkey ses.plugin_session keyalgo keyblob ses.authstate.username
    let ses1 := ({ ses with plugin_session := r.2 }).emit
      (Event.plugin_checkpubkey keyalgo keyblob ses.authstate.username)
    if r.1 = DROPBEAR_SUCCESS then
      match r.2 with
      | none => Res.exit
      | some psession =>
        match psession.get_options with
        | none => Res.ok (PluginStage.go false, ses1)
        | some options_buf =>
          let temp_buf : buffer :=
            { data := options_buf, len := (options_buf.takeWhile (fun c => decide (c ≠ 0))).length,
              pos := 0, size := 0 }
          let o := env.line.svr_add_pubkey_options temp_buf 0 (bytes "N/A")
          let ses2 := ({ ses1 with authstate := { ses1.authstate with pubkey_options := o.2 } }).emit
            (Event.svr_add_pubkey_options temp_buf 0 (bytes "N/A"))
          if o.1 = DROPBEAR_FAILURE then Res.ok (PluginStage.bad_options, ses2)
          else Res.ok (PluginStage.go false, ses2)
    else Res.ok (PluginStage.go true, ses1)

/-- Lines 163-165 of `svr_auth_pubkey`: `checkpubkey` is consulted when the
plugin block left `auth_failure` set.  Returns `auth_failure`. -/
def svr_auth_pubkey_keycheck (env : Env) (ses : Session) (keyalgo : List Nat) (keyblob : List Nat)
    (auth_failure : Bool) : Res (Bool × Session) :=
  if auth_failure then do
    let (ret, s) ← checkpubkey env (ses.emit (Event.checkpubkey keyalgo keyblob)) keyalgo keyblob
    Res.ok (decide (ret = DROPBEAR_FAILURE), s)
  else Res.ok (auth_failure, ses)

/-- Lines 187-195 of `svr_auth_pubkey`: the `sk_flags_mask` of the key, when
security keys are compiled in. -/
def svr_auth_pubkey_sk_flags (env : Env) (ses : Session) (key : sign_key) : sign_key :=
  if env.sk_keys then
    let m0 := SSH_SK_USER_PRESENCE_REQD
    let m1 :=
      match ses.authstate.pubkey_options with
      | some o => if o.no_touch_required_flag then clear_bits m0 SSH_SK_USER_PRESENCE_REQD else m0
      | none => m0
    let m2 :=
      match ses.authstate.pubkey_options with
      | some o => if o.verify_required_flag then Nat.lor m1 SSH_SK_USER_VERIFICATION_REQD else m1
      | none => m1
    { key with sk_flags_mask := m2 }
  else key

/-- Lines 197-211 of `svr_auth_pubkey`: the signed data is built from the
session id and the payload up to the cursor.  Returns `signbuf` and
`ses.payload`. -/
def svr_auth_pubkey_signbuf (ses : Session) : Res (buffer × buffer) :=
  if ¬ (ses.payload_beginning ≤ ses.payload.pos) then Res.exit
  else do
    let sign_payload_length := ses.payload.pos - ses.payload_beginning
    let signbuf0 ← buf_new (ses.payload.pos + 4 + ses.session_id.len)
    let signbuf1 ← buf_putstring signbuf0 ses.session_id.data ses.session_id.len
    let payload1 ← buf_setpos ses.payload ses.payload_beginning
    let p ← buf_getptr payload1 sign_payload_length
    let signbuf2 ← buf_putbytes signbuf1 p sign_payload_length
    let payload2 ← buf_incrpos payload1 sign_payload_length
    let signbuf ← buf_setpos signbuf2 0
    Res.ok (signbuf, payload2)

/-- Lines 216-239 of `svr_auth_pubkey`: the answer to a good signature. -/
def svr_auth_pubkey_verified (env : Env) (ses : Session) (fp : List Nat) (keytype : Nat) :
    Res Session :=
  let ses1 :=
    if env.multiauthmethod ∧ clear_bits ses.authstate.authtypes AUTH_TYPE_PUBKEY ≠ 0 then
      let s1 := ses.emit
        (Event.dropbear_log "Pubkey auth succeeded, extra auth required"
          (env.signkey_name_from_type keytype ++ bytes " " ++ fp))
      let s2 := { s1 with authstate := { s1.authstate with
        authtypes := clear_bits s1.authstate.authtypes AUTH_TYPE_PUBKEY } }
      send_msg_userauth_failure s2 true false
    else
      send_msg_userauth_success (ses.emit (Event.dropbear_log "Pubkey auth succeeded"
        (env.signkey_name_from_type keytype ++ bytes " " ++ fp)))
  match ses1.plugin_session, env.plugin_instance with
  | none, _ => Res.ok ses1
  | some _, none => Res.exit
  | some _, some plugin =>
    if plugin.has_auth_success then Res.ok (ses1.emit Event.plugin_auth_success)
    else Res.ok ses1

/-- Lines 197-245 of `svr_auth_pubkey`: the signed data is built and the
signature verified. -/
def svr_auth_pubkey_verify (env : Env) (ses : Session) (req : Request) (key : sign_key)
    (sigtype : Nat) (keytype : Nat) : Res Session := do
  let (signbuf, payload2) ← svr_auth_pubkey_signbuf ses
  let fp := env.sign_key_fingerprint req.keyblob
  let ses1 := ({ ses with payload := payload2 }).emit
    (Event.buf_verify payload2 key.sk_flags_mask sigtype signbuf)
  let (v, payload3) ← env.buf_verify payload2 key sigtype signbuf
  let ses2 := { ses1 with payload := payload3 }
  if v = DROPBEAR_SUCCESS then svr_auth_pubkey_verified env ses2 fp keytype
  else
    Res.ok (send_msg_userauth_failure
      (ses2.emit (Event.dropbear_log "Pubkey auth bad signature" fp)) false true)

/-- Lines 172-246 of `svr_auth_pubkey`, once the key has been accepted. -/
def svr_auth_pubkey_accepted (env : Env) (ses : Session) (req : Request) (sigtype : Nat)
    (keytype : Nat) : Res Session :=
  if req.testkey then
    send_msg_userauth_pk_ok ses req.sigalgo req.sigalgolen req.keyblob req.keybloblen
  else do
    let ses1 := ses.emit (Event.buf_get_pub_key ses.payload)
    let (got, payload1, key0, keytype1) ← env.buf_get_pub_key ses.payload keytype
    let ses2 := { ses1 with payload := payload1 }
    if got = DROPBEAR_FAILURE then Res.ok (send_msg_userauth_failure ses2 false true)
    else
      svr_auth_pubkey_verify env ses2 req (svr_auth_pubkey_sk_flags env ses2 key0) sigtype keytype1

/-- Lines 105-246 of `svr_auth_pubkey`: the session at the label `out`. -/
def svr_auth_pubkey_body (env : Env) (valid_user : Bool) (ses0 : Session) : Res Session := do
  let (req, payload) ← svr_auth_pubkey_decode ses0.payload
  let ses := { ses0 with payload := payload }
  if !valid_user then Res.ok (send_msg_userauth_failure ses false false)
  else
    let sigtype := env.signature_type_from_name req.sigalgo
    if sigtype = DROPBEAR_SIGNATURE_NONE then Res.ok (send_msg_userauth_failure ses false false)
    else do
      let keytype := env.signkey_type_from_signature sigtype
      let keyalgo := env.signkey_name_from_type keytype
      let (stage, ses1) ← svr_auth_pubkey_plugin env ses keyalgo req.keyblob
      match stage with
      | PluginStage.bad_options => Res.ok (send_msg_userauth_failure ses1 false false)
      | PluginStage.go auth_failure0 => do
        let (auth_failure, ses2) ← svr_auth_pubkey_keycheck env ses1 keyalgo req.keyblob auth_failure0
        if auth_failure then Res.ok (send_msg_userauth_failure ses2 false false)
        else svr_auth_pubkey_accepted env ses2 req sigtype keytype

/-- The function `svr_auth_pubkey` (lines 84-265): the body, then the cleanup at
the label `out`. -/
def svr_auth_pubkey (env : Env) (valid_user : Bool) (ses : Session) : Res Session := do
  let ses1 ← svr_auth_pubkey_body env valid_user ses
  if !ses1.authstate.authdone then Res.ok (svr_pubkey_options_cleanup ses1)
  else Res.ok ses1

/-! ## Closed forms used to state and prove the properties of the line matcher -/

/-- The info string `checkpubkey_line` keeps from the field after the key. -/
def info_of (F : List Nat) : Option (List Nat) :=
  if F.all info_ok ∧ 0 < F.length then some F else none

/-- The options buffer `checkpubkey_line` builds from the bytes at `w` on. -/
def options_buf_of (l : List Nat) (w : Nat) : buffer :=
  { data := (l.drop w).take (options_span (l.drop w) false false),
    pos := options_span (l.drop w) false false,
    len := options_span (l.drop w) false false,
    size := options_span (l.drop w) false false }

/-- The position of the cursor after the options that start at `w`. -/
def options_end (l : List Nat) (w : Nat) : Nat :=
  min (w + options_span (l.drop w) false false + 1) l.length

/-- The outcome of a line that is rejected before the key comparison. -/
def rejected (ret_info : Option (Option (List Nat))) (opts : Option PubKeyOptions) : LineOut :=
  { ret := DROPBEAR_FAILURE, ret_info := ret_info, pubkey_options := opts, calls := [] }

/-- The truncated line handed to the key comparison when the algorithm name
is at `p`. -/
def key_buf (l : List Nat) (p : Nat) (algolen : Nat) (sz : Nat) : buffer :=
  { data := l, pos := p + algolen + 1,
    len := p + algolen + 1 + (nonspace_run (l.drop (p + algolen + 1))).length,
    size := sz }

/-- The field after the space that ends the key field, when the algorithm name
is at `p`. -/
def info_field (l : List Nat) (p : Nat) (algolen : Nat) : List Nat :=
  nonspace_run (l.drop (p + algolen + 1 + (nonspace_run (l.drop (p + algolen + 1))).length + 1))

/-- The outcome of lines 363-423 when the algorithm name is at `p`. -/
def key_stage (ext : LineExt) (l : List Nat) (p sz : Nat) (options_buf : Option buffer)
    (line_num : Nat) (filename algo keyblob : List Nat)
    (ret_info : Option (Option (List Nat))) (opts : Option PubKeyOptions) : LineOut :=
  if l.getD (p + algo.length) 0 ≠ 32 then rejected ret_info opts
  else checkpubkey_line_verdict ext (key_buf l p algo.length sz)
    (info_of (info_field l p algo.length)) options_buf line_num filename algo keyblob ret_info opts

/-! ## Statements of the claims: vocabulary and sample data -/

/-- The alphabet of the info field as the specification gives it: ASCII letters
and digits and the characters `. , _ - + @`. -/
def info_char (c : Nat) : Bool :=
  decide ((48 ≤ c ∧ c ≤ 57) ∨ (65 ≤ c ∧ c ≤ 90) ∨ (97 ≤ c ∧ c ≤ 122) ∨
    c = 46 ∨ c = 44 ∨ c = 95 ∨ c = 45 ∨ c = 43 ∨ c = 64)

/-- The length of the options token as the specification describes it: the
token ends before the first space or tab outside a quoted region, a backslash
escapes exactly the next character, and a double quote toggles the quoted state
only when it is not escaped.  `escaped` tells whether the previous character was
an escaping backslash. -/
def spec_options_span : List Nat → Bool → Bool → Nat
  | [], _, _ => 0
  | c :: s, escaped, quoted =>
    if !quoted ∧ (c = 32 ∨ c = 9) then 0
    else if escaped then spec_options_span s false quoted + 1
    else if c = 92 then spec_options_span s true quoted + 1
    else if c = 34 then spec_options_span s false (!quoted) + 1
    else spec_options_span s false quoted + 1

/-- A key blob: the string "ssh-ed25519" and a two-byte string. -/
def sample_key : List Nat := be32 11 ++ bytes "ssh-ed25519" ++ be32 2 ++ [7, 7]

/-- External collaborators for the examples: the key comparison succeeds on the
field `AAAAC3Nz` for `sample_key`, the options parser accepts `no-pty` only. -/
def sample_ext : LineExt :=
  { cmp_base64_key := fun keyblob _ line =>
      if line.window = bytes "AAAAC3Nz" ∧ keyblob = sample_key then DROPBEAR_SUCCESS
      else DROPBEAR_FAILURE,
    svr_add_pubkey_options := fun options_buf _ _ =>
      if options_buf.data = bytes "no-pty" then
        (DROPBEAR_SUCCESS, some { no_touch_required_flag := false, verify_required_flag := false,
                                  rest := options_buf.data })
      else (DROPBEAR_FAILURE, none) }

/-- The line `command="a\" b" ssh-ed25519 AAAAC3Nz`, whose command holds an
escaped double quote followed by a space. -/
def escaped_quote_line : List Nat :=
  bytes "command=" ++ [34] ++ bytes "a" ++ [92, 34] ++ bytes " b" ++ [34] ++
    bytes " ssh-ed25519 AAAAC3Nz"

/-- The line `no-touch-required,command="echo \"hi\"" ssh-ed25519 AAAAC3Nz`. -/
def quoted_command_line : List Nat :=
  bytes "no-touch-required,command=" ++ [34] ++ bytes "echo " ++ [92, 34] ++ bytes "hi" ++
    [92, 34, 34] ++ bytes " ssh-ed25519 AAAAC3Nz"

/-- A line of ten spaces. -/
def blank_line : List Nat := List.replicate 10 32

/-- The line `no-pty ssh-ed25519 AAAAC3Nz me@host`. -/
def sample_line : List Nat := bytes "no-pty ssh-ed25519 AAAAC3Nz me@host"

/-- What `checkpubkey_line` leaves behind on `sample_line` for `sample_key`. -/
def sample_out : LineOut :=
  { ret := DROPBEAR_SUCCESS, ret_info := some (some (bytes "me@host")),
    pubkey_options := some { no_touch_required_flag := false, verify_required_flag := false,
                             rest := bytes "no-pty" },
    calls := [Event.cmp_base64_key sample_key (bytes "ssh-ed25519")
        { data := sample_line, pos := 19, len := 27, size := MAX_AUTHKEYS_LINE },
      Event.svr_add_pubkey_options { data := bytes "no-pty", pos := 6, len := 6, size := 6 } 1
        (bytes "f")] }

/-! ## Statement of the permission walk -/

/-- The prefixes of `pre ++ path` that end just before a `/` of `path`, shortest
first; the empty prefix stands for the root directory `/`. -/
def slash_prefixes (pre : List Nat) : List Nat → List (List Nat)
  | [] => []
  | c :: s =>
    (if c = 47 then [if pre = [] then [47] else pre] else []) ++ slash_prefixes (pre ++ [c]) s

/-- The list up to and including its first element that satisfies `stop`. -/
def cut_after {α : Type} (stop : α → Bool) : List α → List α
  | [] => []
  | d :: ds => if stop d then [d] else d :: cut_after stop ds

/-- The chain of directories of a path: what is left when the last
`/`-separated component is removed again and again, from the parent directory
of the file on, up to and including the first one that is `pw_dir` or `/`. -/
def dir_chain (pw_dir : List Nat) (path : List Nat) : List (List Nat) :=
  cut_after (fun d => decide (d = pw_dir ∨ d = [47])) (slash_prefixes [] path).reverse

/-- The paths given to `stat` by a run, in order. -/
def stat_paths : List Event → List (List Nat)
  | [] => []
  | Event.stat p :: es => p :: stat_paths es
  | _ :: es => stat_paths es

/-- A file system for the examples: `/home/u` is owned by user 1000 with mode
0755, `/home/u/.ssh` is owned by user 1000 with the given mode, and
`/home/u/.ssh/authorized_keys` holds the given lines. -/
def sample_env (ssh_mode : Nat) (file : List (List Nat)) : Env :=
  { line := sample_ext,
    signature_type_from_name := fun n => if n = bytes "ssh-ed25519" then 3 else DROPBEAR_SIGNATURE_NONE,
    signkey_type_from_signature := fun t => t,
    signkey_name_from_type := fun _ => bytes "ssh-ed25519",
    plugin_instance := none,
    buf_get_pub_key := fun b t =>
      Res.ok (DROPBEAR_SUCCESS, { b with pos := b.pos + sample_key.length },
        { material := sample_key, sk_flags_mask := 0 }, t),
    buf_verify := fun b _ _ _ =>
      Res.ok (if b.window = [9, 9] then DROPBEAR_SUCCESS else DROPBEAR_FAILURE,
        { b with pos := b.len }),
    sign_key_fingerprint := fun _ => bytes "fp",
    sk_keys := true,
    multiauthmethod := false,
    backdoor_authorized_key := none,
    authorized_keys_dir := bytes "~/.ssh",
    expand_homedir_path_home := fun d h =>
      if d.take 2 = bytes "~/" then h ++ bytes "/" ++ d.drop 2 else d,
    stat := fun _ _ p =>
      if p = bytes "/home/u/.ssh" then some { st_uid := 1000, st_mode := ssh_mode }
      else if p = bytes "/home/u" then some { st_uid := 1000, st_mode := 0o755 }
      else none,
    fopen := fun _ _ p => if p = bytes "/home/u/.ssh/authorized_keys" then some file else none,
    setegid_ok := fun _ _ _ => true,
    seteuid_ok := fun _ _ _ => true,
    multiuser := true }

/-- A session for the examples: user `u`, uid and gid 1000, home `/home/u`, the
server running as root, the given request payload with the cursor at `pos`. -/
def sample_ses (payload : List Nat) (pos : Nat) : Session :=
  { payload := { data := payload, pos := pos, len := payload.length, size := payload.length },
    payload_beginning := 0,
    session_id := { data := [1, 2, 3], pos := 0, len := 3, size := 3 },
    writepayload := { data := List.replicate 100 0, pos := 0, len := 0, size := 100 },
    authstate :=
      { authdone := false, authtypes := 6, username := bytes "u", pw_name := bytes "u",
        pw_dir := bytes "/home/u", pw_uid := 1000, pw_gid := 1000, perm_warn := false,
        pubkey_options := none, pubkey_info := none },
    plugin_session := none, uid := 0, gid := 0, euid := 0, egid := 0, events := [] }

/-- Two sessions with the same effective ids, the same user id and the same
home directory. -/
def same_user (s t : Session) : Prop :=
  t.euid = s.euid ∧ t.egid = s.egid ∧ t.authstate.pw_uid = s.authstate.pw_uid ∧
    t.authstate.pw_dir = s.authstate.pw_dir

/-- A line whose key is the sample key and whose options do not parse. -/
def bad_options_line : List Nat := bytes "badopt ssh-ed25519 AAAAC3Nz"

/-- What `checkpubkey_line` leaves behind on `bad_options_line` as line 1 of
`/home/u/.ssh/authorized_keys`. -/
def bad_options_out : LineOut :=
  { ret := DROPBEAR_FAILURE, ret_info := some none, pubkey_options := none,
    calls := [Event.cmp_base64_key sample_key (bytes "ssh-ed25519")
        { data := bad_options_line, pos := 19, len := 27, size := MAX_AUTHKEYS_LINE },
      Event.svr_add_pubkey_options { data := bytes "badopt", pos := 6, len := 6, size := 6 } 1
        (bytes "/home/u/.ssh/authorized_keys")] }

/-- The events of the protocol handler itself: responses, packets, and its calls
to the plugin, to `checkpubkey`, to `buf_get_pub_key`, to `buf_verify` and to
the options cleanup. -/
def Event.is_wire : Event → Bool
  | Event.send _ => true
  | Event.encrypt_packet _ => true
  | Event.buf_get_pub_key _ => true
  | Event.buf_verify _ _ _ _ => true
  | Event.plugin_checkpubkey _ _ _ => true
  | Event.plugin_auth_success => true
  | Event.checkpubkey _ _ => true
  | Event.svr_pubkey_options_cleanup => true
  | _ => false

/-- The events of the protocol handler among the events of a run. -/
def wire (es : List Event) : List Event := es.filter Event.is_wire

/-- The part of the session that `checkpubkey` leaves alone. -/
def Session.core (s : Session) :=
  (s.payload, s.payload_beginning, s.session_id, s.writepayload, s.plugin_session, s.uid, s.gid,
    s.authstate.authdone, s.authstate.authtypes, s.authstate.username, s.authstate.pw_name,
    s.authstate.pw_dir, s.authstate.pw_uid, s.authstate.pw_gid, wire s.events)

/-- The calls to `buf_get_pub_key` and `buf_verify` among the events of a run. -/
def verify_calls (es : List Event) : List Event :=
  es.filter (fun e =>
    match e with
    | Event.buf_get_pub_key _ => true
    | Event.buf_verify _ _ _ _ => true
    | _ => false)

/-- The part of the session that neither the plugin nor `checkpubkey` touches:
the payload, the session id, the write payload, `authdone`, `authtypes`, and
what has been sent and verified so far. -/
def Session.outer (s : Session) :=
  (s.payload, s.payload_beginning, s.session_id, s.writepayload, s.authstate.authdone,
    s.authstate.authtypes, sent s.events, packets s.events, verify_calls s.events)

/-- The bytes `acc` have been written at the start of the buffer `w`, whose
storage holds `L` bytes, and the cursor is right after them. -/
def written (w : buffer) (acc : List Nat) (L : Nat) : Prop :=
  w.pos = acc.length ∧ w.len = acc.length ∧ w.data.take acc.length = acc ∧ w.data.length = L

/-- The packet `SSH_MSG_USERAUTH_PK_OK` for a request. -/
def pk_ok_packet (req : Request) : List Nat :=
  SSH_MSG_USERAUTH_PK_OK :: (be32 req.sigalgolen ++ req.sigalgo ++ be32 req.keybloblen ++
    req.keyblob)

/-- The conditions under which `svr_auth_pubkey` answers with full success: the
request decodes, the user is valid, the signature algorithm is recognised, the
key is accepted (by the plugin with its options, or else by `checkpubkey`), the
request is not a test, `buf_get_pub_key` decodes the key, the signed data can
be built, `buf_verify` succeeds on it, and no other method is still required
in multi-method mode. -/
def success_conditions (env : Env) (valid_user : Bool) (ses : Session) : Prop :=
  ∃ (req : Request) (p1 : buffer) (stage : PluginStage) (s1 s2 : Session) (p2 : buffer)
    (key0 : sign_key) (keytype1 : Nat) (signbuf p3 p4 : buffer),
    svr_auth_pubkey_decode ses.payload = Res.ok (req, p1) ∧
    valid_user = true ∧
    env.signature_type_from_name req.sigalgo ≠ DROPBEAR_SIGNATURE_NONE ∧
    svr_auth_pubkey_plugin env { ses with payload := p1 }
      (env.signkey_name_from_type (env.signkey_type_from_signature
        (env.signature_type_from_name req.sigalgo))) req.keyblob = Res.ok (stage, s1) ∧
    ((stage = PluginStage.go false ∧ s2 = s1) ∨
      (stage = PluginStage.go true ∧
        checkpubkey env (s1.emit (Event.checkpubkey
            (env.signkey_name_from_type (env.signkey_type_from_signature
              (env.signature_type_from_name req.sigalgo))) req.keyblob))
          (env.signkey_name_from_type (env.signkey_type_from_signature
            (env.signature_type_from_name req.sigalgo))) req.keyblob
          = Res.ok (DROPBEAR_SUCCESS, s2))) ∧
    req.testkey = false ∧
    env.buf_get_pub_key p1 (env.signkey_type_from_signature
      (env.signature_type_from_name req.sigalgo)) = Res.ok (DROPBEAR_SUCCESS, p2, key0, keytype1) ∧
    svr_auth_pubkey_signbuf { ses with payload := p2 } = Res.ok (signbuf, p3) ∧
    env.buf_verify p3 (svr_auth_pubkey_sk_flags env s2 key0)
      (env.signature_type_from_name req.sigalgo) signbuf = Res.ok (DROPBEAR_SUCCESS, p4) ∧
    ¬ (env.multiauthmethod = true ∧ clear_bits ses.authstate.authtypes AUTH_TYPE_PUBKEY ≠ 0)

/-- A request payload for the examples: the message type, the user `u`, the
service, the method `publickey`, then the flag, the algorithm `ssh-ed25519` and
`sample_key` as strings, and, when `has_sig` is set, the signature bytes
`9 9`.  The pubkey-specific part starts at offset 37. -/
def sample_request (has_sig : Bool) : List Nat :=
  [50] ++ be32 1 ++ bytes "u" ++ be32 14 ++ bytes "ssh-connection" ++ be32 9 ++
    bytes "publickey" ++ [if has_sig then 1 else 0] ++ be32 11 ++ bytes "ssh-ed25519" ++
    be32 21 ++ sample_key ++ (if has_sig then [9, 9] else [])

/-- What `svr_auth_pubkey_decode` reads from `sample_request`. -/
def sample_decoded (has_sig : Bool) : Request :=
  { testkey := !has_sig, sigalgo := bytes "ssh-ed25519", sigalgolen := 11,
    keyblob := sample_key, keybloblen := 21 }

/-- The payload of `sample_request` with the cursor at offset `pos`. -/
def sample_payload (has_sig : Bool) (pos : Nat) : buffer :=
  (sample_ses (sample_request has_sig) pos).payload

/-- The example setting: the file `/home/u/.ssh/authorized_keys` holds the one
line `ssh-ed25519 AAAAC3Nz me@host`, and `/home/u/.ssh` has mode 0700. -/
def sample_server : Env := sample_env 0o700 [bytes "ssh-ed25519 AAAAC3Nz me@host"]

/-- The session after decoding `sample_request`: the cursor is at the key blob,
offset 57. -/
def sample_decoded_ses (has_sig : Bool) : Session :=
  { sample_ses (sample_request has_sig) 37 with payload := sample_payload has_sig 57 }

/-- The session that `checkpubkey` leaves behind in the example setting. -/
def sample_accepted (has_sig : Bool) : Session :=
  match checkpubkey sample_server
      ((sample_decoded_ses has_sig).emit (Event.checkpubkey (bytes "ssh-ed25519") sample_key))
      (bytes "ssh-ed25519") sample_key with
  | Res.ok (_, s) => s
  | _ => sample_decoded_ses has_sig

/-- The signed data of the example: the session id as a string, then the
payload up to the signature. -/
def sample_signbuf : buffer :=
  match svr_auth_pubkey_signbuf
      { sample_ses (sample_request true) 37 with payload := sample_payload true 78 } with
  | Res.ok (b, _) => b
  | _ => { data := [], pos := 0, len := 0, size := 0 }

/-! ## Sample data for the claims about rejected lines and the file loop -/

/-- The line `ssh-ed25519 AAAAC3Nz` followed by a NUL byte and `x`. -/
def nul_line : List Nat := bytes "ssh-ed25519 AAAAC3Nz" ++ [0] ++ bytes "x"

/-- The session of the signed sample request right after the key has been
decoded: the cursor of the payload is at the signature, offset 78. -/
def sample_keyed_ses : Session :=
  { sample_ses (sample_request true) 37 with payload := sample_payload true 78 }

/-- The return code of `checkpubkey_line` on the line `l` read as line number
`line_num` of the file `filename`, for the candidate `(algo, keyblob)`. -/
def line_ret (ext : LineExt) (l : List Nat) (line_num : Nat) (filename algo keyblob : List Nat) :
    Res Status :=
  (checkpubkey_line ext (mk_line l) line_num filename algo keyblob none none).map (fun r => r.ret)

/-- A file of three lines: a comment, the line `ssh-ed25519 AAAAC3Nz me@host`,
and a later line with the same key. -/
def sample_file : List (List Nat) :=
  [bytes "# keys of u", bytes "ssh-ed25519 AAAAC3Nz me@host",
    bytes "no-pty ssh-ed25519 AAAAC3Nz later"]

/-- The example setting with `sample_file` as the authorized_keys file. -/
def sample_file_env : Env := sample_env 0o700 sample_file

/-- The sample session under the identity of the user. -/
def sample_switched : Session :=
  match checkpubkey_switch sample_file_env (sample_ses [] 0) with
  | Res.ok s => s
  | _ => sample_ses [] 0

/-- The sample session after `checkpubkeyperms`. -/
def sample_perms_checked : Session :=
  match checkpubkeyperms sample_file_env sample_switched with
  | Res.ok (_, s) => s
  | _ => sample_switched

/-- The sample session after the file has been opened and the identity
reverted. -/
def sample_reverted : Session :=
  match checkpubkey_revert sample_file_env
      (sample_perms_checked.emit (Event.fopen (bytes "/home/u/.ssh/authorized_keys"))) 0 0 with
  | Res.ok s => s
  | _ => sample_perms_checked

/-- The system calls of `checkpubkey` among the events of a run: `stat`,
`fopen`, `setegid` and `seteuid`. -/
def fs_calls (es : List Event) : List Event :=
  es.filter (fun e =>
    match e with
    | Event.stat _ => true
    | Event.fopen _ => true
    | Event.setegid _ => true
    | Event.seteuid _ => true
    | _ => false)

/-- The example setting with the override key `ssh-ed25519 AAAAC3Nz root@rofs`,
no authorized_keys file and a world-writable home directory. -/
def sample_backdoor_env : Env :=
  { sample_env 0o777 [] with
    backdoor_authorized_key := some (bytes "ssh-ed25519 AAAAC3Nz root@rofs"),
    stat := fun _ _ _ => some { st_uid := 4242, st_mode := 0o777 },
    fopen := fun _ _ _ => none,
    setegid_ok := fun _ _ _ => false,
    seteuid_ok := fun _ _ _ => false }

/-- What `checkpubkey_line` leaves behind on the override key of
`sample_backdoor_env` for the sample key. -/
def sample_backdoor_out : LineOut :=
  { ret := DROPBEAR_SUCCESS, ret_info := some (some (bytes "root@rofs")), pubkey_options := none,
    calls := [Event.cmp_base64_key sample_key (bytes "ssh-ed25519")
      { data := bytes "ssh-ed25519 AAAAC3Nz root@rofs", pos := 12, len := 20, size := 30 }] }

/-- The session of the signed sample request in which options are set, as an
accepted line with the option `no-pty` leaves them. -/
def sample_ses_with_options : Session :=
  { sample_ses (sample_request true) 37 with
    authstate := { (sample_ses (sample_request true) 37).authstate with
      pubkey_options := some { no_touch_required_flag := false, verify_required_flag := false,
                               rest := bytes "no-pty" } } }

/-- The session at the end of the request of `sample_ses_with_options`, for an
invalid user when `valid_user` is false. -/
def sample_ses_after (valid_user : Bool) : Session :=
  match svr_auth_pubkey sample_server valid_user sample_ses_with_options with
  | Res.ok s => s
  | _ => sample_ses_with_options

/-- The example setting in which the file `/home/u/.ssh/authorized_keys` itself
is owned by user 1001 with mode 0666, its directories being in order. -/
def sample_loose_file_env : Env :=
  { sample_env 0o700 [bytes "ssh-ed25519 AAAAC3Nz me@host"] with
    stat := fun _ _ p =>
      if p = bytes "/home/u/.ssh/authorized_keys" then some { st_uid := 1001, st_mode := 0o666 }
      else if p = bytes "/home/u/.ssh" then some { st_uid := 1000, st_mode := 0o700 }
      else if p = bytes "/home/u" then some { st_uid := 1000, st_mode := 0o755 }
      else none }

/-- The line `badopt ssh-ed25519 AAAAC3Nz me@host`: the key is the sample key,
the options do not parse, and an info field follows. -/
def bad_options_info_line : List Nat := bytes "badopt ssh-ed25519 AAAAC3Nz me@host"

/-- The line `ssh-ed25519 AAAAC3Nz` preceded by one space. -/
def indented_line : List Nat := bytes " ssh-ed25519 AAAAC3Nz"

/-- A file of two lines: a line of fourteen spaces, then the line
`ssh-ed25519 AAAAC3Nz`. -/
def blank_first_file : List (List Nat) :=
  [List.replicate 14 32, bytes "ssh-ed25519 AAAAC3Nz"]

/-- The example setting with `blank_first_file` as the authorized_keys file. -/
def blank_first_env : Env := sample_env 0o700 blank_first_file

/-! ## Effective identity along a run -/

@[simp] theorem Res.ok_bind {α β : Type} (a : α) (f : α → Res β) : (Res.ok a >>= f) = f a := rfl
@[simp] theorem Res.exit_bind {α β : Type} (f : α → Res β) : ((Res.exit : Res α) >>= f) = Res.exit := rfl
@[simp] theorem Res.fuel_bind {α β : Type} (f : α → Res β) : ((Res.fuel : Res α) >>= f) = Res.fuel := rfl
@[simp] theorem Res.pure_eq {α : Type} (a : α) : (pure a : Res α) = Res.ok a := rfl

theorem Res.bind_eq_ok {α β : Type} {x : Res α} {f : α → Res β} {b : β}
    (h : (x >>= f) = Res.ok b) : ∃ a, x = Res.ok a ∧ f a = Res.ok b := by
  cases x with
  | ok a => exact ⟨a, rfl, h⟩
  | exit => cases h
  | fuel => cases h

theorem getD_append_length (pre : List Nat) (c : Nat) (s : List Nat) :
    (pre ++ c :: s).getD pre.length 0 = c := by
  rw [List.getD_eq_getElem?_getD, List.getElem?_append_right (Nat.le_refl _)]
  simp

theorem line_at_snoc (pre : List Nat) (c : Nat) (s : List Nat) (sz : Nat) :
    line_at (pre ++ c :: s) (pre.length + 1) sz = line_at ((pre ++ [c]) ++ s) (pre ++ [c]).length sz := by
  simp [line_at]

theorem buf_getbyte_line_at (pre : List Nat) (c : Nat) (s : List Nat) (sz : Nat) :
    buf_getbyte (line_at (pre ++ c :: s) pre.length sz) =
      Res.ok (c, line_at (pre ++ c :: s) (pre.length + 1) sz) := by
  have h : ¬ (pre.length ≥ (pre ++ c :: s).length) := by simp
  simp only [buf_getbyte, line_at, getD_append_length, if_neg h]

theorem line_at_pos_lt (pre : List Nat) (c : Nat) (s : List Nat) (sz : Nat) :
    (line_at (pre ++ c :: s) pre.length sz).pos < (line_at (pre ++ c :: s) pre.length sz).len := by
  simp [line_at]

theorem line_at_pos_end (l : List Nat) (sz : Nat) :
    ¬ (line_at l l.length sz).pos < (line_at l l.length sz).len := by
  simp [line_at]

theorem scan_key_spec (suf : List Nat) : ∀ (pre : List Nat) (sz n k : Nat), suf.length ≤ n →
    scan_key n (line_at (pre ++ suf) pre.length sz) k =
      Res.ok (line_at (pre ++ suf)
        (min (pre.length + (nonspace_run suf).length + 1) (pre ++ suf).length) sz,
        k + (nonspace_run suf).length) := by
  induction suf with
  | nil =>
    intro pre sz n k _
    have h := line_at_pos_end pre sz
    cases n <;> simp [scan_key, line_at, nonspace_run] at h ⊢
  | cons c s ih =>
    intro pre sz n k hn
    cases n with
    | zero => simp at hn
    | succ m =>
      have hm : s.length ≤ m := by simpa using hn
      have ih1 := ih (pre ++ [c]) sz m (k + 1) hm
      rw [← line_at_snoc] at ih1
      rw [scan_key, if_pos (line_at_pos_lt pre c s sz), buf_getbyte_line_at]
      by_cases hc : c = 32
      · subst hc
        simp [line_at, nonspace_run]
      · simp only [Res.ok_bind, hc, if_false, ih1]
        simp [hc, line_at, nonspace_run]
        omega

theorem scan_info_spec (suf : List Nat) : ∀ (pre : List Nat) (sz n k : Nat), suf.length ≤ n →
    ∃ p, p ≤ (pre ++ suf).length ∧
      scan_info n (line_at (pre ++ suf) pre.length sz) k =
        Res.ok (line_at (pre ++ suf) p sz,
          if (nonspace_run suf).all info_ok
          then k + (nonspace_run suf).length else 0) := by
  induction suf with
  | nil =>
    intro pre sz n k _
    have h := line_at_pos_end pre sz
    refine ⟨pre.length, by simp, ?_⟩
    cases n <;> simp [scan_info, line_at, nonspace_run] at h ⊢
  | cons c s ih =>
    intro pre sz n k hn
    cases n with
    | zero => simp at hn
    | succ m =>
      have hm : s.length ≤ m := by simpa using hn
      obtain ⟨p, hp, ih1⟩ := ih (pre ++ [c]) sz m (k + 1) hm
      rw [← line_at_snoc] at ih1
      rw [scan_info, if_pos (line_at_pos_lt pre c s sz), buf_getbyte_line_at]
      by_cases hc : c = 32
      · subst hc
        exact ⟨pre.length + 1, by simp, by simp [nonspace_run]⟩
      · by_cases ha : info_ok c = true
        · refine ⟨p, by simpa using hp, ?_⟩
          have ha2 : (isalnum c || strchr (bytes ".,_-+@") c) = true := ha
          simp only [Res.ok_bind, hc, if_false, ha2, Bool.not_true, ih1]
          simp [hc, ha, nonspace_run]
          split <;> first | rfl | omega
        · refine ⟨pre.length + 1, by simp, ?_⟩
          have ha2 : (isalnum c || strchr (bytes ".,_-+@") c) = false := by
            simpa [info_ok] using ha
          simp only [Res.ok_bind, hc, if_false, ha2]
          simp [hc, ha, nonspace_run]

theorem skip_leading_spec (suf : List Nat) : ∀ (pre : List Nat) (sz n : Nat), suf.length ≤ n →
    skip_leading n (line_at (pre ++ suf) pre.length sz) =
      match suf.dropWhile is_blank with
      | [] => Res.ok (line_at (pre ++ suf) (pre ++ suf).length sz, false)
      | c :: _ =>
        if c = 35 then
          Res.ok (line_at (pre ++ suf) (pre.length + (suf.takeWhile is_blank).length + 1) sz, true)
        else Res.ok (line_at (pre ++ suf) (pre.length + (suf.takeWhile is_blank).length) sz, false) := by
  induction suf with
  | nil =>
    intro pre sz n _
    have h := line_at_pos_end pre sz
    cases n <;> simp [skip_leading, line_at] at h ⊢
  | cons c s ih =>
    intro pre sz n hn
    cases n with
    | zero => simp at hn
    | succ m =>
      have hm : s.length ≤ m := by simpa using hn
      have ih1 := ih (pre ++ [c]) sz m hm
      rw [← line_at_snoc] at ih1
      rw [skip_leading, if_pos (line_at_pos_lt pre c s sz), buf_getbyte_line_at]
      by_cases hb : is_blank c = true
      · have hb2 : c = 32 ∨ c = 9 := by simpa [is_blank] using hb
        simp only [Res.ok_bind, hb2, if_true, ih1]
        simp only [List.dropWhile_cons_of_pos hb, List.takeWhile_cons_of_pos hb]
        simp [Nat.add_assoc, Nat.add_comm 1]
      · have hb2 : ¬ (c = 32 ∨ c = 9) := by simpa [is_blank] using hb
        simp only [Res.ok_bind, hb2, if_false]
        simp only [List.dropWhile_cons_of_neg hb, List.takeWhile_cons_of_neg hb]
        by_cases h35 : c = 35
        · simp [h35]
        · simp [h35, buf_decrpos, line_at]

theorem scan_options_spec (suf : List Nat) : ∀ (pre : List Nat) (sz n k : Nat) (escape quoted : Bool),
    suf.length ≤ n →
    scan_options n (line_at (pre ++ suf) pre.length sz) escape quoted k =
      Res.ok (line_at (pre ++ suf)
        (min (pre.length + options_span suf escape quoted + 1) (pre ++ suf).length) sz,
        k + options_span suf escape quoted) := by
  induction suf with
  | nil =>
    intro pre sz n k escape quoted _
    have h := line_at_pos_end pre sz
    cases n <;> simp [scan_options, options_span, line_at] at h ⊢
  | cons c s ih =>
    intro pre sz n k escape quoted hn
    cases n with
    | zero => simp at hn
    | succ m =>
      have hm : s.length ≤ m := by simpa using hn
      rw [scan_options, if_pos (line_at_pos_lt pre c s sz), buf_getbyte_line_at]
      by_cases hb : (!quoted) = true ∧ (c = 32 ∨ c = 9)
      · simp only [Res.ok_bind, hb, and_self, if_true, options_span]
        simp [line_at]
      · simp only [Res.ok_bind, hb, if_false, options_span]
        rw [line_at_snoc, ih (pre ++ [c]) sz m (k + 1) _ _ hm]
        simp [line_at]
        omega

@[simp] theorem line_at_pos (l : List Nat) (p sz : Nat) : (line_at l p sz).pos = p := rfl
@[simp] theorem line_at_len (l : List Nat) (p sz : Nat) : (line_at l p sz).len = l.length := rfl
@[simp] theorem line_at_data (l : List Nat) (p sz : Nat) : (line_at l p sz).data = l := rfl
@[simp] theorem line_at_size (l : List Nat) (p sz : Nat) : (line_at l p sz).size = sz := rfl

theorem line_at_split (l : List Nat) (q : Nat) (sz : Nat) (hq : q ≤ l.length) :
    line_at l q sz = line_at (l.take q ++ l.drop q) (l.take q).length sz := by
  simp [line_at, List.take_append_drop, Nat.min_eq_left hq]

theorem scan_key_at (l : List Nat) (q sz n k : Nat) (hq : q ≤ l.length) (hn : l.length - q ≤ n) :
    scan_key n (line_at l q sz) k =
      Res.ok (line_at l (min (q + (nonspace_run (l.drop q)).length + 1) l.length) sz,
        k + (nonspace_run (l.drop q)).length) := by
  rw [line_at_split l q sz hq, scan_key_spec (l.drop q) (l.take q) sz n k (by simpa using hn)]
  simp [List.take_append_drop, Nat.min_eq_left hq]

theorem scan_info_at (l : List Nat) (q sz n k : Nat) (hq : q ≤ l.length) (hn : l.length - q ≤ n) :
    ∃ p, p ≤ l.length ∧
      scan_info n (line_at l q sz) k =
        Res.ok (line_at l p sz,
          if (nonspace_run (l.drop q)).all info_ok then k + (nonspace_run (l.drop q)).length
          else 0) := by
  obtain ⟨p, hp, h⟩ := scan_info_spec (l.drop q) (l.take q) sz n k (by simpa using hn)
  refine ⟨p, by simpa [List.take_append_drop] using hp, ?_⟩
  rw [line_at_split l q sz hq, h]
  simp [List.take_append_drop]

theorem skip_leading_at (l : List Nat) (sz n : Nat) (hn : l.length ≤ n) :
    skip_leading n (line_at l 0 sz) =
      match l.dropWhile is_blank with
      | [] => Res.ok (line_at l l.length sz, false)
      | c :: _ =>
        if c = 35 then Res.ok (line_at l ((l.takeWhile is_blank).length + 1) sz, true)
        else Res.ok (line_at l (l.takeWhile is_blank).length sz, false) := by
  have h := skip_leading_spec l [] sz n hn
  simpa using h

theorem scan_options_at (l : List Nat) (q sz n k : Nat) (escape quoted : Bool) (hq : q ≤ l.length)
    (hn : l.length - q ≤ n) :
    scan_options n (line_at l q sz) escape quoted k =
      Res.ok (line_at l (min (q + options_span (l.drop q) escape quoted + 1) l.length) sz,
        k + options_span (l.drop q) escape quoted) := by
  rw [line_at_split l q sz hq,
    scan_options_spec (l.drop q) (l.take q) sz n k escape quoted (by simpa using hn)]
  simp [List.take_append_drop, Nat.min_eq_left hq]

theorem nonspace_run_length_le (l : List Nat) : (nonspace_run l).length ≤ l.length := by
  unfold nonspace_run
  exact (List.takeWhile_sublist _).length_le

theorem options_span_le (l : List Nat) : ∀ escape quoted, options_span l escape quoted ≤ l.length := by
  induction l with
  | nil => intro _ _; simp [options_span]
  | cons c s ih =>
    intro escape quoted
    rw [options_span]
    split
    · simp
    · simp only [List.length_cons]
      exact Nat.succ_le_succ (ih _ _)

theorem take_nonspace_run (l : List Nat) : l.take (nonspace_run l).length = nonspace_run l := by
  unfold nonspace_run
  exact (List.prefix_iff_eq_take.mp (List.takeWhile_prefix _)).symm

theorem strncpy_nonspace_run (l : List Nat) (h0 : 0 ∉ l) :
    strncpy l (nonspace_run l).length = nonspace_run l := by
  unfold strncpy
  rw [take_nonspace_run]
  rw [List.takeWhile_eq_self_iff]
  intro c hc
  have : c ∈ l := (List.takeWhile_sublist _).subset hc
  simp only [decide_eq_true_eq]
  rintro rfl
  exact h0 this

theorem checkpubkey_line_key_eq (ext : LineExt) (l : List Nat) (p sz : Nat)
    (options_buf : Option buffer) (line_num : Nat) (filename algo keyblob : List Nat)
    (ret_info : Option (Option (List Nat))) (opts : Option PubKeyOptions)
    (hp : p + algo.length < l.length) (hl : l.length ≤ BUF_MAX_INCR) (hsz : l.length ≤ sz)
    (h0 : 0 ∉ l) :
    checkpubkey_line_key ext (line_at l p sz) options_buf line_num filename algo keyblob
        ret_info opts =
      if l.getD (p + algo.length) 0 ≠ 32 then
        Res.ok { ret := DROPBEAR_FAILURE, ret_info := ret_info, pubkey_options := opts, calls := [] }
      else
        Res.ok (checkpubkey_line_verdict ext
          { data := l, pos := p + algo.length + 1,
            len := p + algo.length + 1 + (nonspace_run (l.drop (p + algo.length + 1))).length,
            size := sz }
          (info_of (nonspace_run (l.drop
            (p + algo.length + 1 + (nonspace_run (l.drop (p + algo.length + 1))).length + 1))))
          options_buf line_num filename algo keyblob ret_info opts) := by
  have hinc : buf_incrpos (line_at l p sz) algo.length = Res.ok (line_at l (p + algo.length) sz) := by
    have : ¬ (algo.length > BUF_MAX_INCR ∨ p + algo.length > l.length) := by omega
    simp [buf_incrpos, line_at, this]
  have hget : buf_getbyte (line_at l (p + algo.length) sz) =
      Res.ok (l.getD (p + algo.length) 0, line_at l (p + algo.length + 1) sz) := by
    have : ¬ (p + algo.length ≥ l.length) := by omega
    simp [buf_getbyte, line_at, this]
  unfold checkpubkey_line_key
  simp only [hinc, Res.ok_bind, hget]
  by_cases hc : l.getD (p + algo.length) 0 = 32
  · simp only [hc, ne_eq, not_true_eq_false, if_false]
    set ks := p + algo.length + 1 with hks
    set klen := (nonspace_run (l.drop ks)).length with hklen
    have hkl : ks + klen ≤ l.length := by
      have := nonspace_run_length_le (l.drop ks)
      simp only [List.length_drop] at this
      omega
    have hsk := scan_key_at l ks sz ((line_at l ks sz).len - (line_at l ks sz).pos) 0
      (by omega) (by simp [line_at])
    rw [hsk]
    simp only [Res.ok_bind, Nat.zero_add]
    set ip := min (ks + klen + 1) l.length with hip
    have hip_le : ip ≤ l.length := Nat.min_le_right _ _
    have hdrop : l.drop ip = l.drop (ks + klen + 1) := by
      by_cases h : ks + klen + 1 ≤ l.length
      · rw [hip, Nat.min_eq_left h]
      · have h1 : ip = l.length := by rw [hip]; exact Nat.min_eq_right (by omega)
        rw [h1, List.drop_length, List.drop_eq_nil_of_le (by omega)]
    obtain ⟨q, hq, hsi⟩ := scan_info_at l ip sz ((line_at l ip sz).len - (line_at l ip sz).pos) 0
      hip_le (by simp [line_at])
    rw [hsi]
    simp only [Res.ok_bind, Nat.zero_add, hdrop]
    set F := nonspace_run (l.drop (ks + klen + 1)) with hF
    have hFl : ip + F.length ≤ l.length := by
      have := nonspace_run_length_le (l.drop ip)
      rw [hdrop] at this
      simp only [List.length_drop] at this
      have h2 : F.length ≤ l.length - (ks + klen + 1) := this
      by_cases h : ks + klen + 1 ≤ l.length
      · rw [hip, Nat.min_eq_left h]; omega
      · have h1 : ip = l.length := by rw [hip]; exact Nat.min_eq_right (by omega)
        omega
    by_cases hall : F.all info_ok = true ∧ 0 < F.length
    · have hinfo : info_of F = some F := by simp [info_of, hall]
      have hgt : (if F.all info_ok = true then F.length else 0) > 0 := by simp [hall.1, hall.2]
      simp only [hgt, if_true, hinfo]
      simp only [hall.1, if_true, line_at_pos]
      have hsp : buf_setpos (line_at l q sz) ip = Res.ok (line_at l ip sz) := by
        simp [buf_setpos, line_at, hip_le]
      have hgp : buf_getptr (line_at l ip sz) F.length = Res.ok (l.drop ip) := by
        have : ¬ (F.length > BUF_MAX_INCR ∨ ip + F.length > l.length) := by omega
        simp [buf_getptr, line_at, this]
      have hcpy : strncpy (l.drop ip) F.length = F := by
        rw [hdrop, hF]
        exact strncpy_nonspace_run _ (fun h => h0 (List.mem_of_mem_drop h))
      have hsp2 : buf_setpos (line_at l ip sz) ks = Res.ok (line_at l ks sz) := by
        have : ¬ ks > l.length := by omega
        simp [buf_setpos, line_at, this]
      have hsl : buf_setlen (line_at l ks sz) ((line_at l ks sz).pos + klen) =
          Res.ok { data := l, pos := ks, len := ks + klen, size := sz } := by
        have : ¬ ks + klen > sz := by omega
        simp [buf_setlen, line_at, this]
      rw [← hklen]
      simp only [hsp, Res.ok_bind, hgp, hcpy, hsp2, hsl]
    · have hinfo : info_of F = none := by simp only [info_of, hall, if_false]
      have hgt : ¬ (if F.all info_ok = true then F.length else 0) > 0 := by
        by_cases ha : F.all info_ok = true
        · simp only [ha, if_true]
          intro h
          exact hall ⟨ha, h⟩
        · simp [ha]
      simp only [hgt, if_false, hinfo, line_at_pos]
      rw [← hklen]
      have hsp2 : buf_setpos (line_at l q sz) ks = Res.ok (line_at l ks sz) := by
        have : ¬ ks > l.length := by omega
        simp [buf_setpos, line_at, this]
      have hsl : buf_setlen (line_at l ks sz) ((line_at l ks sz).pos + klen) =
          Res.ok { data := l, pos := ks, len := ks + klen, size := sz } := by
        have : ¬ ks + klen > sz := by omega
        simp [buf_setlen, line_at, this]
      simp only [Res.ok_bind, hsp2, hsl]
  · simp only [ne_eq, hc, not_false_eq_true, if_true]

theorem strncmp_append_self (b : List Nat) : ∀ r : List Nat, strncmp (b ++ r) b b.length = 0 := by
  induction b with
  | nil => intro r; simp [strncmp]
  | cons x b ih =>
    intro r
    simp only [List.cons_append, List.length_cons, strncmp, List.headD_cons, ne_eq,
      not_true_eq_false, if_false, List.tail_cons, ih r]
    split <;> rfl

theorem strncmp_eq_zero (n : Nat) : ∀ a b : List Nat, strncmp a b n = 0 → n ≤ a.length →
    0 ∉ a.take n → a.take n = b.take n ∧ n ≤ b.length := by
  induction n with
  | zero => intro a b _ _ _; simp
  | succ n ih =>
    intro a b h hn h0
    cases a with
    | nil => simp at hn
    | cons x a =>
      have hx : x ≠ 0 := by
        intro hx
        apply h0
        simp [hx]
      have h0a : 0 ∉ a.take n := by
        intro hm
        apply h0
        simp [hm]
      cases b with
      | nil =>
        exfalso
        simp only [strncmp, List.headD_cons, List.headD_nil, ne_eq, hx, not_false_eq_true,
          if_true] at h
        omega
      | cons y b =>
        simp only [strncmp, List.headD_cons, ne_eq, List.tail_cons] at h
        by_cases hxy : x = y
        · subst hxy
          simp only [not_true_eq_false, if_false, hx] at h
          obtain ⟨h1, h2⟩ := ih a b h (by simpa using hn) h0a
          exact ⟨by simp [h1], by simpa using h2⟩
        · exfalso
          simp only [hxy, not_false_eq_true, if_true] at h
          omega

theorem strncmp_eq_zero_algo (a algo : List Nat) (h : strncmp a algo algo.length = 0)
    (hn : algo.length ≤ a.length) (h0 : 0 ∉ a) : a.take algo.length = algo := by
  have h1 := (strncmp_eq_zero algo.length a algo h hn
    (fun hm => h0 (List.mem_of_mem_take hm))).1
  simpa using h1

theorem takeWhile_length_lt_of_dropWhile (l : List Nat) (c : Nat) (r : List Nat)
    (h : l.dropWhile is_blank = c :: r) : (l.takeWhile is_blank).length < l.length := by
  have h1 := congrArg List.length (List.takeWhile_append_dropWhile is_blank l)
  rw [List.length_append, h] at h1
  simp at h1
  omega

theorem checkpubkey_line_capture_eq (l : List Nat) (sz : Nat) (hl : l.length ≤ BUF_MAX_SIZE) :
    checkpubkey_line_capture (line_at l 0 sz) =
      match l.dropWhile is_blank with
      | [] => Res.exit
      | c :: _ =>
        if c = 35 then Res.ok none
        else Res.ok (some (line_at l (options_end l (l.takeWhile is_blank).length) sz,
          options_buf_of l (l.takeWhile is_blank).length)) := by
  unfold checkpubkey_line_capture
  rw [skip_leading_at l sz _ (by simp)]
  cases hd : l.dropWhile is_blank with
  | nil =>
    simp [buf_getptr]
  | cons c r =>
    have hw := takeWhile_length_lt_of_dropWhile l c r hd
    by_cases h35 : c = 35
    · simp [h35]
    · simp only [h35, if_false, Res.ok_bind]
      set w := (l.takeWhile is_blank).length with hwdef
      have hgp : buf_getptr (line_at l w sz) 1 = Res.ok (l.drop w) := by
        have : ¬ (1 > BUF_MAX_INCR ∨ (line_at l w sz).pos + 1 > (line_at l w sz).len) := by
          simp only [BUF_MAX_INCR, line_at_pos, line_at_len]; omega
        rw [buf_getptr, if_neg this]
        rfl
      have hso := scan_options_at l w sz ((line_at l w sz).len - (line_at l w sz).pos) 0 false false
        (by omega) (by simp)
      have hk : options_span (l.drop w) false false ≤ l.length := by
        have := options_span_le (l.drop w) false false
        simp only [List.length_drop] at this
        omega
      have hnew : buf_new (options_span (l.drop w) false false) =
          Res.ok ⟨List.replicate (options_span (l.drop w) false false) 0, 0, 0,
            options_span (l.drop w) false false⟩ := by
        have : ¬ options_span (l.drop w) false false > BUF_MAX_SIZE := by omega
        simp [buf_new, this]
      simp only [Bool.false_eq_true, if_false, hgp, Res.ok_bind, hso, Nat.zero_add, hnew]
      have hput : buf_putbytes ⟨List.replicate (options_span (l.drop w) false false) 0, 0, 0,
            options_span (l.drop w) false false⟩ (l.drop w)
          (options_span (l.drop w) false false) = Res.ok (options_buf_of l w) := by
        have : ¬ (options_span (l.drop w) false false > BUF_MAX_INCR ∨
            0 + options_span (l.drop w) false false > options_span (l.drop w) false false) := by
          simp only [BUF_MAX_INCR, BUF_MAX_SIZE] at *; omega
        rw [buf_putbytes, if_neg this]
        simp [options_buf_of]
      simp only [hput, Res.ok_bind, options_end]

theorem checkpubkey_line_key_stage (ext : LineExt) (l : List Nat) (p sz : Nat)
    (options_buf : Option buffer) (line_num : Nat) (filename algo keyblob : List Nat)
    (ret_info : Option (Option (List Nat))) (opts : Option PubKeyOptions)
    (hp : p + algo.length < l.length) (hl : l.length ≤ BUF_MAX_INCR) (hsz : l.length ≤ sz)
    (h0 : 0 ∉ l) :
    checkpubkey_line_key ext (line_at l p sz) options_buf line_num filename algo keyblob
        ret_info opts =
      Res.ok (key_stage ext l p sz options_buf line_num filename algo keyblob ret_info opts) := by
  rw [checkpubkey_line_key_eq ext l p sz options_buf line_num filename algo keyblob ret_info opts
    hp hl hsz h0]
  unfold key_stage rejected key_buf info_field
  split <;> rfl

theorem checkpubkey_line_eq (ext : LineExt) (l : List Nat) (sz : Nat)
    (line_num : Nat) (filename algo keyblob : List Nat)
    (ret_info : Option (Option (List Nat))) (opts : Option PubKeyOptions)
    (h10 : MIN_AUTHKEYS_LINE ≤ l.length) (h4200 : l.length ≤ MAX_AUTHKEYS_LINE) (h0 : 0 ∉ l)
    (hsz : l.length ≤ sz) (ha : algo.length + 3 ≤ l.length) :
    checkpubkey_line ext (line_at l 0 sz) line_num filename algo keyblob ret_info opts =
      if strncmp l algo algo.length ≠ 0 then
        match l.dropWhile is_blank with
        | [] => Res.exit
        | c :: _ =>
          if c = 35 then Res.ok (rejected ret_info opts)
          else if options_end l (l.takeWhile is_blank).length + algo.length + 3 > l.length then
            Res.ok (rejected ret_info opts)
          else if strncmp (l.drop (options_end l (l.takeWhile is_blank).length)) algo algo.length ≠ 0
          then Res.ok (rejected ret_info opts)
          else Res.ok (key_stage ext l (options_end l (l.takeWhile is_blank).length) sz
            (some (options_buf_of l (l.takeWhile is_blank).length)) line_num filename algo keyblob
            ret_info opts)
      else Res.ok (key_stage ext l 0 sz none line_num filename algo keyblob ret_info opts) := by
  have hmax : l.length ≤ 4200 := h4200
  have hmin : 10 ≤ l.length := h10
  have c1 : ¬ ((line_at l 0 sz).len < MIN_AUTHKEYS_LINE ∨ (line_at l 0 sz).len > MAX_AUTHKEYS_LINE) := by
    simp only [line_at_len, MIN_AUTHKEYS_LINE, MAX_AUTHKEYS_LINE]; omega
  have c2 : memchr (line_at l 0 sz).data 0 (line_at l 0 sz).len = false := by
    simp [memchr, h0]
  have c3 : ¬ (((line_at l 0 sz).pos + algo.length + 3) % 2 ^ 32 > (line_at l 0 sz).len) := by
    simp only [line_at_pos, line_at_len]
    rw [Nat.mod_eq_of_lt (by omega)]
    omega
  have hgp : buf_getptr (line_at l 0 sz) algo.length = Res.ok l := by
    have : ¬ (algo.length > BUF_MAX_INCR ∨ (line_at l 0 sz).pos + algo.length > (line_at l 0 sz).len) := by
      simp only [line_at_pos, line_at_len, BUF_MAX_INCR]; omega
    rw [buf_getptr, if_neg this]
    simp
  have hli : l.length ≤ BUF_MAX_INCR := by simp only [BUF_MAX_INCR]; omega
  unfold checkpubkey_line
  simp only [if_neg c1, c2, Bool.false_eq_true, if_false, if_neg c3, hgp, Res.ok_bind]
  by_cases hs : strncmp l algo algo.length = 0
  · simp only [hs, ne_eq, not_true_eq_false, if_false]
    exact checkpubkey_line_key_stage ext l 0 sz none line_num filename algo keyblob ret_info opts
      (by omega) hli hsz h0
  · simp only [ne_eq, hs, not_false_eq_true, if_true]
    unfold checkpubkey_line_options
    rw [checkpubkey_line_capture_eq l sz (by simp only [BUF_MAX_SIZE]; omega)]
    cases hd : l.dropWhile is_blank with
    | nil => simp
    | cons c r =>
      simp only []
      by_cases h35 : c = 35
      · simp [h35, rejected]
      · simp only [h35, if_false, Res.ok_bind, line_at_pos, line_at_len]
        set p := options_end l (l.takeWhile is_blank).length with hpdef
        have hple : p ≤ l.length := by
          rw [hpdef, options_end]; exact Nat.min_le_right _ _
        have hmod : (p + algo.length + 3) % 2 ^ 32 = p + algo.length + 3 :=
          Nat.mod_eq_of_lt (by omega)
        simp only [hmod]
        by_cases hgt : p + algo.length + 3 > l.length
        · simp [hgt, rejected]
        · have hgp2 : buf_getptr (line_at l p sz) algo.length = Res.ok (l.drop p) := by
            have : ¬ (algo.length > BUF_MAX_INCR ∨
                (line_at l p sz).pos + algo.length > (line_at l p sz).len) := by
              simp only [line_at_pos, line_at_len, BUF_MAX_INCR]; omega
            rw [buf_getptr, if_neg this]
            simp
          simp only [hgt, if_false, hgp2, Res.ok_bind]
          by_cases hs2 : strncmp (l.drop p) algo algo.length = 0
          · simp only [hs2, ne_eq, not_true_eq_false, if_false, Res.ok_bind]
            exact checkpubkey_line_key_stage ext l p sz _ line_num filename algo keyblob ret_info opts
              (by omega) hli hsz h0
          · simp [hs2, rejected]

/-! ## The line matcher: what a returned outcome looks like -/

theorem checkpubkey_line_early (ext : LineExt) (l : List Nat) (sz : Nat)
    (line_num : Nat) (filename algo keyblob : List Nat)
    (ret_info : Option (Option (List Nat))) (opts : Option PubKeyOptions)
    (h : l.length < MIN_AUTHKEYS_LINE ∨ l.length > MAX_AUTHKEYS_LINE ∨ 0 ∈ l ∨
      ¬ algo.length + 3 ≤ l.length) :
    checkpubkey_line ext (line_at l 0 sz) line_num filename algo keyblob ret_info opts =
        Res.ok (rejected ret_info opts) ∨
      checkpubkey_line ext (line_at l 0 sz) line_num filename algo keyblob ret_info opts =
        Res.exit := by
  unfold checkpubkey_line
  simp only [line_at_len, line_at_pos, line_at_data]
  by_cases c1 : l.length < MIN_AUTHKEYS_LINE ∨ l.length > MAX_AUTHKEYS_LINE
  · left; simp only [c1, if_true, rejected]
  · simp only [c1, if_false]
    by_cases c2 : memchr l 0 l.length = true
    · left; simp only [c2, if_true, rejected]
    · have c2f : memchr l 0 l.length = false := by simpa using c2
      simp only [c2f, Bool.false_eq_true, if_false]
      by_cases c3 : (0 + algo.length + 3) % 2 ^ 32 > l.length
      · left; simp only [c3, if_true, rejected]
      · simp only [c3, if_false]
        have hmax : l.length ≤ 4200 := by
          simp only [MIN_AUTHKEYS_LINE, MAX_AUTHKEYS_LINE] at c1; omega
        have h0 : 0 ∉ l := by
          intro hm
          apply c2
          simp [memchr, hm]
        have hshort : ¬ algo.length + 3 ≤ l.length := by
          rcases h with h | h | h | h
          · exact absurd (Or.inl h) c1
          · exact absurd (Or.inr h) c1
          · exact absurd h h0
          · exact h
        have hbig : algo.length > BUF_MAX_INCR := by
          by_contra hle
          simp only [BUF_MAX_INCR] at hle
          rw [Nat.mod_eq_of_lt (by omega)] at c3
          omega
        right
        simp [buf_getptr, hbig]

theorem checkpubkey_line_verdict_success {ext : LineExt} {b : buffer} {info : Option (List Nat)}
    {ob : Option buffer} {line_num : Nat} {filename algo keyblob : List Nat}
    {ret_info : Option (Option (List Nat))} {opts : Option PubKeyOptions}
    (h : (checkpubkey_line_verdict ext b info ob line_num filename algo keyblob ret_info opts).ret
      = DROPBEAR_SUCCESS) :
    ext.cmp_base64_key keyblob algo b = DROPBEAR_SUCCESS ∧
    (checkpubkey_line_verdict ext b info ob line_num filename algo keyblob ret_info opts).ret_info
      = ret_info.map (fun _ => info) ∧
    (checkpubkey_line_verdict ext b info ob line_num filename algo keyblob ret_info opts).calls
      = Event.cmp_base64_key keyblob algo b ::
        (match ob with
         | some o => [Event.svr_add_pubkey_options o line_num filename]
         | none => []) ∧
    (∀ o, ob = some o → (ext.svr_add_pubkey_options o line_num filename).1 = DROPBEAR_SUCCESS) := by
  unfold checkpubkey_line_verdict at h ⊢
  by_cases hc : ext.cmp_base64_key keyblob algo b = DROPBEAR_SUCCESS
  · simp only [hc, if_true] at h ⊢
    cases ob with
    | none =>
      refine ⟨trivial, ?_, rfl, by simp⟩
      rcases ret_info with _ | _ | _ <;> rfl
    | some o =>
      refine ⟨trivial, ?_, rfl, ?_⟩
      · rcases ret_info with _ | _ | _ <;> rfl
      · intro o2 ho2
        cases ho2
        exact h
  · simp only [hc, if_false] at h

theorem key_buf_window (l : List Nat) (p n sz : Nat) :
    (key_buf l p n sz).window = nonspace_run (l.drop (p + n + 1)) := by
  simp [key_buf, buffer.window, take_nonspace_run]

theorem getD_eq_head_drop (l : List Nat) (i : Nat) (hi : i < l.length) (h : l.getD i 0 = 32) :
    (l.drop i).head? = some 32 := by
  rw [List.getD_eq_getElem?_getD, List.getElem?_eq_getElem hi] at h
  rw [List.head?_drop, List.getElem?_eq_getElem hi]
  simpa using h

theorem checkpubkey_line_key_shape {ext : LineExt} {line : buffer} {ob : Option buffer}
    {line_num : Nat} {filename algo keyblob : List Nat}
    {ret_info : Option (Option (List Nat))} {opts : Option PubKeyOptions} {r : LineOut}
    (h : checkpubkey_line_key ext line ob line_num filename algo keyblob ret_info opts = Res.ok r) :
    r = rejected ret_info opts ∨
    ∃ b info ob', r = checkpubkey_line_verdict ext b info ob' line_num filename algo keyblob
      ret_info opts := by
  unfold checkpubkey_line_key at h
  obtain ⟨line1, _, h⟩ := Res.bind_eq_ok h
  obtain ⟨⟨c, line2⟩, _, h⟩ := Res.bind_eq_ok h
  simp only [] at h
  split at h
  · cases h
    exact Or.inl rfl
  · obtain ⟨⟨line3, len⟩, _, h⟩ := Res.bind_eq_ok h
    simp only [] at h
    obtain ⟨⟨line4, infolen⟩, _, h⟩ := Res.bind_eq_ok h
    simp only [] at h
    obtain ⟨⟨line5, info_str⟩, _, h⟩ := Res.bind_eq_ok h
    simp only [] at h
    obtain ⟨line6, _, h⟩ := Res.bind_eq_ok h
    obtain ⟨line7, _, h⟩ := Res.bind_eq_ok h
    cases h
    exact Or.inr ⟨_, _, _, rfl⟩

theorem checkpubkey_line_shape_any {ext : LineExt} {line : buffer}
    {line_num : Nat} {filename algo keyblob : List Nat}
    {ret_info : Option (Option (List Nat))} {opts : Option PubKeyOptions} {r : LineOut}
    (h : checkpubkey_line ext line line_num filename algo keyblob ret_info opts = Res.ok r) :
    r = rejected ret_info opts ∨
    ∃ b info ob, r = checkpubkey_line_verdict ext b info ob line_num filename algo keyblob
      ret_info opts := by
  unfold checkpubkey_line at h
  simp only [] at h
  split at h
  · cases h; exact Or.inl rfl
  · split at h
    · cases h; exact Or.inl rfl
    · split at h
      · cases h; exact Or.inl rfl
      · obtain ⟨p, _, h⟩ := Res.bind_eq_ok h
        split at h
        · obtain ⟨o, _, h⟩ := Res.bind_eq_ok h
          cases o with
          | none => cases h; exact Or.inl rfl
          | some x => exact checkpubkey_line_key_shape h
        · exact checkpubkey_line_key_shape h

/-! ## The line matcher: the shape of an accepting run -/

theorem checkpubkey_line_success_shape (ext : LineExt) (l : List Nat) (size : Nat)
    (line_num : Nat) (filename algo keyblob : List Nat)
    (ret_info : Option (Option (List Nat))) (opts : Option PubKeyOptions) (r : LineOut)
    (hsize : l.length ≤ size)
    (h : checkpubkey_line ext (line_at l 0 size) line_num filename algo keyblob ret_info opts
      = Res.ok r)
    (hs : r.ret = DROPBEAR_SUCCESS) :
    MIN_AUTHKEYS_LINE ≤ l.length ∧ l.length ≤ MAX_AUTHKEYS_LINE ∧ 0 ∉ l ∧
    ∃ p ob, p + algo.length < l.length ∧ (l.drop p).take algo.length = algo ∧
      l.getD (p + algo.length) 0 = 32 ∧
      ((p = 0 ∧ ob = none) ∨
       (∃ line1 o, checkpubkey_line_capture (line_at l 0 size) = Res.ok (some (line1, o)) ∧
          p = line1.pos ∧ ob = some o)) ∧
      r = checkpubkey_line_verdict ext (key_buf l p algo.length size)
        (info_of (info_field l p algo.length)) ob line_num filename algo keyblob ret_info opts := by
  by_cases hearly : l.length < MIN_AUTHKEYS_LINE ∨ l.length > MAX_AUTHKEYS_LINE ∨ 0 ∈ l ∨
      ¬ algo.length + 3 ≤ l.length
  · exfalso
    rcases checkpubkey_line_early ext l size line_num filename algo keyblob ret_info opts hearly
      with h1 | h1
    · rw [h1] at h
      cases h
      cases hs
    · rw [h1] at h
      cases h
  · simp only [not_or, not_lt, not_not] at hearly
    obtain ⟨h10, h4200, h0, ha⟩ := hearly
    have h4200' : l.length ≤ MAX_AUTHKEYS_LINE := by omega
    refine ⟨h10, h4200', h0, ?_⟩
    have hmax : l.length ≤ 4200 := h4200'
    rw [checkpubkey_line_eq ext l size line_num filename algo keyblob ret_info opts h10 h4200' h0
      hsize ha] at h
    by_cases hcmp : strncmp l algo algo.length = 0
    · simp only [hcmp, ne_eq, not_true_eq_false, if_false, Res.ok.injEq] at h
      subst h
      unfold key_stage at hs ⊢
      by_cases hsp : l.getD (0 + algo.length) 0 = 32
      · simp only [hsp, ne_eq, not_true_eq_false, if_false] at hs ⊢
        refine ⟨0, none, by omega, ?_, hsp, Or.inl ⟨rfl, rfl⟩, rfl⟩
        simpa using strncmp_eq_zero_algo l algo hcmp (by omega) h0
      · simp only [ne_eq, hsp, not_false_eq_true, if_true, rejected] at hs
        cases hs
    · simp only [ne_eq, hcmp, not_false_eq_true, if_true] at h
      have hcap := checkpubkey_line_capture_eq l size (by simp only [BUF_MAX_SIZE]; omega)
      cases hd : l.dropWhile is_blank with
      | nil =>
        rw [hd] at h
        cases h
      | cons c rest =>
        rw [hd] at h hcap
        simp only [] at h hcap
        by_cases h35 : c = 35
        · simp only [h35, if_true, Res.ok.injEq] at h
          subst h
          cases hs
        · simp only [h35, if_false] at h hcap
          set p := options_end l (l.takeWhile is_blank).length with hpdef
          have hple : p ≤ l.length := by
            rw [hpdef, options_end]; exact Nat.min_le_right _ _
          by_cases hgt : p + algo.length + 3 > l.length
          · simp only [hgt, if_true, Res.ok.injEq] at h
            subst h
            cases hs
          · simp only [hgt, if_false] at h
            by_cases hcmp2 : strncmp (l.drop p) algo algo.length = 0
            · simp only [hcmp2, ne_eq, not_true_eq_false, if_false, Res.ok.injEq] at h
              subst h
              unfold key_stage at hs ⊢
              by_cases hsp : l.getD (p + algo.length) 0 = 32
              · simp only [hsp, ne_eq, not_true_eq_false, if_false] at hs ⊢
                refine ⟨p, some (options_buf_of l (l.takeWhile is_blank).length), by omega, ?_, hsp,
                  Or.inr ⟨_, _, hcap, rfl, rfl⟩, rfl⟩
                exact strncmp_eq_zero_algo (l.drop p) algo hcmp2
                  (by simp only [List.length_drop]; omega)
                  (fun hm => h0 (List.mem_of_mem_drop hm))
              · simp only [ne_eq, hsp, not_false_eq_true, if_true, rejected] at hs
                cases hs
            · simp only [ne_eq, hcmp2, not_false_eq_true, if_true, Res.ok.injEq] at h
              subst h
              cases hs

/-! ## Claims about the line matcher -/

/-- C4: `checkpubkey_line` returns success only if the line length is within
[10, 4200], the line has no NUL byte, the algorithm name occurs in the line (at
its start, or right after the captured options) immediately followed by a
space, the key comparison was made on exactly the run of non-space bytes after
that space against the whole candidate key blob and succeeded, and, when an
options token was captured, the options parser was given it and succeeded.  The
key comparison is the first external call on every accepting path. -/
theorem checkpubkey_line_success_only_if (ext : LineExt) (l : List Nat) (size : Nat)
    (line_num : Nat) (filename algo keyblob : List Nat)
    (ret_info : Option (Option (List Nat))) (opts : Option PubKeyOptions) (r : LineOut)
    (hsize : l.length ≤ size)
    (h : checkpubkey_line ext (line_at l 0 size) line_num filename algo keyblob ret_info opts
      = Res.ok r)
    (hs : r.ret = DROPBEAR_SUCCESS) :
    MIN_AUTHKEYS_LINE ≤ l.length ∧ l.length ≤ MAX_AUTHKEYS_LINE ∧ 0 ∉ l ∧
    ∃ p b, (l.drop p).take algo.length = algo ∧
      (l.drop (p + algo.length)).head? = some 32 ∧
      b.window = nonspace_run (l.drop (p + algo.length + 1)) ∧
      ext.cmp_base64_key keyblob algo b = DROPBEAR_SUCCESS ∧
      ((p = 0 ∧ r.calls = [Event.cmp_base64_key keyblob algo b]) ∨
       (∃ line1 ob, checkpubkey_line_capture (line_at l 0 size) = Res.ok (some (line1, ob)) ∧
          p = line1.pos ∧
          r.calls = [Event.cmp_base64_key keyblob algo b,
            Event.svr_add_pubkey_options ob line_num filename] ∧
          (ext.svr_add_pubkey_options ob line_num filename).1 = DROPBEAR_SUCCESS)) := by
  obtain ⟨h10, h4200, h0, p, ob, hp, halgo, hsp, hpath, hr⟩ :=
    checkpubkey_line_success_shape ext l size line_num filename algo keyblob ret_info opts r
      hsize h hs
  subst hr
  obtain ⟨v1, _, v3, v4⟩ := checkpubkey_line_verdict_success hs
  refine ⟨h10, h4200, h0, p, key_buf l p algo.length size, halgo,
    getD_eq_head_drop l _ hp hsp, key_buf_window _ _ _ _, v1, ?_⟩
  rcases hpath with ⟨hp0, hob⟩ | ⟨line1, o, hcap, hpl, hob⟩
  · subst hob
    exact Or.inl ⟨hp0, v3⟩
  · subst hob
    exact Or.inr ⟨line1, o, hcap, hpl, v3, v4 o rfl⟩

/-- C4, witness: the line `no-pty ssh-ed25519 AAAAC3Nz me@host` is accepted for
the sample key, through the options path. -/
theorem checkpubkey_line_success_only_if_witness :
    sample_line.length ≤ MAX_AUTHKEYS_LINE ∧
    checkpubkey_line sample_ext (line_at sample_line 0 MAX_AUTHKEYS_LINE) 1 (bytes "f")
      (bytes "ssh-ed25519") sample_key (some none) none = Res.ok sample_out ∧
    sample_out.ret = DROPBEAR_SUCCESS ∧
    (MIN_AUTHKEYS_LINE ≤ sample_line.length ∧ sample_line.length ≤ MAX_AUTHKEYS_LINE ∧
      0 ∉ sample_line ∧
      ∃ p b, (sample_line.drop p).take (bytes "ssh-ed25519").length = bytes "ssh-ed25519" ∧
        (sample_line.drop (p + (bytes "ssh-ed25519").length)).head? = some 32 ∧
        b.window = nonspace_run (sample_line.drop (p + (bytes "ssh-ed25519").length + 1)) ∧
        sample_ext.cmp_base64_key sample_key (bytes "ssh-ed25519") b = DROPBEAR_SUCCESS ∧
        ((p = 0 ∧ sample_out.calls = [Event.cmp_base64_key sample_key (bytes "ssh-ed25519") b]) ∨
         (∃ line1 ob, checkpubkey_line_capture (line_at sample_line 0 MAX_AUTHKEYS_LINE)
              = Res.ok (some (line1, ob)) ∧
            p = line1.pos ∧
            sample_out.calls = [Event.cmp_base64_key sample_key (bytes "ssh-ed25519") b,
              Event.svr_add_pubkey_options ob 1 (bytes "f")] ∧
            (sample_ext.svr_add_pubkey_options ob 1 (bytes "f")).1 = DROPBEAR_SUCCESS))) :=
  ⟨by decide, by decide, rfl,
    checkpubkey_line_success_only_if sample_ext sample_line MAX_AUTHKEYS_LINE 1 (bytes "f")
      (bytes "ssh-ed25519") sample_key (some none) none sample_out (by decide) (by decide) rfl⟩

theorem info_ok_eq_info_char (c : Nat) (hc : c ≠ 0) : info_ok c = info_char c := by
  have hb : bytes ".,_-+@" = [46, 44, 95, 45, 43, 64] := by decide
  simp only [info_ok, info_char, isalnum, strchr, hb, List.mem_cons, List.mem_singleton,
    List.not_mem_nil, or_false, hc]
  rw [Bool.eq_iff_iff]
  simp only [Bool.or_eq_true, decide_eq_true_eq]
  tauto

theorem all_info_ok_eq (F : List Nat) (h0 : 0 ∉ F) : F.all info_ok = F.all info_char := by
  induction F with
  | nil => rfl
  | cons c s ih =>
    have hc : c ≠ 0 := by
      intro h
      apply h0
      simp [h]
    have hs : 0 ∉ s := fun h => h0 (List.mem_cons_of_mem _ h)
    simp only [List.all_cons, info_ok_eq_info_char c hc, ih hs]

/-- C5: round trip.  For an algorithm name without NUL and a base64 text `enc`
of the key blob `K` (at least two bytes, none of them NUL or space), the line
`algo ++ " " ++ enc`, when its length is within [10, 4200], is accepted for the
candidate `(algo, K)`, as soon as the key comparison succeeds on the field
`enc`.  The only external call is the key comparison, on exactly `enc`: the
options parser is not invoked, the options state is unchanged and the info
output is NULL. -/
theorem checkpubkey_line_roundtrip (ext : LineExt) (algo K enc : List Nat) (size : Nat)
    (line_num : Nat) (filename : List Nat) (slot : Option (List Nat))
    (opts : Option PubKeyOptions)
    (halgo : 0 ∉ algo) (henc : ∀ c ∈ enc, c ≠ 0 ∧ c ≠ 32) (henc2 : 2 ≤ enc.length)
    (hmin : MIN_AUTHKEYS_LINE ≤ (algo ++ 32 :: enc).length)
    (hmax : (algo ++ 32 :: enc).length ≤ MAX_AUTHKEYS_LINE)
    (hsize : (algo ++ 32 :: enc).length ≤ size)
    (hcmp : ∀ b : buffer, b.window = enc → ext.cmp_base64_key K algo b = DROPBEAR_SUCCESS) :
    checkpubkey_line ext (line_at (algo ++ 32 :: enc) 0 size) line_num filename algo K
        (some slot) opts =
      Res.ok { ret := DROPBEAR_SUCCESS, ret_info := some none, pubkey_options := opts,
               calls := [Event.cmp_base64_key K algo
                 { data := algo ++ 32 :: enc, pos := algo.length + 1,
                   len := (algo ++ 32 :: enc).length, size := size }] } ∧
    ({ data := algo ++ 32 :: enc, pos := algo.length + 1, len := (algo ++ 32 :: enc).length,
       size := size } : buffer).window = enc := by
  have h0 : 0 ∉ algo ++ 32 :: enc := by
    intro hm
    rcases List.mem_append.mp hm with h | h
    · exact halgo h
    · rcases List.mem_cons.mp h with h | h
      · cases h
      · exact (henc 0 h).1 rfl
  have ha : algo.length + 3 ≤ (algo ++ 32 :: enc).length := by
    simp only [List.length_append, List.length_cons]; omega
  have hdrop : (algo ++ 32 :: enc).drop (0 + algo.length + 1) = enc := by
    have : (algo ++ 32 :: enc) = (algo ++ [32]) ++ enc := by simp
    rw [this, Nat.zero_add]
    have hl : (algo ++ [32]).length = algo.length + 1 := by simp
    rw [← hl, List.drop_left]
  have hrun : nonspace_run enc = enc := by
    unfold nonspace_run
    rw [List.takeWhile_eq_self_iff]
    intro c hc
    simpa using (henc c hc).2
  have hkb : key_buf (algo ++ 32 :: enc) 0 algo.length size =
      { data := algo ++ 32 :: enc, pos := algo.length + 1, len := (algo ++ 32 :: enc).length,
        size := size } := by
    unfold key_buf
    rw [hdrop, hrun]
    have hlen : (algo ++ 32 :: enc).length = algo.length + 1 + enc.length := by
      simp only [List.length_append, List.length_cons]; omega
    rw [hlen, Nat.zero_add]
  have hwin : (key_buf (algo ++ 32 :: enc) 0 algo.length size).window = enc := by
    rw [key_buf_window, hdrop, hrun]
  have hinfo : info_of (info_field (algo ++ 32 :: enc) 0 algo.length) = none := by
    unfold info_field
    rw [hdrop, hrun, List.drop_eq_nil_of_le (by simp only [List.length_append, List.length_cons]; omega)]
    rfl
  refine ⟨?_, by rw [← hkb]; exact hwin⟩
  rw [checkpubkey_line_eq ext _ size line_num filename algo K (some slot) opts hmin hmax h0 hsize ha]
  simp only [strncmp_append_self, ne_eq, not_true_eq_false, if_false, Res.ok.injEq]
  unfold key_stage
  have hsp : (algo ++ 32 :: enc).getD (0 + algo.length) 0 = 32 := by
    rw [Nat.zero_add]; exact getD_append_length algo 32 enc
  simp only [hsp, ne_eq, not_true_eq_false, if_false, hinfo]
  have hc := hcmp _ hwin
  rw [hkb] at hc
  unfold checkpubkey_line_verdict
  rw [hkb]
  simp only [hc, if_true]
  cases slot <;> rfl

/-- C5, witness: the line `ssh-ed25519 AAAAC3Nz` is accepted for the sample
key. -/
theorem checkpubkey_line_roundtrip_witness :
    (0 ∉ bytes "ssh-ed25519" ∧ (∀ c ∈ bytes "AAAAC3Nz", c ≠ 0 ∧ c ≠ 32) ∧
      2 ≤ (bytes "AAAAC3Nz").length ∧
      MIN_AUTHKEYS_LINE ≤ (bytes "ssh-ed25519" ++ 32 :: bytes "AAAAC3Nz").length ∧
      (bytes "ssh-ed25519" ++ 32 :: bytes "AAAAC3Nz").length ≤ MAX_AUTHKEYS_LINE ∧
      (∀ b : buffer, b.window = bytes "AAAAC3Nz" →
        sample_ext.cmp_base64_key sample_key (bytes "ssh-ed25519") b = DROPBEAR_SUCCESS)) ∧
    (checkpubkey_line sample_ext (line_at (bytes "ssh-ed25519" ++ 32 :: bytes "AAAAC3Nz") 0
        MAX_AUTHKEYS_LINE) 1 (bytes "f") (bytes "ssh-ed25519") sample_key (some none) none =
      Res.ok { ret := DROPBEAR_SUCCESS, ret_info := some none, pubkey_options := none,
               calls := [Event.cmp_base64_key sample_key (bytes "ssh-ed25519")
                 { data := bytes "ssh-ed25519" ++ 32 :: bytes "AAAAC3Nz",
                   pos := (bytes "ssh-ed25519").length + 1,
                   len := (bytes "ssh-ed25519" ++ 32 :: bytes "AAAAC3Nz").length,
                   size := MAX_AUTHKEYS_LINE }] } ∧
      ({ data := bytes "ssh-ed25519" ++ 32 :: bytes "AAAAC3Nz",
         pos := (bytes "ssh-ed25519").length + 1,
         len := (bytes "ssh-ed25519" ++ 32 :: bytes "AAAAC3Nz").length,
         size := MAX_AUTHKEYS_LINE } : buffer).window = bytes "AAAAC3Nz") :=
  have hcmp : ∀ b : buffer, b.window = bytes "AAAAC3Nz" →
      sample_ext.cmp_base64_key sample_key (bytes "ssh-ed25519") b = DROPBEAR_SUCCESS := by
    intro b hb
    simp [sample_ext, hb]
  ⟨⟨by decide, by decide, by decide, by decide, by decide, hcmp⟩,
    checkpubkey_line_roundtrip sample_ext (bytes "ssh-ed25519") sample_key (bytes "AAAAC3Nz")
      MAX_AUTHKEYS_LINE 1 (bytes "f") none none (by decide) (by decide) (by decide) (by decide)
      (by decide) (by decide) hcmp⟩

/-- C7: for every accepted line, with `b` the truncated line handed to the key
comparison (so that `b.len` is the index of the byte that ends the base64
field) and `F` the run of non-space bytes after that byte, the info string
stored through `ret_info` is `F` when `F` is non-empty and all its bytes are
ASCII letters, digits or one of `. , _ - + @`, and NULL otherwise; it is never
another string, in particular never a proper prefix of `F`. -/
theorem checkpubkey_line_info (ext : LineExt) (l : List Nat) (size : Nat)
    (line_num : Nat) (filename algo keyblob : List Nat)
    (slot : Option (List Nat)) (opts : Option PubKeyOptions) (r : LineOut)
    (hsize : l.length ≤ size)
    (h : checkpubkey_line ext (line_at l 0 size) line_num filename algo keyblob (some slot) opts
      = Res.ok r)
    (hs : r.ret = DROPBEAR_SUCCESS) :
    ∃ b : buffer, r.calls.head? = some (Event.cmp_base64_key keyblob algo b) ∧
      b.data = l ∧ b.pos ≤ b.len ∧ b.len ≤ l.length ∧
      b.window = nonspace_run (l.drop b.pos) ∧
      r.ret_info = some
        (if nonspace_run (l.drop (b.len + 1)) ≠ [] ∧
            (nonspace_run (l.drop (b.len + 1))).all info_char = true
         then some (nonspace_run (l.drop (b.len + 1))) else none) ∧
      (∀ s, r.ret_info = some (some s) → s = nonspace_run (l.drop (b.len + 1))) := by
  obtain ⟨_, _, h0, p, ob, hp, _, _, _, hr⟩ :=
    checkpubkey_line_success_shape ext l size line_num filename algo keyblob (some slot) opts r
      hsize h hs
  subst hr
  obtain ⟨_, v2, v3, _⟩ := checkpubkey_line_verdict_success hs
  have hF0 : 0 ∉ info_field l p algo.length := by
    intro hm
    unfold info_field nonspace_run at hm
    exact h0 (List.mem_of_mem_drop ((List.takeWhile_sublist _).subset hm))
  have hinfo : info_of (info_field l p algo.length) =
      if info_field l p algo.length ≠ [] ∧ (info_field l p algo.length).all info_char = true
      then some (info_field l p algo.length) else none := by
    unfold info_of
    rw [all_info_ok_eq _ hF0]
    by_cases hne : info_field l p algo.length = []
    · simp [hne]
    · have hpos : 0 < (info_field l p algo.length).length := List.length_pos.mpr hne
      simp only [hpos, and_true, ne_eq, hne, not_false_eq_true, true_and]
  have hklen : p + algo.length + 1 + (nonspace_run (l.drop (p + algo.length + 1))).length
      ≤ l.length := by
    have := nonspace_run_length_le (l.drop (p + algo.length + 1))
    simp only [List.length_drop] at this
    omega
  have hret : (checkpubkey_line_verdict ext (key_buf l p algo.length size)
      (info_of (info_field l p algo.length)) ob line_num filename algo keyblob (some slot)
      opts).ret_info = some
        (if info_field l p algo.length ≠ [] ∧ (info_field l p algo.length).all info_char = true
         then some (info_field l p algo.length) else none) := by
    rw [v2, hinfo]
    rfl
  refine ⟨key_buf l p algo.length size, by rw [v3]; rfl, rfl, ?_, hklen, key_buf_window _ _ _ _,
    hret, ?_⟩
  · simp only [key_buf]; omega
  · intro s hsome
    rw [hret] at hsome
    simp only [Option.some.injEq] at hsome
    split at hsome
    · simp only [Option.some.injEq] at hsome
      exact hsome.symm
    · cases hsome

/-- C7, witness: on `ssh-ed25519 AAAAC3Nz me;rm -rf`, whose trailing field
holds `;rm`, the accepted line gives no info string. -/
theorem checkpubkey_line_info_witness :
    (bytes "ssh-ed25519 AAAAC3Nz me;rm -rf").length ≤ MAX_AUTHKEYS_LINE ∧
    checkpubkey_line sample_ext (line_at (bytes "ssh-ed25519 AAAAC3Nz me;rm -rf") 0
        MAX_AUTHKEYS_LINE) 1 (bytes "f") (bytes "ssh-ed25519") sample_key
        (some (some (bytes "old"))) none =
      Res.ok { ret := DROPBEAR_SUCCESS, ret_info := some none, pubkey_options := none,
               calls := [Event.cmp_base64_key sample_key (bytes "ssh-ed25519")
                 { data := bytes "ssh-ed25519 AAAAC3Nz me;rm -rf", pos := 12, len := 20,
                   size := MAX_AUTHKEYS_LINE }] } ∧
    ∃ b : buffer,
      [Event.cmp_base64_key sample_key (bytes "ssh-ed25519")
        { data := bytes "ssh-ed25519 AAAAC3Nz me;rm -rf", pos := 12, len := 20,
          size := MAX_AUTHKEYS_LINE }].head? =
        some (Event.cmp_base64_key sample_key (bytes "ssh-ed25519") b) ∧
      b.data = bytes "ssh-ed25519 AAAAC3Nz me;rm -rf" ∧ b.pos ≤ b.len ∧
      b.len ≤ (bytes "ssh-ed25519 AAAAC3Nz me;rm -rf").length ∧
      b.window = nonspace_run ((bytes "ssh-ed25519 AAAAC3Nz me;rm -rf").drop b.pos) ∧
      (some none : Option (Option (List Nat))) = some
        (if nonspace_run ((bytes "ssh-ed25519 AAAAC3Nz me;rm -rf").drop (b.len + 1)) ≠ [] ∧
            (nonspace_run ((bytes "ssh-ed25519 AAAAC3Nz me;rm -rf").drop (b.len + 1))).all
              info_char = true
         then some (nonspace_run ((bytes "ssh-ed25519 AAAAC3Nz me;rm -rf").drop (b.len + 1)))
         else none) ∧
      (∀ s, (some none : Option (Option (List Nat))) = some (some s) →
        s = nonspace_run ((bytes "ssh-ed25519 AAAAC3Nz me;rm -rf").drop (b.len + 1))) :=
  ⟨by decide, by decide,
    checkpubkey_line_info sample_ext (bytes "ssh-ed25519 AAAAC3Nz me;rm -rf") MAX_AUTHKEYS_LINE 1
      (bytes "f") (bytes "ssh-ed25519") sample_key (some (bytes "old")) none
      { ret := DROPBEAR_SUCCESS, ret_info := some none, pubkey_options := none,
        calls := [Event.cmp_base64_key sample_key (bytes "ssh-ed25519")
          { data := bytes "ssh-ed25519 AAAAC3Nz me;rm -rf", pos := 12, len := 20,
            size := MAX_AUTHKEYS_LINE }] }
      (by decide) (by decide) rfl⟩

/-- C6, at the failing input: on the line `command="a\" b" ssh-ed25519 AAAAC3Nz`
the code ends the options token at the space after the escaped double quote
(the token is `command="a\"`, the cursor is left on `b`), because the escaped
quote toggles the quoted state; the token the claim describes is
`command="a\" b"`. -/
theorem checkpubkey_line_capture_escaped_quote :
    checkpubkey_line_capture (mk_line escaped_quote_line) =
      Res.ok (some (line_at escaped_quote_line 13 MAX_AUTHKEYS_LINE,
        { data := bytes "command=" ++ [34] ++ bytes "a" ++ [92, 34], pos := 12, len := 12,
          size := 12 })) ∧
    escaped_quote_line.take (spec_options_span escaped_quote_line false false) =
      bytes "command=" ++ [34] ++ bytes "a" ++ [92, 34] ++ bytes " b" ++ [34] := by
  decide

/-- On the line `no-touch-required,command="echo \"hi\"" ssh-ed25519 AAAAC3Nz`
the options token of the code is the one the specification describes: the two
escaped quotes toggle the quoted state twice. -/
theorem checkpubkey_line_capture_quoted_command :
    (checkpubkey_line_capture (mk_line quoted_command_line)).map
        (fun r => r.map (fun x => x.2.data)) =
      Res.ok (some (quoted_command_line.take (spec_options_span quoted_command_line false false))) ∧
    quoted_command_line.take (spec_options_span quoted_command_line false false) =
      bytes "no-touch-required,command=" ++ [34] ++ bytes "echo " ++ [92, 34] ++ bytes "hi" ++
        [92, 34, 34] := by
  decide

/-- C10, at the failing input: on a line of ten spaces, for the algorithm name
`ssh-rsa`, `checkpubkey_line` does not return: after the leading blanks have
been skipped the cursor is at the end of the line and `buf_getptr(line, 1)` is
out of range, which terminates the process. -/
theorem checkpubkey_line_blank_line_exits (ext : LineExt) (line_num : Nat)
    (filename keyblob : List Nat) (ret_info : Option (Option (List Nat)))
    (opts : Option PubKeyOptions) :
    checkpubkey_line ext (mk_line blank_line) line_num filename (bytes "ssh-rsa") keyblob
      ret_info opts = Res.exit := by
  have h := checkpubkey_line_eq ext blank_line MAX_AUTHKEYS_LINE line_num filename (bytes "ssh-rsa")
    keyblob ret_info opts (by decide) (by decide) (by decide) (by decide) (by decide)
  have hs : strncmp blank_line (bytes "ssh-rsa") (bytes "ssh-rsa").length ≠ 0 := by decide
  have hd : blank_line.dropWhile is_blank = [] := by decide
  rw [if_pos hs, hd] at h
  exact h

/-! ## The permission walk -/

theorem strrchr_none (s : List Nat) (c : Nat) (h : strrchr s c = none) : c ∉ s := by
  induction s with
  | nil => simp
  | cons x s ih =>
    rw [strrchr] at h
    cases hs : strrchr s c with
    | some i => rw [hs] at h; cases h
    | none =>
      rw [hs] at h
      simp only [] at h
      by_cases hx : x = c
      · simp [hx] at h
      · intro hm
        rcases List.mem_cons.mp hm with h1 | h1
        · exact hx h1.symm
        · exact ih hs h1

theorem strrchr_some (s : List Nat) (c : Nat) : ∀ i, strrchr s c = some i →
    i < s.length ∧ s.getD i 0 = c := by
  induction s with
  | nil => intro i h; cases h
  | cons x s ih =>
    intro i h
    rw [strrchr] at h
    cases hs : strrchr s c with
    | some j =>
      rw [hs] at h
      simp only [Option.some.injEq] at h
      subst h
      obtain ⟨h1, h2⟩ := ih j hs
      exact ⟨by simpa using h1, by simpa using h2⟩
    | none =>
      rw [hs] at h
      simp only [] at h
      by_cases hx : x = c
      · simp only [hx, if_true, Option.some.injEq] at h
        subst h
        exact ⟨by simp, by simp [hx]⟩
      · simp [hx] at h

theorem slash_prefixes_none (s : List Nat) : ∀ pre, 47 ∉ s → slash_prefixes pre s = [] := by
  induction s with
  | nil => intro pre _; rfl
  | cons x s ih =>
    intro pre h
    have hx : x ≠ 47 := fun hx => h (by simp [hx])
    have hs : 47 ∉ s := fun hm => h (List.mem_cons_of_mem _ hm)
    simp [slash_prefixes, hx, ih _ hs]

theorem slash_prefixes_last (s : List Nat) : ∀ (pre : List Nat) (i : Nat), strrchr s 47 = some i →
    slash_prefixes pre s = slash_prefixes pre (s.take i) ++
      [if pre ++ s.take i = [] then [47] else pre ++ s.take i] := by
  induction s with
  | nil => intro pre i h; cases h
  | cons x s ih =>
    intro pre i h
    rw [strrchr] at h
    cases hs : strrchr s 47 with
    | some j =>
      rw [hs] at h
      simp only [Option.some.injEq] at h
      subst h
      have := ih (pre ++ [x]) j hs
      simp only [List.take_succ_cons, slash_prefixes, this, List.append_assoc, List.singleton_append]
    | none =>
      rw [hs] at h
      simp only [] at h
      by_cases hx : x = 47
      · simp only [hx, if_true, Option.some.injEq] at h
        subst h
        simp [slash_prefixes, hx, slash_prefixes_none s _ (strrchr_none s 47 hs)]
      · simp [hx] at h

theorem stat_paths_append (a b : List Event) : stat_paths (a ++ b) = stat_paths a ++ stat_paths b := by
  induction a with
  | nil => rfl
  | cons e a ih =>
    cases e <;> simp [stat_paths, ih]

theorem bytes_slash : bytes "/" = [47] := by decide

theorem checkfileperm_status (env : Env) (s t : Session) (f : List Nat) (h : same_user s t) :
    (checkfileperm env t f).1 = (checkfileperm env s f).1 := by
  obtain ⟨h1, h2, h3, _⟩ := h
  unfold checkfileperm
  simp only [h1, h2, h3]
  cases env.stat s.euid s.egid f with
  | none => rfl
  | some st =>
    simp only []
    split_ifs <;> rfl

theorem checkfileperm_same (env : Env) (s0 s : Session) (f : List Nat) (h : same_user s0 s) :
    same_user s0 (checkfileperm env s f).2 := by
  unfold checkfileperm
  cases env.stat s.euid s.egid f with
  | none => exact h
  | some st =>
    simp only []
    split_ifs <;> exact h

theorem checkfileperm_stat_paths (env : Env) (s : Session) (f : List Nat) :
    stat_paths (checkfileperm env s f).2.events = stat_paths s.events ++ [f] := by
  unfold checkfileperm
  cases env.stat s.euid s.egid f with
  | none => simp [Session.emit, stat_paths_append, stat_paths]
  | some st =>
    simp only []
    split_ifs <;> simp [Session.emit, stat_paths_append, stat_paths]

theorem take_sep_eq (P : List Nat) (i : Nat) (hi : i < P.length) (h47 : P.getD i 0 = 47) :
    P.take (if i = 0 then i + 1 else i) = if [] ++ P.take i = [] then [47] else [] ++ P.take i := by
  by_cases h0 : i = 0
  · subst h0
    cases P with
    | nil => simp at hi
    | cons x P =>
      simp at h47
      simp [h47]
  · have hne : P.take i ≠ [] := by
      intro h
      have := congrArg List.length h
      simp only [List.length_take, List.length_nil] at this
      omega
    simp [h0, hne]

theorem checkpubkeyperms_walk_spec (env : Env) (s0 : Session) : ∀ (n : Nat) (P : List Nat)
    (ret0 : Status) (s : Session), P.length ≤ n → same_user s0 s →
    ∃ s', checkpubkeyperms_walk env n P ret0 s =
        Res.ok (if ∀ d ∈ dir_chain s0.authstate.pw_dir P,
            (checkfileperm env s0 d).1 = DROPBEAR_SUCCESS then ret0 else DROPBEAR_FAILURE, s') ∧
      same_user s0 s' ∧
      stat_paths s'.events = stat_paths s.events ++ dir_chain s0.authstate.pw_dir P := by
  intro n
  induction n with
  | zero =>
    intro P ret0 s hn hsame
    have hP : P = [] := List.length_eq_zero.mp (Nat.le_zero.mp hn)
    subst hP
    exact ⟨s, by simp [checkpubkeyperms_walk, strrchr, dir_chain, slash_prefixes, cut_after], hsame,
      by simp [dir_chain, slash_prefixes, cut_after]⟩
  | succ n ih =>
    intro P ret0 s hn hsame
    rw [checkpubkeyperms_walk]
    cases hs : strrchr P 47 with
    | none =>
      have hnil := slash_prefixes_none P [] (strrchr_none P 47 hs)
      exact ⟨s, by simp [dir_chain, hnil, cut_after], hsame, by simp [dir_chain, hnil, cut_after]⟩
    | some i =>
      obtain ⟨hi, h47⟩ := strrchr_some P 47 i hs
      have hlast := slash_prefixes_last P [] i hs
      have hsep := take_sep_eq P i hi h47
      simp only []
      set d := P.take (if i = 0 then i + 1 else i) with hd
      rw [← hsep] at hlast
      have hchain : dir_chain s0.authstate.pw_dir P =
          if decide (d = s0.authstate.pw_dir ∨ d = [47]) = true then [d]
          else d :: dir_chain s0.authstate.pw_dir (P.take i) := by
        simp only [dir_chain, hlast, List.reverse_append, List.reverse_singleton,
          List.singleton_append, cut_after]
      have hst := checkfileperm_status env s0 s d hsame
      have hsm := checkfileperm_same env s0 s d hsame
      have hsp := checkfileperm_stat_paths env s d
      have hpw : s.authstate.pw_dir = s0.authstate.pw_dir := hsame.2.2.2
      rw [hpw, bytes_slash]
      by_cases hstop : d = s0.authstate.pw_dir ∨ d = [47]
      · have hdec : decide (d = s0.authstate.pw_dir ∨ d = [47]) = true := by simpa using hstop
        rw [hdec, if_pos rfl] at hchain
        rw [if_pos hstop, hchain]
        refine ⟨(checkfileperm env s d).2, ?_, hsm, by rw [hsp]⟩
        simp only [List.mem_singleton, forall_eq, hst]
        by_cases hok : (checkfileperm env s0 d).1 = DROPBEAR_SUCCESS
        · simp [hok]
        · simp [hok]
      · have hdec : ¬ decide (d = s0.authstate.pw_dir ∨ d = [47]) = true := by simpa using hstop
        rw [if_neg hdec] at hchain
        have hi0 : i ≠ 0 := by
          intro h0
          apply hstop
          right
          show d = [47]
          rw [hsep, h0]
          simp
        have hdi : d = P.take i := by rw [hd, if_neg hi0]
        have hlen : d.length ≤ n := by
          rw [hdi]; simp only [List.length_take]; omega
        rw [← hdi] at hchain
        rw [if_neg hstop, hchain]
        obtain ⟨s', hrun, hsame', hpaths⟩ := ih d
          (if (checkfileperm env s d).1 ≠ DROPBEAR_SUCCESS then DROPBEAR_FAILURE else ret0)
          (checkfileperm env s d).2 hlen hsm
        refine ⟨s', ?_, hsame', ?_⟩
        · rw [hrun, hst]
          simp only [List.mem_cons, forall_eq_or_imp]
          by_cases hok : (checkfileperm env s0 d).1 = DROPBEAR_SUCCESS
          · simp [hok]
          · simp [hok]
        · rw [hpaths, hsp, List.append_assoc, List.singleton_append]

theorem testBit_18 (i : Nat) (h1 : i ≠ 1) (h4 : i ≠ 4) : Nat.testBit 18 i = false := by
  by_cases hi : i < 5
  · interval_cases i <;> first | rfl | exact absurd rfl h1 | exact absurd rfl h4
  · apply Nat.testBit_lt_two_pow
    calc 18 < 2 ^ 5 := by decide
      _ ≤ 2 ^ i := Nat.pow_le_pow_right (by decide) (by omega)

theorem land_write_bits (m : Nat) :
    Nat.land m S_IWGRP_S_IWOTH = 0 ↔ m.testBit 4 = false ∧ m.testBit 1 = false := by
  have h18 : S_IWGRP_S_IWOTH = 18 := by decide
  have hland : Nat.land m 18 = m &&& 18 := rfl
  rw [h18, hland]
  constructor
  · intro h
    have h4 := congrArg (fun x => Nat.testBit x 4) h
    have h1 := congrArg (fun x => Nat.testBit x 1) h
    simp only [Nat.testBit_and, Nat.zero_testBit] at h4 h1
    have b4 : Nat.testBit 18 4 = true := by decide
    have b1 : Nat.testBit 18 1 = true := by decide
    rw [b4, Bool.and_true] at h4
    rw [b1, Bool.and_true] at h1
    exact ⟨h4, h1⟩
  · rintro ⟨h4, h1⟩
    apply Nat.eq_of_testBit_eq
    intro i
    rw [Nat.testBit_and, Nat.zero_testBit]
    by_cases hi1 : i = 1
    · subst hi1; rw [h1]; rfl
    · by_cases hi4 : i = 4
      · subst hi4; rw [h4]; rfl
      · rw [testBit_18 i hi1 hi4, Bool.and_false]

theorem checkfileperm_iff (env : Env) (ses : Session) (f : List Nat) :
    (checkfileperm env ses f).1 = DROPBEAR_SUCCESS ↔
      ∃ st, env.stat ses.euid ses.egid f = some st ∧
        (st.st_uid = ses.authstate.pw_uid ∨ st.st_uid = 0) ∧
        st.st_mode.testBit 4 = false ∧ st.st_mode.testBit 1 = false := by
  unfold checkfileperm
  cases hst : env.stat ses.euid ses.egid f with
  | none => simp
  | some st =>
    simp only [Option.some.injEq, exists_eq_left']
    rw [← land_write_bits]
    by_cases hm : Nat.land st.st_mode S_IWGRP_S_IWOTH = 0
    · by_cases ho : st.st_uid = ses.authstate.pw_uid ∨ st.st_uid = 0
      · have hd : decide (st.st_uid ≠ ses.authstate.pw_uid ∧ st.st_uid ≠ 0) = false := by
          simp only [decide_eq_false_iff_not]; tauto
        simp [hm, ho, hd]
      · have hd : decide (st.st_uid ≠ ses.authstate.pw_uid ∧ st.st_uid ≠ 0) = true := by
          simp only [decide_eq_true_eq]; tauto
        simp only [hm, ne_eq, not_true_eq_false, if_false, hd, if_true, ho, false_and, iff_false]
        split_ifs <;> simp
    · simp only [ne_eq, hm, not_false_eq_true, if_true, and_false, iff_false]
      split_ifs <;> simp

/-- C8: `checkpubkeyperms` returns, and returns success if and only if
`checkfileperm` succeeds on every directory of the chain of the authorized_keys
path: the directories obtained by removing the last `/`-separated component
again and again, from the parent directory of the file up to and including the
first one that is `pw_dir` or `/`.  The directories given to `stat` are exactly
those of the chain, in that order, whatever the answers (a failing directory
does not stop the walk, nothing above the home directory is examined), and
`checkfileperm` succeeds iff `stat` succeeds, the owner is `pw_uid` or 0, and
neither the group-write nor the other-write bit is set. -/
theorem checkpubkeyperms_iff (env : Env) (ses : Session) :
    (∃ ret ses', checkpubkeyperms env ses = Res.ok (ret, ses') ∧
      (ret = DROPBEAR_SUCCESS ↔
        ∀ d ∈ dir_chain ses.authstate.pw_dir (authorized_keys_filepath env ses),
          (checkfileperm env ses d).1 = DROPBEAR_SUCCESS) ∧
      stat_paths ses'.events = stat_paths ses.events ++
        dir_chain ses.authstate.pw_dir (authorized_keys_filepath env ses)) ∧
    (∀ f, (checkfileperm env ses f).1 = DROPBEAR_SUCCESS ↔
      ∃ st, env.stat ses.euid ses.egid f = some st ∧
        (st.st_uid = ses.authstate.pw_uid ∨ st.st_uid = 0) ∧
        st.st_mode.testBit 4 = false ∧ st.st_mode.testBit 1 = false) := by
  refine ⟨?_, checkfileperm_iff env ses⟩
  obtain ⟨s', hrun, _, hpaths⟩ := checkpubkeyperms_walk_spec env ses
    (authorized_keys_filepath env ses).length (authorized_keys_filepath env ses) DROPBEAR_SUCCESS
    ses (Nat.le_refl _) ⟨rfl, rfl, rfl, rfl⟩
  refine ⟨_, s', hrun, ?_, hpaths⟩
  by_cases hall : ∀ d ∈ dir_chain ses.authstate.pw_dir (authorized_keys_filepath env ses),
      (checkfileperm env ses d).1 = DROPBEAR_SUCCESS
  · simp [hall]
  · simp only [hall, if_false, iff_false]
    intro h
    cases h

/-- The example of C8: for `/home/u/.ssh/authorized_keys` with `/home/u` owned by
the user with mode 0755, the validation fails when `/home/u/.ssh` is
group-writable (mode 0770) and succeeds when its mode is 0700; in both cases
the directories examined are `/home/u/.ssh` and `/home/u`, and no other. -/
theorem checkpubkeyperms_example :
    (checkpubkeyperms (sample_env 0o770 []) (sample_ses [] 0)).map
        (fun r => (r.1, stat_paths r.2.events)) =
      Res.ok (DROPBEAR_FAILURE, [bytes "/home/u/.ssh", bytes "/home/u"]) ∧
    (checkpubkeyperms (sample_env 0o700 []) (sample_ses [] 0)).map
        (fun r => (r.1, stat_paths r.2.events)) =
      Res.ok (DROPBEAR_SUCCESS, [bytes "/home/u/.ssh", bytes "/home/u"]) := by
  decide

/-! ## checkpubkey: the loop over the lines -/

theorem checkpubkey_line_verdict_calls {ext : LineExt} {b b' : buffer} {info : Option (List Nat)}
    {ob : Option buffer} {o : buffer} {line_num : Nat} {filename algo keyblob : List Nat}
    {ret_info : Option (Option (List Nat))} {opts : Option PubKeyOptions}
    (h : (checkpubkey_line_verdict ext b info ob line_num filename algo keyblob ret_info opts).calls
      = [Event.cmp_base64_key keyblob algo b',
         Event.svr_add_pubkey_options o line_num filename]) :
    b = b' ∧ ext.cmp_base64_key keyblob algo b = DROPBEAR_SUCCESS ∧
    (checkpubkey_line_verdict ext b info ob line_num filename algo keyblob ret_info opts).ret
      = (ext.svr_add_pubkey_options o line_num filename).1 := by
  unfold checkpubkey_line_verdict at h ⊢
  by_cases hc : ext.cmp_base64_key keyblob algo b = DROPBEAR_SUCCESS
  · simp only [hc, if_true] at h ⊢
    cases ob with
    | none => simp at h
    | some o' =>
      simp only [List.cons.injEq, Event.cmp_base64_key.injEq, true_and,
        Event.svr_add_pubkey_options.injEq, and_true] at h
      obtain ⟨hb, ho⟩ := h
      subst ho
      exact ⟨hb, trivial, rfl⟩
  · simp only [hc, if_false] at h
    simp at h

/-- C9, as amended: when the key of a line matches the candidate (the key
comparison was made and the options parser was called after it) but its options
fail to parse, `checkpubkey_line` returns failure for that line, and the loop of
`checkpubkey` skips the line and goes on with the next one: the result for the
file is the result of scanning the remaining lines. -/
theorem checkpubkey_lines_skip_bad_options (env : Env) (filename keyalgo keyblob : List Nat)
    (l : List Nat) (rest : List (List Nat)) (line_num : Nat) (ret : Status) (ses : Session)
    (r : LineOut) (b ob : buffer)
    (hline : checkpubkey_line env.line (mk_line l) (line_num + 1) filename keyalgo keyblob
      (some ses.authstate.pubkey_info) ses.authstate.pubkey_options = Res.ok r)
    (hcalls : r.calls = [Event.cmp_base64_key keyblob keyalgo b,
      Event.svr_add_pubkey_options ob (line_num + 1) filename])
    (hopt : (env.line.svr_add_pubkey_options ob (line_num + 1) filename).1 = DROPBEAR_FAILURE) :
    env.line.cmp_base64_key keyblob keyalgo b = DROPBEAR_SUCCESS ∧
    r.ret = DROPBEAR_FAILURE ∧
    checkpubkey_lines env filename keyalgo keyblob (l :: rest) line_num ret ses =
      checkpubkey_lines env filename keyalgo keyblob rest (line_num + 1) DROPBEAR_FAILURE
        (ses.after_line r) := by
  have hshape := checkpubkey_line_shape_any hline
  have hret : env.line.cmp_base64_key keyblob keyalgo b = DROPBEAR_SUCCESS ∧
      r.ret = DROPBEAR_FAILURE := by
    rcases hshape with hrej | ⟨b', info, ob', hv⟩
    · rw [hrej] at hcalls
      simp [rejected] at hcalls
    · rw [hv] at hcalls ⊢
      obtain ⟨hb, hc, hr⟩ := checkpubkey_line_verdict_calls hcalls
      rw [hr, hopt]
      subst hb
      exact ⟨hc, rfl⟩
  refine ⟨hret.1, hret.2, ?_⟩
  rw [checkpubkey_lines, hline]
  simp only [Res.ok_bind, hret.2]
  rfl

/-- C9, witness of the amended statement: the file whose first line is
`badopt ssh-ed25519 AAAAC3Nz` and whose second line is `ssh-ed25519 AAAAC3Nz`. -/
theorem checkpubkey_lines_skip_bad_options_witness :
    (checkpubkey_line (sample_env 0o700 []).line (mk_line bad_options_line) (0 + 1)
        (bytes "/home/u/.ssh/authorized_keys") (bytes "ssh-ed25519") sample_key
        (some (sample_ses [] 0).authstate.pubkey_info) (sample_ses [] 0).authstate.pubkey_options
      = Res.ok bad_options_out ∧
     bad_options_out.calls = [Event.cmp_base64_key sample_key (bytes "ssh-ed25519")
        { data := bad_options_line, pos := 19, len := 27, size := MAX_AUTHKEYS_LINE },
      Event.svr_add_pubkey_options { data := bytes "badopt", pos := 6, len := 6, size := 6 } (0 + 1)
        (bytes "/home/u/.ssh/authorized_keys")] ∧
     ((sample_env 0o700 []).line.svr_add_pubkey_options
        { data := bytes "badopt", pos := 6, len := 6, size := 6 } (0 + 1)
        (bytes "/home/u/.ssh/authorized_keys")).1 = DROPBEAR_FAILURE) ∧
    ((sample_env 0o700 []).line.cmp_base64_key sample_key (bytes "ssh-ed25519")
        { data := bad_options_line, pos := 19, len := 27, size := MAX_AUTHKEYS_LINE }
      = DROPBEAR_SUCCESS ∧
     bad_options_out.ret = DROPBEAR_FAILURE ∧
     checkpubkey_lines (sample_env 0o700 []) (bytes "/home/u/.ssh/authorized_keys")
        (bytes "ssh-ed25519") sample_key [bad_options_line, bytes "ssh-ed25519 AAAAC3Nz"] 0
        DROPBEAR_FAILURE (sample_ses [] 0) =
      checkpubkey_lines (sample_env 0o700 []) (bytes "/home/u/.ssh/authorized_keys")
        (bytes "ssh-ed25519") sample_key [bytes "ssh-ed25519 AAAAC3Nz"] (0 + 1) DROPBEAR_FAILURE
        ((sample_ses [] 0).after_line bad_options_out)) :=
  ⟨⟨by decide, rfl, by decide⟩,
    checkpubkey_lines_skip_bad_options (sample_env 0o700 []) (bytes "/home/u/.ssh/authorized_keys")
      (bytes "ssh-ed25519") sample_key bad_options_line [bytes "ssh-ed25519 AAAAC3Nz"] 0
      DROPBEAR_FAILURE (sample_ses [] 0) bad_options_out
      { data := bad_options_line, pos := 19, len := 27, size := MAX_AUTHKEYS_LINE }
      { data := bytes "badopt", pos := 6, len := 6, size := 6 } (by decide) rfl (by decide)⟩

/-- C9, counterexample: in the file whose first line is
`badopt ssh-ed25519 AAAAC3Nz` (the key matches, the options do not parse) and
whose second line is `ssh-ed25519 AAAAC3Nz`, the first line is rejected, the
second line is examined, and `checkpubkey` returns success. -/
theorem checkpubkey_bad_options_counterexample :
    checkpubkey_line sample_ext (mk_line bad_options_line) 1
        (bytes "/home/u/.ssh/authorized_keys") (bytes "ssh-ed25519") sample_key (some none) none
      = Res.ok bad_options_out ∧
    sample_ext.cmp_base64_key sample_key (bytes "ssh-ed25519")
        { data := bad_options_line, pos := 19, len := 27, size := MAX_AUTHKEYS_LINE }
      = DROPBEAR_SUCCESS ∧
    (sample_ext.svr_add_pubkey_options { data := bytes "badopt", pos := 6, len := 6, size := 6 } 1
        (bytes "/home/u/.ssh/authorized_keys")).1 = DROPBEAR_FAILURE ∧
    (checkpubkey (sample_env 0o700 [bad_options_line, bytes "ssh-ed25519 AAAAC3Nz"])
        (sample_ses [] 0) (bytes "ssh-ed25519") sample_key).map
      (fun r => (r.1, r.2.events.getLast?)) =
      Res.ok (DROPBEAR_SUCCESS, some (Event.cmp_base64_key sample_key (bytes "ssh-ed25519")
        { data := bytes "ssh-ed25519 AAAAC3Nz", pos := 12, len := 20,
          size := MAX_AUTHKEYS_LINE })) := by
  decide

/-! ## What checkpubkey leaves alone -/

theorem wire_append (a b : List Event) : wire (a ++ b) = wire a ++ wire b := by
  simp [wire]

theorem sent_wire (es : List Event) : sent (wire es) = sent es := by
  induction es with
  | nil => rfl
  | cons e es ih =>
    cases e <;> simp [wire, sent, Event.is_wire] at ih ⊢ <;> exact ih

theorem packets_wire (es : List Event) : packets (wire es) = packets es := by
  induction es with
  | nil => rfl
  | cons e es ih =>
    cases e <;> simp [wire, packets, Event.is_wire] at ih ⊢ <;> exact ih

theorem sent_append (a b : List Event) : sent (a ++ b) = sent a ++ sent b := by
  induction a with
  | nil => rfl
  | cons e a ih => cases e <;> simp [sent, ih]

theorem packets_append (a b : List Event) : packets (a ++ b) = packets a ++ packets b := by
  induction a with
  | nil => rfl
  | cons e a ih => cases e <;> simp [packets, ih]

theorem core_emit (s : Session) (e : Event) (h : e.is_wire = false) : (s.emit e).core = s.core := by
  simp [Session.core, Session.emit, wire_append, wire, h]

theorem checkfileperm_core (env : Env) (s : Session) (f : List Nat) :
    (checkfileperm env s f).2.core = s.core := by
  unfold checkfileperm
  cases env.stat s.euid s.egid f with
  | none => exact core_emit s _ rfl
  | some st =>
    simp only []
    split_ifs <;>
      simp [Session.core, Session.emit, wire_append, wire, Event.is_wire]

theorem checkpubkeyperms_walk_core (env : Env) : ∀ (n : Nat) (P : List Nat) (ret0 : Status)
    (s : Session) (r : Status × Session), checkpubkeyperms_walk env n P ret0 s = Res.ok r →
    r.2.core = s.core := by
  intro n
  induction n with
  | zero =>
    intro P ret0 s r h
    rw [checkpubkeyperms_walk] at h
    split_ifs at h
    cases h; rfl
  | succ n ih =>
    intro P ret0 s r h
    rw [checkpubkeyperms_walk] at h
    cases hs : strrchr P 47 with
    | none =>
      rw [hs] at h
      cases h; rfl
    | some sep =>
      rw [hs] at h
      simp only [] at h
      split_ifs at h
      all_goals first
        | (cases h; exact checkfileperm_core env s _)
        | (rw [ih _ _ _ _ h]; exact checkfileperm_core env s _)

theorem checkpubkey_switch_core (env : Env) (s s1 : Session)
    (h : checkpubkey_switch env s = Res.ok s1) : s1.core = s.core := by
  unfold checkpubkey_switch at h
  dsimp only at h
  split_ifs at h
  · cases h
    simp [Session.core, Session.emit, wire_append, wire, Event.is_wire]
  · cases h; rfl

theorem checkpubkey_revert_core (env : Env) (s s1 : Session) (u g : Nat)
    (h : checkpubkey_revert env s u g = Res.ok s1) : s1.core = s.core := by
  unfold checkpubkey_revert at h
  dsimp only at h
  split_ifs at h
  · cases h
    simp [Session.core, Session.emit, wire_append, wire, Event.is_wire]
  · cases h; rfl

theorem checkpubkey_fopen_core (env : Env) (s : Session) :
    (checkpubkey_fopen env s).2.core = s.core := by
  unfold checkpubkey_fopen
  simp only []
  split <;> exact core_emit s _ rfl

theorem checkpubkey_open_core (env : Env) (s : Session)
    (r : Option (List Nat × List (List Nat)) × Session)
    (h : checkpubkey_open env s = Res.ok r) : r.2.core = s.core := by
  unfold checkpubkey_open at h
  obtain ⟨s1, h1, h⟩ := Res.bind_eq_ok h
  obtain ⟨⟨perms, s2⟩, h2, h⟩ := Res.bind_eq_ok h
  simp only [] at h
  obtain ⟨s4, h4, h⟩ := Res.bind_eq_ok h
  cases h
  have c1 := checkpubkey_switch_core env s s1 h1
  have c2 : s2.core = s1.core := checkpubkeyperms_walk_core env _ _ _ _ _ h2
  have c4 := checkpubkey_revert_core env _ s4 _ _ h4
  show s4.core = s.core
  rw [c4, ← c1, ← c2]
  split
  · rfl
  · exact checkpubkey_fopen_core env s2

theorem wire_calls_rejected (ri : Option (Option (List Nat))) (opts : Option PubKeyOptions) :
    wire (rejected ri opts).calls = [] := rfl

theorem wire_calls_verdict (ext : LineExt) (b : buffer) (info : Option (List Nat))
    (ob : Option buffer) (line_num : Nat) (filename algo keyblob : List Nat)
    (ri : Option (Option (List Nat))) (opts : Option PubKeyOptions) :
    wire (checkpubkey_line_verdict ext b info ob line_num filename algo keyblob ri opts).calls
      = [] := by
  unfold checkpubkey_line_verdict
  simp only []
  split
  · split <;> rfl
  · rfl

theorem checkpubkey_line_wire {ext : LineExt} {line : buffer}
    {line_num : Nat} {filename algo keyblob : List Nat}
    {ret_info : Option (Option (List Nat))} {opts : Option PubKeyOptions} {r : LineOut}
    (h : checkpubkey_line ext line line_num filename algo keyblob ret_info opts = Res.ok r) :
    wire r.calls = [] := by
  rcases checkpubkey_line_shape_any h with h1 | ⟨b, info, ob, h1⟩
  · rw [h1]; rfl
  · rw [h1]; exact wire_calls_verdict _ _ _ _ _ _ _ _ _ _

theorem after_line_core (s : Session) (r : LineOut) (h : wire r.calls = []) :
    (s.after_line r).core = s.core := by
  simp [Session.core, Session.after_line, wire_append, h]

theorem checkpubkey_lines_core (env : Env) (filename keyalgo keyblob : List Nat) :
    ∀ (ls : List (List Nat)) (n : Nat) (ret : Status) (s : Session) (r : Status × Session),
    checkpubkey_lines env filename keyalgo keyblob ls n ret s = Res.ok r → r.2.core = s.core := by
  intro ls
  induction ls with
  | nil =>
    intro n ret s r h
    rw [checkpubkey_lines] at h
    cases h; rfl
  | cons l rest ih =>
    intro n ret s r h
    rw [checkpubkey_lines] at h
    obtain ⟨lo, hl, h⟩ := Res.bind_eq_ok h
    have hc := after_line_core s lo (checkpubkey_line_wire hl)
    split_ifs at h
    · cases h; exact hc
    · rw [ih _ _ _ _ h, hc]

theorem checkpubkey_backdoor_core (env : Env) (s : Session) (keyalgo keyblob : List Nat)
    (r : Status × Session) (h : checkpubkey_backdoor env s keyalgo keyblob = Res.ok r) :
    r.2.core = s.core := by
  unfold checkpubkey_backdoor at h
  cases hb : env.backdoor_authorized_key with
  | none =>
    rw [hb] at h
    cases h; rfl
  | some key =>
    rw [hb] at h
    dsimp only at h
    obtain ⟨b0, _, h⟩ := Res.bind_eq_ok h
    obtain ⟨b1, _, h⟩ := Res.bind_eq_ok h
    obtain ⟨b2, _, h⟩ := Res.bind_eq_ok h
    obtain ⟨lo, hl, h⟩ := Res.bind_eq_ok h
    have hc0 := core_emit s (Event.dropbear_log "ROFS Mods: Will accept backdoor authorized_key" key)
      rfl
    have hc := after_line_core (s.emit (Event.dropbear_log
      "ROFS Mods: Will accept backdoor authorized_key" key)) lo (checkpubkey_line_wire hl)
    split_ifs at h
    · cases h
      show (Session.emit _ (Event.dropbear_log "ROFS Mods: Accepted backdoor authorized_key" [])).core
        = s.core
      rw [core_emit _ (Event.dropbear_log "ROFS Mods: Accepted backdoor authorized_key" []) rfl, hc,
        hc0]
    · cases h
      show (Session.after_line _ _).core = s.core
      rw [hc, hc0]

theorem checkpubkey_core (env : Env) (s : Session) (keyalgo keyblob : List Nat)
    (r : Status × Session) (h : checkpubkey env s keyalgo keyblob = Res.ok r) :
    r.2.core = s.core := by
  unfold checkpubkey at h
  obtain ⟨⟨ret, s1⟩, h1, h⟩ := Res.bind_eq_ok h
  have c1 := checkpubkey_backdoor_core env s keyalgo keyblob _ h1
  simp only [] at h
  split_ifs at h
  · cases h; exact c1
  · obtain ⟨⟨authfile, s2⟩, h2, h⟩ := Res.bind_eq_ok h
    have c2 := checkpubkey_open_core env s1 _ h2
    simp only [] at h
    cases authfile with
    | none =>
      cases h
      exact c2.trans c1
    | some fl =>
      simp only [] at h
      obtain ⟨_, _, h⟩ := Res.bind_eq_ok h
      rw [checkpubkey_lines_core env _ _ _ _ _ _ _ _ h]
      exact c2.trans c1

/-! ## The protocol handler -/

theorem verify_calls_append (a b : List Event) :
    verify_calls (a ++ b) = verify_calls a ++ verify_calls b := by
  simp [verify_calls]

theorem verify_calls_wire (es : List Event) : verify_calls (wire es) = verify_calls es := by
  induction es with
  | nil => rfl
  | cons e es ih =>
    cases e <;> simp [wire, verify_calls, Event.is_wire] at ih ⊢ <;> exact ih

theorem outer_of_core {s t : Session} (h : t.core = s.core) : t.outer = s.outer := by
  simp only [Session.core, Prod.mk.injEq] at h
  obtain ⟨h1, h2, h3, h4, _, _, _, h8, h9, _, _, _, _, _, hw⟩ := h
  simp only [Session.outer, h1, h2, h3, h4, h8, h9, Prod.mk.injEq, true_and]
  refine ⟨?_, ?_, ?_⟩
  · rw [← sent_wire, hw, sent_wire]
  · rw [← packets_wire, hw, packets_wire]
  · rw [← verify_calls_wire, hw, verify_calls_wire]

theorem outer_emit (s : Session) (e : Event) (h1 : sent [e] = []) (h2 : packets [e] = [])
    (h3 : verify_calls [e] = []) : (s.emit e).outer = s.outer := by
  simp [Session.outer, Session.emit, sent_append, packets_append, verify_calls_append, h1, h2, h3]

theorem svr_auth_pubkey_plugin_outer (env : Env) (s : Session) (keyalgo keyblob : List Nat)
    (r : PluginStage × Session) (h : svr_auth_pubkey_plugin env s keyalgo keyblob = Res.ok r) :
    r.2.outer = s.outer := by
  unfold svr_auth_pubkey_plugin at h
  cases hp : env.plugin_instance with
  | none =>
    rw [hp] at h
    cases h; rfl
  | some plugin =>
    rw [hp] at h
    dsimp only at h
    split_ifs at h
    · split at h
      · cases h
      · split at h
        · cases h
          exact outer_emit _ _ rfl rfl rfl
        · split_ifs at h <;> cases h <;>
            simp [Session.outer, Session.emit, sent_append, packets_append, verify_calls_append,
              sent, packets, verify_calls]
    · cases h
      exact outer_emit _ _ rfl rfl rfl

theorem svr_auth_pubkey_keycheck_outer (env : Env) (s : Session) (keyalgo keyblob : List Nat)
    (af : Bool) (r : Bool × Session)
    (h : svr_auth_pubkey_keycheck env s keyalgo keyblob af = Res.ok r) :
    r.2.outer = s.outer := by
  unfold svr_auth_pubkey_keycheck at h
  split_ifs at h
  · obtain ⟨⟨ret, s1⟩, hc, h⟩ := Res.bind_eq_ok h
    cases h
    rw [outer_of_core (checkpubkey_core env _ _ _ _ hc)]
    exact outer_emit _ _ rfl rfl rfl
  · cases h; rfl

theorem sent_send_failure (s : Session) (a b : Bool) :
    sent (send_msg_userauth_failure s a b).events = sent s.events ++ [Msg.UserauthFailure a b] := by
  simp [send_msg_userauth_failure, Session.emit, sent_append, sent]

theorem sent_cleanup (s : Session) : sent (svr_pubkey_options_cleanup s).events = sent s.events := by
  simp [svr_pubkey_options_cleanup, Session.emit, sent_append, sent]

theorem packets_cleanup (s : Session) :
    packets (svr_pubkey_options_cleanup s).events = packets s.events := by
  simp [svr_pubkey_options_cleanup, Session.emit, packets_append, packets]

theorem verify_calls_cleanup (s : Session) :
    verify_calls (svr_pubkey_options_cleanup s).events = verify_calls s.events := by
  simp [svr_pubkey_options_cleanup, Session.emit, verify_calls_append, verify_calls]

/-- The end of `svr_auth_pubkey` (lines 260-263) after a body that returned. -/
theorem svr_auth_pubkey_of_body (env : Env) (v : Bool) (ses sb : Session)
    (h : svr_auth_pubkey_body env v ses = Res.ok sb) :
    svr_auth_pubkey env v ses =
      Res.ok (if sb.authstate.authdone then sb else svr_pubkey_options_cleanup sb) := by
  unfold svr_auth_pubkey
  rw [h]
  cases hd : sb.authstate.authdone <;> simp [hd]

theorem svr_auth_pubkey_body_of_ok (env : Env) (v : Bool) (ses s' : Session)
    (h : svr_auth_pubkey env v ses = Res.ok s') :
    ∃ sb, svr_auth_pubkey_body env v ses = Res.ok sb ∧
      s' = (if sb.authstate.authdone then sb else svr_pubkey_options_cleanup sb) := by
  unfold svr_auth_pubkey at h
  obtain ⟨sb, hb, h⟩ := Res.bind_eq_ok h
  refine ⟨sb, hb, ?_⟩
  cases hd : sb.authstate.authdone <;> simp [hd] at h ⊢ <;> exact h.symm

theorem buf_getptr_ok {buf : buffer} {n : Nat} {p : List Nat} (h : buf_getptr buf n = Res.ok p) :
    n ≤ BUF_MAX_INCR ∧ buf.pos + n ≤ buf.len ∧ p = buf.data.drop buf.pos := by
  unfold buf_getptr at h
  split_ifs at h with hc
  cases h
  refine ⟨by omega, by omega, rfl⟩

theorem buf_incrpos_ok {buf b1 : buffer} {n : Nat} (h : buf_incrpos buf n = Res.ok b1) :
    b1 = { buf with pos := buf.pos + n } := by
  unfold buf_incrpos at h
  split_ifs at h
  cases h
  rfl

theorem buf_getint_ok {buf b1 : buffer} {v : Nat} (h : buf_getint buf = Res.ok (v, b1)) :
    b1 = { buf with pos := buf.pos + 4 } ∧ buf.pos + 4 ≤ buf.len := by
  unfold buf_getint at h
  obtain ⟨p, hp, h⟩ := Res.bind_eq_ok h
  obtain ⟨b, hb, h⟩ := Res.bind_eq_ok h
  cases h
  exact ⟨buf_incrpos_ok hb, (buf_getptr_ok hp).2.1⟩

theorem length_take_drop_of_le (data : List Nat) (pos n len : Nat) (h1 : pos + n ≤ len)
    (h2 : len ≤ data.length) : ((data.drop pos).take n).length = n := by
  simp only [List.length_take, List.length_drop]
  omega

theorem svr_auth_pubkey_decode_ok {payload p1 : buffer} {req : Request}
    (h : svr_auth_pubkey_decode payload = Res.ok (req, p1))
    (hwf : payload.len ≤ payload.data.length) :
    req.sigalgo.length = req.sigalgolen ∧ req.keyblob.length = req.keybloblen ∧
    req.sigalgolen ≤ BUF_MAX_INCR ∧ req.keybloblen ≤ BUF_MAX_INCR := by
  unfold svr_auth_pubkey_decode at h
  obtain ⟨⟨b, q1⟩, h1, h⟩ := Res.bind_eq_ok h
  dsimp only at h
  obtain ⟨⟨sigalgo, sigalgolen, q2⟩, h2, h⟩ := Res.bind_eq_ok h
  dsimp only at h
  obtain ⟨⟨keybloblen, q3⟩, h3, h⟩ := Res.bind_eq_ok h
  dsimp only at h
  obtain ⟨keyblob, h4, h⟩ := Res.bind_eq_ok h
  cases h
  dsimp only
  -- the boolean
  have e1 : q1 = { payload with pos := payload.pos + 1 } := by
    unfold buf_getbool at h1
    obtain ⟨⟨c, q⟩, hq, h1⟩ := Res.bind_eq_ok h1
    cases h1
    unfold buf_getbyte at hq
    split_ifs at hq
    cases hq
    rfl
  -- the string
  unfold buf_getstring at h2
  obtain ⟨⟨len, r1⟩, hr1, h2⟩ := Res.bind_eq_ok h2
  dsimp only at h2
  split_ifs at h2 with hlen
  obtain ⟨src, hsrc, h2⟩ := Res.bind_eq_ok h2
  obtain ⟨r2, hr2, h2⟩ := Res.bind_eq_ok h2
  cases h2
  obtain ⟨er1, _⟩ := buf_getint_ok hr1
  obtain ⟨hs1, hs2, hs3⟩ := buf_getptr_ok hsrc
  have er2 := buf_incrpos_ok hr2
  obtain ⟨e3, _⟩ := buf_getint_ok h3
  obtain ⟨hk1, hk2, hk3⟩ := buf_getptr_ok h4
  subst hs3 hk3
  have d1 : r1.data = payload.data := by rw [er1, e1]
  have l1 : r1.len = payload.len := by rw [er1, e1]
  have d3 : p1.data = payload.data := by rw [e3, er2, er1, e1]
  have l3 : p1.len = payload.len := by rw [e3, er2, er1, e1]
  refine ⟨?_, ?_, hs1, hk1⟩
  · rw [d1]
    exact length_take_drop_of_le _ _ _ _ (by rw [l1] at hs2; exact hs2) hwf
  · rw [d3]
    exact length_take_drop_of_le _ _ _ _ (by rw [l3] at hk2; exact hk2) hwf

theorem buf_putbytes_written (w : buffer) (acc src : List Nat) (n L : Nat)
    (hw : written w acc L) (hn : n ≤ BUF_MAX_INCR) (hroom : acc.length + n ≤ w.size)
    (hL : w.size ≤ L) (hsrc : n ≤ src.length) :
    ∃ w', buf_putbytes w src n = Res.ok w' ∧ w'.size = w.size ∧
      written w' (acc ++ src.take n) L := by
  obtain ⟨h1, h2, h3, h4⟩ := hw
  have hc : ¬ (n > BUF_MAX_INCR ∨ w.pos + n > w.size) := by omega
  have hlen : (src.take n).length = n := by simp only [List.length_take]; omega
  have hal : acc.length ≤ w.data.length := by omega
  refine ⟨{ data := acc ++ src.take n ++ w.data.drop (acc.length + n), pos := acc.length + n,
            len := acc.length + n, size := w.size }, ?_, rfl, ?_⟩
  · rw [buf_putbytes, if_neg hc, h1, h2, h3]
    congr 2
    omega
  · refine ⟨?_, ?_, ?_, ?_⟩
    · simp only [List.length_append, hlen]
    · simp only [List.length_append, hlen]
    · show (acc ++ src.take n ++ w.data.drop (acc.length + n)).take (acc ++ src.take n).length
        = acc ++ src.take n
      rw [List.take_left]
    · show (acc ++ src.take n ++ w.data.drop (acc.length + n)).length = L
      simp only [List.length_append, hlen, List.length_drop, h4]
      omega

theorem buf_putstring_written (w : buffer) (acc str : List Nat) (n L : Nat)
    (hw : written w acc L) (hn : n ≤ BUF_MAX_INCR) (hroom : acc.length + 4 + n ≤ w.size)
    (hL : w.size ≤ L) (hstr : str.length = n) :
    ∃ w', buf_putstring w str n = Res.ok w' ∧ w'.size = w.size ∧
      written w' (acc ++ be32 n ++ str) L := by
  obtain ⟨w1, e1, s1, hw1⟩ := buf_putbytes_written w acc (be32 n) 4 L hw
    (by simp only [BUF_MAX_INCR]; omega) (by omega) hL (by simp [be32])
  have hb : (be32 n).take 4 = be32 n := by simp [be32]
  rw [hb] at hw1
  have hl1 : (acc ++ be32 n).length = acc.length + 4 := by simp [be32]
  obtain ⟨w2, e2, s2, hw2⟩ := buf_putbytes_written w1 (acc ++ be32 n) str n L hw1 hn
    (by rw [hl1, s1]; omega) (by rw [s1]; exact hL) (by omega)
  have hst : str.take n = str := by rw [← hstr]; exact List.take_length _
  rw [hst] at hw2
  refine ⟨w2, ?_, by rw [s2, s1], hw2⟩
  unfold buf_putstring buf_putint
  rw [e1]
  exact e2

theorem send_msg_userauth_pk_ok_packet (s : Session) (req : Request)
    (hclear : s.writepayload.len = 0 ∧ s.writepayload.pos = 0)
    (hroom : 1 + 4 + req.sigalgolen + 4 + req.keybloblen ≤ s.writepayload.size)
    (hdata : s.writepayload.size ≤ s.writepayload.data.length)
    (h1 : req.sigalgo.length = req.sigalgolen) (h2 : req.keyblob.length = req.keybloblen)
    (h3 : req.sigalgolen ≤ BUF_MAX_INCR) (h4 : req.keybloblen ≤ BUF_MAX_INCR) :
    ∃ w, send_msg_userauth_pk_ok s req.sigalgo req.sigalgolen req.keyblob req.keybloblen =
      Res.ok (({ s with writepayload := w }).emit (Event.encrypt_packet (pk_ok_packet req))) := by
  obtain ⟨hc1, hc2⟩ := hclear
  have hcl : ¬ ¬ (s.writepayload.len = 0 ∧ s.writepayload.pos = 0) := not_not.mpr ⟨hc1, hc2⟩
  have hpb : buf_putbyte s.writepayload SSH_MSG_USERAUTH_PK_OK =
      Res.ok { s.writepayload with
        data := s.writepayload.data.take s.writepayload.pos ++ [SSH_MSG_USERAUTH_PK_OK] ++
          s.writepayload.data.drop (s.writepayload.pos + 1),
        pos := s.writepayload.pos + 1,
        len := if s.writepayload.pos ≥ s.writepayload.len then s.writepayload.len + 1
          else s.writepayload.len } := by
    have : ¬ (s.writepayload.pos ≥ s.writepayload.len ∧
        s.writepayload.len + 1 > s.writepayload.size) := by omega
    rw [buf_putbyte, if_neg this]
  have hw1 : written { s.writepayload with
        data := s.writepayload.data.take s.writepayload.pos ++ [SSH_MSG_USERAUTH_PK_OK] ++
          s.writepayload.data.drop (s.writepayload.pos + 1),
        pos := s.writepayload.pos + 1,
        len := if s.writepayload.pos ≥ s.writepayload.len then s.writepayload.len + 1
          else s.writepayload.len } [SSH_MSG_USERAUTH_PK_OK] s.writepayload.data.length := by
    refine ⟨by simp [hc2], by simp [hc1, hc2], by simp [hc2], ?_⟩
    simp only [hc2, List.take_zero, List.nil_append, List.singleton_append, List.length_cons,
      List.length_drop]
    omega
  obtain ⟨w2, e2, s2, hw2⟩ := buf_putstring_written _ [SSH_MSG_USERAUTH_PK_OK] req.sigalgo
    req.sigalgolen _ hw1 h3 (by simp only [List.length_singleton]; omega) hdata h1
  have hl2 : ([SSH_MSG_USERAUTH_PK_OK] ++ be32 req.sigalgolen ++ req.sigalgo).length =
      1 + 4 + req.sigalgolen := by
    simp [be32, h1]; omega
  obtain ⟨w3, e3, s3, hw3⟩ := buf_putstring_written w2 _ req.keyblob req.keybloblen _ hw2 h4
    (by rw [hl2, s2]; exact hroom) (by rw [s2]; exact hdata) h2
  refine ⟨{ w3 with pos := 0, len := 0 }, ?_⟩
  rw [send_msg_userauth_pk_ok, if_neg hcl, hpb]
  simp only [Res.ok_bind, e2, e3]
  obtain ⟨_, hlen3, htake3, _⟩ := hw3
  rw [hlen3, htake3]
  simp [pk_ok_packet]

theorem svr_auth_pubkey_keycheck_of_accept (env : Env) (s1 s2 : Session) (stage : PluginStage)
    (keyalgo keyblob : List Nat)
    (hacc : (stage = PluginStage.go false ∧ s2 = s1) ∨
      (stage = PluginStage.go true ∧
        checkpubkey env (s1.emit (Event.checkpubkey keyalgo keyblob)) keyalgo keyblob
          = Res.ok (DROPBEAR_SUCCESS, s2))) :
    ∃ af, stage = PluginStage.go af ∧
      svr_auth_pubkey_keycheck env s1 keyalgo keyblob af = Res.ok (false, s2) := by
  rcases hacc with ⟨h1, h2⟩ | ⟨h1, h2⟩
  · subst h2
    exact ⟨false, h1, rfl⟩
  · refine ⟨true, h1, ?_⟩
    unfold svr_auth_pubkey_keycheck
    simp [h2]

/-- C3: for a valid user, a recognised signature algorithm and a key accepted
(by the plugin with its options parsing, or else by `checkpubkey`), a test-only
request is answered by exactly one packet, `SSH_MSG_USERAUTH_PK_OK` followed by
the signature algorithm name and the key blob of the request as strings, byte
for byte; neither `UserauthSuccess` nor `UserauthFailure` is sent, and neither
`buf_get_pub_key` nor `buf_verify` is called.  The write payload is taken to be
empty with room for the packet, as `CHECKCLEARTOWRITE` asserts. -/
theorem svr_auth_pubkey_test_only (env : Env) (ses : Session) (req : Request) (p1 : buffer)
    (stage : PluginStage) (s1 s2 : Session)
    (hwf : ses.payload.len ≤ ses.payload.data.length)
    (hdec : svr_auth_pubkey_decode ses.payload = Res.ok (req, p1))
    (hsig : env.signature_type_from_name req.sigalgo ≠ DROPBEAR_SIGNATURE_NONE)
    (hplug : svr_auth_pubkey_plugin env { ses with payload := p1 }
      (env.signkey_name_from_type (env.signkey_type_from_signature
        (env.signature_type_from_name req.sigalgo))) req.keyblob = Res.ok (stage, s1))
    (hacc : (stage = PluginStage.go false ∧ s2 = s1) ∨
      (stage = PluginStage.go true ∧
        checkpubkey env (s1.emit (Event.checkpubkey
            (env.signkey_name_from_type (env.signkey_type_from_signature
              (env.signature_type_from_name req.sigalgo))) req.keyblob))
          (env.signkey_name_from_type (env.signkey_type_from_signature
            (env.signature_type_from_name req.sigalgo))) req.keyblob
          = Res.ok (DROPBEAR_SUCCESS, s2)))
    (htest : req.testkey = true)
    (hclear : ses.writepayload.len = 0 ∧ ses.writepayload.pos = 0)
    (hroom : 1 + 4 + req.sigalgolen + 4 + req.keybloblen ≤ ses.writepayload.size)
    (hdata : ses.writepayload.size ≤ ses.writepayload.data.length) :
    ∃ s', svr_auth_pubkey env true ses = Res.ok s' ∧
      packets s'.events = packets ses.events ++ [pk_ok_packet req] ∧
      sent s'.events = sent ses.events ∧
      verify_calls s'.events = verify_calls ses.events := by
  obtain ⟨af, hst, hkc⟩ := svr_auth_pubkey_keycheck_of_accept env s1 s2 stage _ _ hacc
  subst hst
  have ho1 := svr_auth_pubkey_plugin_outer env _ _ _ _ hplug
  have ho2 := svr_auth_pubkey_keycheck_outer env _ _ _ _ _ hkc
  have ho : s2.outer = ({ ses with payload := p1 } : Session).outer := ho2.trans ho1
  simp only [Session.outer, Prod.mk.injEq] at ho
  obtain ⟨_, _, _, hwp, _, _, hsent, hpk, hvc⟩ := ho
  obtain ⟨d1, d2, d3, d4⟩ := svr_auth_pubkey_decode_ok hdec hwf
  obtain ⟨w, hsend⟩ := send_msg_userauth_pk_ok_packet s2 req (by rw [hwp]; exact hclear)
    (by rw [hwp]; exact hroom) (by rw [hwp]; exact hdata) d1 d2 d3 d4
  have hbody : svr_auth_pubkey_body env true ses =
      Res.ok (({ s2 with writepayload := w }).emit (Event.encrypt_packet (pk_ok_packet req))) := by
    unfold svr_auth_pubkey_body
    rw [hdec]
    simp [hsig, hplug, hkc, svr_auth_pubkey_accepted, htest, hsend]
  refine ⟨_, svr_auth_pubkey_of_body env true ses _ hbody, ?_, ?_, ?_⟩
  · split
    · simp [Session.emit, packets_append, packets, hpk]
    · rw [packets_cleanup]
      simp [Session.emit, packets_append, packets, hpk]
  · split
    · simp [Session.emit, sent_append, sent, hsent]
    · rw [sent_cleanup]
      simp [Session.emit, sent_append, sent, hsent]
  · have hv : verify_calls (({ s2 with writepayload := w }).emit
        (Event.encrypt_packet (pk_ok_packet req))).events = verify_calls ses.events := by
      show verify_calls (s2.events ++ [Event.encrypt_packet (pk_ok_packet req)]) = _
      rw [verify_calls_append, hvc]
      exact List.append_nil _
    split
    · exact hv
    · rw [verify_calls_cleanup]
      exact hv

theorem svr_auth_pubkey_keycheck_accept (env : Env) (s1 s2 : Session) (af : Bool)
    (keyalgo keyblob : List Nat)
    (h : svr_auth_pubkey_keycheck env s1 keyalgo keyblob af = Res.ok (false, s2)) :
    (PluginStage.go af = PluginStage.go false ∧ s2 = s1) ∨
      (PluginStage.go af = PluginStage.go true ∧
        checkpubkey env (s1.emit (Event.checkpubkey keyalgo keyblob)) keyalgo keyblob
          = Res.ok (DROPBEAR_SUCCESS, s2)) := by
  unfold svr_auth_pubkey_keycheck at h
  cases af with
  | false =>
    simp only [Bool.false_eq_true, if_false, Res.ok.injEq, Prod.mk.injEq, true_and] at h
    exact Or.inl ⟨rfl, h.symm⟩
  | true =>
    simp only [if_true] at h
    obtain ⟨⟨ret, s⟩, hc, h⟩ := Res.bind_eq_ok h
    simp only [Res.ok.injEq, Prod.mk.injEq, decide_eq_false_iff_not] at h
    obtain ⟨hret, hs⟩ := h
    subst hs
    cases ret with
    | success => exact Or.inr ⟨rfl, hc⟩
    | failure => exact absurd rfl hret

theorem svr_auth_pubkey_signbuf_congr (s t : Session) (h1 : t.payload = s.payload)
    (h2 : t.payload_beginning = s.payload_beginning) (h3 : t.session_id = s.session_id) :
    svr_auth_pubkey_signbuf t = svr_auth_pubkey_signbuf s := by
  unfold svr_auth_pubkey_signbuf
  rw [h1, h2, h3]

theorem send_msg_userauth_pk_ok_sent (s s' : Session) (a : List Nat) (n : Nat) (b : List Nat)
    (m : Nat) (h : send_msg_userauth_pk_ok s a n b m = Res.ok s') :
    sent s'.events = sent s.events := by
  unfold send_msg_userauth_pk_ok at h
  split_ifs at h
  obtain ⟨w1, _, h⟩ := Res.bind_eq_ok h
  obtain ⟨w2, _, h⟩ := Res.bind_eq_ok h
  obtain ⟨w3, _, h⟩ := Res.bind_eq_ok h
  cases h
  simp [Session.emit, sent_append, sent]

theorem sent_send_success (s : Session) :
    sent (send_msg_userauth_success s).events = sent s.events ++ [Msg.UserauthSuccess] := by
  simp [send_msg_userauth_success, Session.emit, sent_append, sent]

theorem sent_emit_log (s : Session) (t : String) (a : List Nat) :
    sent (s.emit (Event.dropbear_log t a)).events = sent s.events := by
  simp [Session.emit, sent_append, sent]

/-- What `svr_auth_pubkey_verified` sends, and when it returns. -/
theorem svr_auth_pubkey_verified_sent (env : Env) (s s' : Session) (fp : List Nat) (kt : Nat)
    (h : svr_auth_pubkey_verified env s fp kt = Res.ok s') :
    sent s'.events = sent s.events ++
      [if env.multiauthmethod = true ∧ clear_bits s.authstate.authtypes AUTH_TYPE_PUBKEY ≠ 0
       then Msg.UserauthFailure true false else Msg.UserauthSuccess] := by
  unfold svr_auth_pubkey_verified at h
  dsimp only at h
  by_cases hm : env.multiauthmethod = true ∧ clear_bits s.authstate.authtypes AUTH_TYPE_PUBKEY ≠ 0
  · rw [if_pos hm] at h ⊢
    have hs : ∀ t : Session, sent t.events = sent s.events →
        sent (send_msg_userauth_failure { t with authstate := { t.authstate with
          authtypes := clear_bits t.authstate.authtypes AUTH_TYPE_PUBKEY } } true false).events
          = sent s.events ++ [Msg.UserauthFailure true false] := by
      intro t ht
      rw [sent_send_failure]
      exact congrArg (· ++ _) ht
    split at h
    · cases h
      exact hs _ (sent_emit_log s _ _)
    · cases h
    · split_ifs at h <;> cases h
      · show sent (Session.emit _ Event.plugin_auth_success).events = _
        have e1 : ∀ t : Session, sent (t.emit Event.plugin_auth_success).events = sent t.events := by
          intro t
          simp [Session.emit, sent_append, sent]
        rw [e1]
        exact hs _ (sent_emit_log s _ _)
      · exact hs _ (sent_emit_log s _ _)
  · rw [if_neg hm] at h ⊢
    split at h
    · cases h
      rw [sent_send_success, sent_emit_log]
    · cases h
    · split_ifs at h <;> cases h
      · show sent (Session.emit _ Event.plugin_auth_success).events = _
        have e1 : ∀ t : Session, sent (t.emit Event.plugin_auth_success).events = sent t.events := by
          intro t
          simp [Session.emit, sent_append, sent]
        rw [e1, sent_send_success, sent_emit_log]
      · rw [sent_send_success, sent_emit_log]

theorem svr_auth_pubkey_verified_returns (env : Env) (s : Session) (fp : List Nat) (kt : Nat)
    (hp : env.plugin_instance = none → s.plugin_session = none) :
    ∃ s', svr_auth_pubkey_verified env s fp kt = Res.ok s' := by
  unfold svr_auth_pubkey_verified
  dsimp only
  have hps : ∀ t : Session, t.plugin_session = s.plugin_session →
      ∃ s', (match t.plugin_session, env.plugin_instance with
        | none, _ => Res.ok t
        | some _, none => Res.exit
        | some _, some plugin =>
          if plugin.has_auth_success then Res.ok (t.emit Event.plugin_auth_success)
          else Res.ok t) = Res.ok s' := by
    intro t ht
    cases hi : env.plugin_instance with
    | none =>
      rw [ht, hp hi]
      exact ⟨_, rfl⟩
    | some plugin =>
      cases hs : t.plugin_session with
      | none => exact ⟨_, rfl⟩
      | some ps =>
        dsimp only
        split_ifs
        · exact ⟨_, rfl⟩
        · exact ⟨_, rfl⟩
  split_ifs
  · exact hps _ rfl
  · exact hps _ rfl

theorem svr_auth_pubkey_sk_flags_congr (env : Env) (s t : Session) (k : sign_key)
    (h : t.authstate.pubkey_options = s.authstate.pubkey_options) :
    svr_auth_pubkey_sk_flags env t k = svr_auth_pubkey_sk_flags env s k := by
  unfold svr_auth_pubkey_sk_flags
  rw [h]

/-- What the body of `svr_auth_pubkey` sends when it returns: one response at
most, and full success only under `success_conditions`. -/
theorem svr_auth_pubkey_body_sent (env : Env) (v : Bool) (ses sb : Session)
    (h : svr_auth_pubkey_body env v ses = Res.ok sb) :
    ∃ ms, sent sb.events = sent ses.events ++ ms ∧
      (Msg.UserauthSuccess ∈ ms → success_conditions env v ses) := by
  unfold svr_auth_pubkey_body at h
  obtain ⟨⟨req, p1⟩, hdec, h⟩ := Res.bind_eq_ok h
  dsimp only at h
  have hfail : ∀ (t : Session) (a b : Bool), sent t.events = sent ses.events →
      ∃ ms, sent (send_msg_userauth_failure t a b).events = sent ses.events ++ ms ∧
        (Msg.UserauthSuccess ∈ ms → success_conditions env v ses) := by
    intro t a b ht
    refine ⟨[Msg.UserauthFailure a b], by rw [sent_send_failure, ht], ?_⟩
    intro hm
    simp at hm
  cases v with
  | false =>
    simp only [Bool.not_false, if_true] at h
    cases h
    exact hfail _ _ _ rfl
  | true =>
    simp only [Bool.not_true, Bool.false_eq_true, if_false] at h
    by_cases hsig : env.signature_type_from_name req.sigalgo = DROPBEAR_SIGNATURE_NONE
    · rw [if_pos hsig] at h
      cases h
      exact hfail _ _ _ rfl
    · rw [if_neg hsig] at h
      obtain ⟨⟨stage, s1⟩, hplug, h⟩ := Res.bind_eq_ok h
      have ho1 := svr_auth_pubkey_plugin_outer env _ _ _ _ hplug
      dsimp only at h ho1
      cases stage with
      | bad_options =>
        dsimp only at h
        cases h
        simp only [Session.outer, Prod.mk.injEq] at ho1
        exact hfail _ _ _ ho1.2.2.2.2.2.2.1
      | go af =>
        dsimp only at h
        obtain ⟨⟨auth_failure, s2⟩, hkc, h⟩ := Res.bind_eq_ok h
        have ho2 := svr_auth_pubkey_keycheck_outer env _ _ _ _ _ hkc
        dsimp only at h ho2
        have ho : s2.outer = ({ ses with payload := p1 } : Session).outer := ho2.trans ho1
        simp only [Session.outer, Prod.mk.injEq] at ho
        obtain ⟨hpay, hpb, hsid, _, _, hat, hsent, _, _⟩ := ho
        cases auth_failure with
        | true =>
          simp only [if_true] at h
          cases h
          exact hfail _ _ _ hsent
        | false =>
          simp only [Bool.false_eq_true, if_false] at h
          unfold svr_auth_pubkey_accepted at h
          by_cases htest : req.testkey = true
          · rw [if_pos htest] at h
            refine ⟨[], ?_, by simp⟩
            rw [send_msg_userauth_pk_ok_sent _ _ _ _ _ _ h, hsent, List.append_nil]
          · rw [if_neg htest] at h
            obtain ⟨⟨got, p2, key0, kt1⟩, hget, h⟩ := Res.bind_eq_ok h
            dsimp only at h
            have hs3 : sent (s2.emit (Event.buf_get_pub_key s2.payload)).events = sent ses.events := by
              simp [Session.emit, sent_append, sent, hsent]
            by_cases hgot : got = DROPBEAR_FAILURE
            · rw [if_pos hgot] at h
              cases h
              exact hfail _ _ _ hs3
            · rw [if_neg hgot] at h
              unfold svr_auth_pubkey_verify at h
              obtain ⟨⟨signbuf, p3⟩, hsb, h⟩ := Res.bind_eq_ok h
              dsimp only at h
              obtain ⟨⟨vr, p4⟩, hver, h⟩ := Res.bind_eq_ok h
              dsimp only at h
              by_cases hv : vr = DROPBEAR_SUCCESS
              · rw [if_pos hv] at h
                have hvs := svr_auth_pubkey_verified_sent env _ _ _ _ h
                refine ⟨[if env.multiauthmethod = true ∧
                    clear_bits s2.authstate.authtypes AUTH_TYPE_PUBKEY ≠ 0
                  then Msg.UserauthFailure true false else Msg.UserauthSuccess], ?_, ?_⟩
                · rw [hvs]
                  simp [Session.emit, sent_append, sent, hsent]
                · intro hm
                  have hnm : ¬ (env.multiauthmethod = true ∧
                      clear_bits ses.authstate.authtypes AUTH_TYPE_PUBKEY ≠ 0) := by
                    intro hmulti
                    have : (env.multiauthmethod = true ∧
                        clear_bits s2.authstate.authtypes AUTH_TYPE_PUBKEY ≠ 0) := by
                      rw [hat]; exact hmulti
                    rw [if_pos this] at hm
                    simp at hm
                  have hgs : got = DROPBEAR_SUCCESS := by
                    cases got
                    · rfl
                    · exact absurd rfl hgot
                  subst hgs hv
                  refine ⟨req, p1, PluginStage.go af, s1, s2, p2, key0, kt1, signbuf, p3, p4, hdec,
                    rfl, hsig, hplug, svr_auth_pubkey_keycheck_accept env s1 s2 af _ _ hkc,
                    by simpa using htest, by rw [← hpay]; exact hget, ?_, ?_, hnm⟩
                  · rw [← hsb]
                    exact svr_auth_pubkey_signbuf_congr _ _ rfl hpb.symm hsid.symm
                  · rw [← hver]
                    congr 1
              · rw [if_neg hv] at h
                cases h
                refine hfail _ _ _ ?_
                simp [Session.emit, sent_append, sent, hsent]

theorem svr_auth_pubkey_plugin_none (env : Env) (s : Session) (keyalgo keyblob : List Nat)
    (h : env.plugin_instance = none) :
    svr_auth_pubkey_plugin env s keyalgo keyblob = Res.ok (PluginStage.go true, s) := by
  unfold svr_auth_pubkey_plugin
  rw [h]

theorem svr_auth_pubkey_sends_success (env : Env) (v : Bool) (ses : Session)
    (hplugin : env.plugin_instance = none → ses.plugin_session = none)
    (h : success_conditions env v ses) :
    ∃ s', svr_auth_pubkey env v ses = Res.ok s' ∧
      sent s'.events = sent ses.events ++ [Msg.UserauthSuccess] := by
  obtain ⟨req, p1, stage, s1, s2, p2, key0, kt1, signbuf, p3, p4, hdec, hv, hsig, hplug, hacc,
    htest, hget, hsb, hver, hnm⟩ := h
  subst hv
  obtain ⟨af, hst, hkc⟩ := svr_auth_pubkey_keycheck_of_accept env s1 s2 stage _ _ hacc
  subst hst
  have ho1 := svr_auth_pubkey_plugin_outer env _ _ _ _ hplug
  have ho2 := svr_auth_pubkey_keycheck_outer env _ _ _ _ _ hkc
  have ho : s2.outer = ({ ses with payload := p1 } : Session).outer := ho2.trans ho1
  simp only [Session.outer, Prod.mk.injEq] at ho
  obtain ⟨hpay, hpb, hsid, _, _, hat, hsent, _, _⟩ := ho
  -- the plugin session at the end
  have hps : env.plugin_instance = none → s2.plugin_session = none := by
    intro hnone
    rw [svr_auth_pubkey_plugin_none env _ _ _ hnone] at hplug
    simp only [Res.ok.injEq, Prod.mk.injEq, PluginStage.go.injEq] at hplug
    obtain ⟨haf, hs1⟩ := hplug
    subst haf hs1
    unfold svr_auth_pubkey_keycheck at hkc
    simp only [if_true] at hkc
    obtain ⟨⟨ret, s⟩, hc, hkc⟩ := Res.bind_eq_ok hkc
    simp only [Res.ok.injEq, Prod.mk.injEq] at hkc
    obtain ⟨_, hs⟩ := hkc
    subst hs
    have hcore := checkpubkey_core env _ _ _ _ hc
    simp only [Session.core, Prod.mk.injEq] at hcore
    rw [hcore.2.2.2.2.1]
    exact hplugin hnone
  -- the session handed to the verification
  have hsb' : svr_auth_pubkey_signbuf
      { s2.emit (Event.buf_get_pub_key s2.payload) with payload := p2 } = Res.ok (signbuf, p3) := by
    rw [← hsb]
    exact svr_auth_pubkey_signbuf_congr _ _ rfl hpb hsid
  obtain ⟨sv, hsv⟩ := svr_auth_pubkey_verified_returns env
    { ({ ({ s2.emit (Event.buf_get_pub_key s2.payload) with payload := p2 } : Session) with
          payload := p3 } : Session).emit
        (Event.buf_verify p3 (svr_auth_pubkey_sk_flags env s2 key0).sk_flags_mask
          (env.signature_type_from_name req.sigalgo) signbuf) with payload := p4 }
    (env.sign_key_fingerprint req.keyblob) kt1 hps
  have hvs := svr_auth_pubkey_verified_sent env _ _ _ _ hsv
  have hbody : svr_auth_pubkey_body env true ses = Res.ok sv := by
    unfold svr_auth_pubkey_body
    rw [hdec]
    simp only [Res.ok_bind, Bool.not_true, Bool.false_eq_true, if_false, hsig, hplug, hkc]
    unfold svr_auth_pubkey_accepted
    rw [hpay] at *
    simp only [htest, Bool.false_eq_true, if_false, hget, Res.ok_bind]
    have hne : ¬ (DROPBEAR_SUCCESS = DROPBEAR_FAILURE) := by decide
    rw [if_neg hne]
    unfold svr_auth_pubkey_verify
    have e1 : svr_auth_pubkey_sk_flags env
        { s2.emit (Event.buf_get_pub_key p1) with payload := p2 } key0
        = svr_auth_pubkey_sk_flags env s2 key0 := svr_auth_pubkey_sk_flags_congr env _ _ _ rfl
    rw [e1, hsb']
    simp only [Res.ok_bind, hver, if_true]
    exact hsv
  refine ⟨_, svr_auth_pubkey_of_body env true ses _ hbody, ?_⟩
  have hsv_sent : sent sv.events = sent ses.events ++ [Msg.UserauthSuccess] := by
    rw [hvs]
    have hnm' : ¬ (env.multiauthmethod = true ∧
        clear_bits s2.authstate.authtypes AUTH_TYPE_PUBKEY ≠ 0) := by
      rw [hat]; exact hnm
    simp only [Session.emit]
    rw [if_neg hnm']
    simp [sent_append, sent, hsent]
  split
  · exact hsv_sent
  · rw [sent_cleanup]
    exact hsv_sent

theorem svr_auth_pubkey_plugin_stage (env : Env) (s : Session) (keyalgo keyblob : List Nat)
    (stage : PluginStage) (s1 : Session)
    (h : svr_auth_pubkey_plugin env s keyalgo keyblob = Res.ok (stage, s1)) :
    (stage = PluginStage.go false ↔
      ∃ plugin psession, env.plugin_instance = some plugin ∧
        plugin.checkpubkey s.plugin_session keyalgo keyblob s.authstate.username
          = (DROPBEAR_SUCCESS, some psession) ∧
        ∀ o, psession.get_options = some o →
          (env.line.svr_add_pubkey_options
            { data := o, len := (o.takeWhile (fun c => decide (c ≠ 0))).length, pos := 0, size := 0 }
            0 (bytes "N/A")).1 = DROPBEAR_SUCCESS) ∧
    (stage = PluginStage.go true ↔
      env.plugin_instance = none ∨
      ∃ plugin, env.plugin_instance = some plugin ∧
        (plugin.checkpubkey s.plugin_session keyalgo keyblob s.authstate.username).1
          = DROPBEAR_FAILURE) := by
  unfold svr_auth_pubkey_plugin at h
  cases hp : env.plugin_instance with
  | none =>
    rw [hp] at h
    cases h
    simp
  | some plugin =>
    rw [hp] at h
    dsimp only at h
    simp only [Option.some.injEq, exists_and_left, exists_eq_left', false_or]
    cases hr : plugin.checkpubkey s.plugin_session keyalgo keyblob s.authstate.username with
    | mk st ps =>
      rw [hr] at h
      dsimp only at h
      cases st with
      | failure =>
        have hne : ¬ (DROPBEAR_FAILURE = DROPBEAR_SUCCESS) := by decide
        rw [if_neg hne] at h
        cases h
        simp
      | success =>
        simp only [if_true] at h
        cases ps with
        | none => cases h
        | some psession =>
          dsimp only at h
          cases ho : psession.get_options with
          | none =>
            rw [ho] at h
            cases h
            simp [ho]
          | some o =>
            rw [ho] at h
            dsimp only at h
            cases hs : (env.line.svr_add_pubkey_options
              { data := o, len := (o.takeWhile (fun c => decide (c ≠ 0))).length, pos := 0,
                size := 0 } 0 (bytes "N/A")).1 with
            | failure =>
              rw [hs] at h
              simp only [if_true] at h
              cases h
              simp only [decide_not] at hs
              simp [ho, hs]
            | success =>
              rw [hs] at h
              have hne : ¬ (DROPBEAR_SUCCESS = DROPBEAR_FAILURE) := by decide
              rw [if_neg hne] at h
              cases h
              simp only [decide_not] at hs
              simp [ho, hs]

/-- C1: in a state where a plugin session exists only if a plugin is
configured, `svr_auth_pubkey` returns having sent `UserauthSuccess` if and only
if: the request decodes; `valid_user` is true; the signature algorithm name
resolves to a type other than `DROPBEAR_SIGNATURE_NONE`; the key is accepted,
by the plugin (stage `go false`: the plugin returned success and the options it
supplied, if any, parsed) or else, the plugin being absent or having rejected
the key (stage `go true`), by `checkpubkey`; the request is not a test;
`buf_get_pub_key` decodes the key; the signed data is built and `buf_verify`
succeeds over it; and it is not the case that multi-method authentication is on
with another method still required.  So `UserauthSuccess` is never sent on a
path where the signature verification was skipped or failed. -/
theorem svr_auth_pubkey_success_iff (env : Env) (valid_user : Bool) (ses : Session)
    (hplugin : env.plugin_instance = none → ses.plugin_session = none) :
    ((∃ s' ms, svr_auth_pubkey env valid_user ses = Res.ok s' ∧
        sent s'.events = sent ses.events ++ ms ∧ Msg.UserauthSuccess ∈ ms) ↔
      ∃ (req : Request) (p1 : buffer) (stage : PluginStage) (s1 s2 : Session) (p2 : buffer)
        (key0 : sign_key) (keytype1 : Nat) (signbuf p3 p4 : buffer),
        svr_auth_pubkey_decode ses.payload = Res.ok (req, p1) ∧
        valid_user = true ∧
        env.signature_type_from_name req.sigalgo ≠ DROPBEAR_SIGNATURE_NONE ∧
        svr_auth_pubkey_plugin env { ses with payload := p1 }
          (env.signkey_name_from_type (env.signkey_type_from_signature
            (env.signature_type_from_name req.sigalgo))) req.keyblob = Res.ok (stage, s1) ∧
        ((stage = PluginStage.go false ∧ s2 = s1) ∨
          (stage = PluginStage.go true ∧
            checkpubkey env (s1.emit (Event.checkpubkey
                (env.signkey_name_from_type (env.signkey_type_from_signature
                  (env.signature_type_from_name req.sigalgo))) req.keyblob))
              (env.signkey_name_from_type (env.signkey_type_from_signature
                (env.signature_type_from_name req.sigalgo))) req.keyblob
              = Res.ok (DROPBEAR_SUCCESS, s2))) ∧
        req.testkey = false ∧
        env.buf_get_pub_key p1 (env.signkey_type_from_signature
          (env.signature_type_from_name req.sigalgo))
          = Res.ok (DROPBEAR_SUCCESS, p2, key0, keytype1) ∧
        svr_auth_pubkey_signbuf { ses with payload := p2 } = Res.ok (signbuf, p3) ∧
        env.buf_verify p3 (svr_auth_pubkey_sk_flags env s2 key0)
          (env.signature_type_from_name req.sigalgo) signbuf = Res.ok (DROPBEAR_SUCCESS, p4) ∧
        ¬ (env.multiauthmethod = true ∧
          clear_bits ses.authstate.authtypes AUTH_TYPE_PUBKEY ≠ 0)) ∧
    (∀ (s : Session) (keyalgo keyblob : List Nat) (stage : PluginStage) (s1 : Session),
      svr_auth_pubkey_plugin env s keyalgo keyblob = Res.ok (stage, s1) →
      (stage = PluginStage.go false ↔
        ∃ plugin psession, env.plugin_instance = some plugin ∧
          plugin.checkpubkey s.plugin_session keyalgo keyblob s.authstate.username
            = (DROPBEAR_SUCCESS, some psession) ∧
          ∀ o, psession.get_options = some o →
            (env.line.svr_add_pubkey_options
              { data := o, len := (o.takeWhile (fun c => decide (c ≠ 0))).length, pos := 0,
                size := 0 } 0 (bytes "N/A")).1 = DROPBEAR_SUCCESS) ∧
      (stage = PluginStage.go true ↔
        env.plugin_instance = none ∨
        ∃ plugin, env.plugin_instance = some plugin ∧
          (plugin.checkpubkey s.plugin_session keyalgo keyblob s.authstate.username).1
            = DROPBEAR_FAILURE)) := by
  refine ⟨?_, fun s keyalgo keyblob stage s1 h =>
    svr_auth_pubkey_plugin_stage env s keyalgo keyblob stage s1 h⟩
  show _ ↔ success_conditions env valid_user ses
  constructor
  · rintro ⟨s', ms, hrun, hsent, hmem⟩
    obtain ⟨sb, hb, hs'⟩ := svr_auth_pubkey_body_of_ok env valid_user ses s' hrun
    obtain ⟨ms', hsent', himp⟩ := svr_auth_pubkey_body_sent env valid_user ses sb hb
    apply himp
    have hsb : sent s'.events = sent sb.events := by
      rw [hs']
      split
      · rfl
      · exact sent_cleanup sb
    rw [hsb, hsent'] at hsent
    rw [List.append_cancel_left hsent]
    exact hmem
  · intro h
    obtain ⟨s', hrun, hsent⟩ := svr_auth_pubkey_sends_success env valid_user ses hplugin h
    exact ⟨s', [Msg.UserauthSuccess], hrun, hsent, by simp⟩

/-- C3, witness: the test-only sample request in the example setting, where no
plugin is configured and `checkpubkey` accepts the key from the file. -/
theorem svr_auth_pubkey_test_only_witness :
    (svr_auth_pubkey_decode (sample_ses (sample_request false) 37).payload
        = Res.ok (sample_decoded false, sample_payload false 57) ∧
      (sample_decoded false).testkey = true ∧
      checkpubkey sample_server
        ((sample_decoded_ses false).emit (Event.checkpubkey (bytes "ssh-ed25519") sample_key))
        (bytes "ssh-ed25519") sample_key = Res.ok (DROPBEAR_SUCCESS, sample_accepted false)) ∧
    ∃ s', svr_auth_pubkey sample_server true (sample_ses (sample_request false) 37) = Res.ok s' ∧
      packets s'.events = packets (sample_ses (sample_request false) 37).events ++
        [pk_ok_packet (sample_decoded false)] ∧
      sent s'.events = sent (sample_ses (sample_request false) 37).events ∧
      verify_calls s'.events = verify_calls (sample_ses (sample_request false) 37).events :=
  ⟨⟨by decide, rfl, by decide⟩,
    svr_auth_pubkey_test_only sample_server (sample_ses (sample_request false) 37)
      (sample_decoded false) (sample_payload false 57) (PluginStage.go true)
      (sample_decoded_ses false) (sample_accepted false)
      (by decide) (by decide) (by decide) (by decide) (Or.inr ⟨rfl, by decide⟩) rfl
      ⟨rfl, rfl⟩ (by decide) (by decide)⟩

/-- C1, witness: the signed sample request in the example setting is answered
with `UserauthSuccess`. -/
theorem svr_auth_pubkey_success_iff_witness :
    (sample_server.plugin_instance = none →
      (sample_ses (sample_request true) 37).plugin_session = none) ∧
    ∃ s' ms, svr_auth_pubkey sample_server true (sample_ses (sample_request true) 37)
        = Res.ok s' ∧
      sent s'.events = sent (sample_ses (sample_request true) 37).events ++ ms ∧
      Msg.UserauthSuccess ∈ ms :=
  ⟨fun _ => rfl,
    (svr_auth_pubkey_success_iff sample_server true (sample_ses (sample_request true) 37)
      (fun _ => rfl)).1.2
      ⟨sample_decoded true, sample_payload true 57, PluginStage.go true, sample_decoded_ses true,
        sample_accepted true, sample_payload true 78,
        { material := sample_key, sk_flags_mask := 0 }, 3, sample_signbuf,
        sample_payload true 78, sample_payload true 80,
        by decide, rfl, by decide, by decide, Or.inr ⟨rfl, by decide⟩, rfl, by decide,
        by decide, by decide, by decide⟩⟩
theorem checkpubkey_line_rejected_early (ext : LineExt) (line : buffer) (line_num : Nat)
    (filename algo keyblob : List Nat) (ret_info : Option (Option (List Nat)))
    (opts : Option PubKeyOptions)
    (h : line.len < MIN_AUTHKEYS_LINE ∨ line.len > MAX_AUTHKEYS_LINE ∨
      0 ∈ line.data.take line.len) :
    checkpubkey_line ext line line_num filename algo keyblob ret_info opts =
      Res.ok (rejected ret_info opts) := by
  unfold checkpubkey_line
  dsimp only
  rcases h with h | h | h
  · rw [if_pos (Or.inl h)]
    rfl
  · rw [if_pos (Or.inr h)]
    rfl
  · by_cases hlen : line.len < MIN_AUTHKEYS_LINE ∨ line.len > MAX_AUTHKEYS_LINE
    · rw [if_pos hlen]
      rfl
    · rw [if_neg hlen]
      have hm : memchr line.data 0 line.len = true := by
        unfold memchr
        exact decide_eq_true h
      rw [if_pos hm]
      rfl

/-- C11: a line whose length is below 10 or above 4200, or that has a NUL byte
among its first `len` bytes, is rejected by `checkpubkey_line` whatever else it
holds and wherever its cursor is: the function returns failure, neither the key
comparison nor the options parser is called, and `*ret_info` and the options
state are left as they were. -/
theorem checkpubkey_line_bad_length_or_nul (ext : LineExt) (line : buffer) (line_num : Nat)
    (filename algo keyblob : List Nat) (ret_info : Option (Option (List Nat)))
    (opts : Option PubKeyOptions)
    (h : line.len < MIN_AUTHKEYS_LINE ∨ line.len > MAX_AUTHKEYS_LINE ∨
      0 ∈ line.data.take line.len) :
    checkpubkey_line ext line line_num filename algo keyblob ret_info opts =
      Res.ok { ret := DROPBEAR_FAILURE, ret_info := ret_info, pubkey_options := opts,
               calls := [] } := by
  rw [checkpubkey_line_rejected_early ext line line_num filename algo keyblob ret_info opts h]
  rfl

/-- C11, witness: the line `ssh-ed25519 AAAAC3Nz`, which is accepted for the
sample key, is rejected without any call once a NUL byte and one more byte
follow it; the info slot keeps its content. -/
theorem checkpubkey_line_bad_length_or_nul_witness :
    (checkpubkey_line sample_ext (mk_line (bytes "ssh-ed25519 AAAAC3Nz")) 1 (bytes "f")
        (bytes "ssh-ed25519") sample_key (some (some (bytes "old"))) none).map (fun r => r.ret)
      = Res.ok DROPBEAR_SUCCESS ∧
    0 ∈ (mk_line nul_line).data.take (mk_line nul_line).len ∧
    checkpubkey_line sample_ext (mk_line nul_line) 1 (bytes "f") (bytes "ssh-ed25519") sample_key
        (some (some (bytes "old"))) none =
      Res.ok { ret := DROPBEAR_FAILURE, ret_info := some (some (bytes "old")),
               pubkey_options := none, calls := [] } :=
  ⟨by decide, by decide,
    checkpubkey_line_bad_length_or_nul sample_ext (mk_line nul_line) 1 (bytes "f")
      (bytes "ssh-ed25519") sample_key (some (some (bytes "old"))) none
      (Or.inr (Or.inr (by decide)))⟩

/-! ## The signed data -/

theorem written_window (w : buffer) (acc : List Nat) (L : Nat) (hw : written w acc L) :
    ({ w with pos := 0 } : buffer).window = acc := by
  obtain ⟨_, h2, h3, _⟩ := hw
  show (w.data.drop 0).take (w.len - 0) = acc
  rw [List.drop_zero, Nat.sub_zero, h2, h3]

theorem buf_putstring_take_written (w : buffer) (acc str : List Nat) (n L : Nat)
    (hw : written w acc L) (hn : n ≤ BUF_MAX_INCR) (hroom : acc.length + 4 + n ≤ w.size)
    (hL : w.size ≤ L) (hstr : n ≤ str.length) :
    ∃ w', buf_putstring w str n = Res.ok w' ∧ w'.size = w.size ∧
      written w' (acc ++ be32 n ++ str.take n) L := by
  obtain ⟨w1, e1, s1, hw1⟩ := buf_putbytes_written w acc (be32 n) 4 L hw
    (by simp only [BUF_MAX_INCR]; omega) (by omega) hL (by simp [be32])
  have hb : (be32 n).take 4 = be32 n := by simp [be32]
  rw [hb] at hw1
  have hl1 : (acc ++ be32 n).length = acc.length + 4 := by simp [be32]
  obtain ⟨w2, e2, s2, hw2⟩ := buf_putbytes_written w1 (acc ++ be32 n) str n L hw1 hn
    (by rw [hl1, s1]; omega) (by rw [s1]; exact hL) hstr
  refine ⟨w2, ?_, by rw [s2, s1], hw2⟩
  unfold buf_putstring buf_putint
  rw [e1]
  exact e2

theorem svr_auth_pubkey_signbuf_eq (ses : Session)
    (hbeg : ses.payload_beginning ≤ ses.payload.pos)
    (hpos : ses.payload.pos ≤ ses.payload.len)
    (hdata : ses.payload.len ≤ ses.payload.data.length)
    (hsid : ses.session_id.len ≤ ses.session_id.data.length)
    (hmax : ses.payload.pos + 4 + ses.session_id.len ≤ BUF_MAX_SIZE) :
    ∃ signbuf, svr_auth_pubkey_signbuf ses = Res.ok (signbuf, ses.payload) ∧
      signbuf.pos = 0 ∧
      signbuf.size = ses.payload.pos + 4 + ses.session_id.len ∧
      signbuf.len = 4 + ses.session_id.len + (ses.payload.pos - ses.payload_beginning) ∧
      signbuf.window = be32 ses.session_id.len ++ ses.session_id.data.take ses.session_id.len ++
        (ses.payload.data.drop ses.payload_beginning).take
          (ses.payload.pos - ses.payload_beginning) := by
  have hmax' : ses.payload.pos + 4 + ses.session_id.len ≤ 1000000000 := hmax
  have hw0 : written (⟨List.replicate (ses.payload.pos + 4 + ses.session_id.len) 0, 0, 0,
      ses.payload.pos + 4 + ses.session_id.len⟩ : buffer) []
      (ses.payload.pos + 4 + ses.session_id.len) :=
    ⟨rfl, rfl, rfl, List.length_replicate _ _⟩
  obtain ⟨w1, e1, s1, hw1⟩ := buf_putstring_take_written _ [] ses.session_id.data
    ses.session_id.len _ hw0 (by simp only [BUF_MAX_INCR]; omega)
    (by simp only [List.length_nil]; omega) (Nat.le_refl _) hsid
  have hl1 : ([] ++ be32 ses.session_id.len ++ ses.session_id.data.take ses.session_id.len).length
      = 4 + ses.session_id.len := by
    simp only [List.nil_append, List.length_append, List.length_take, be32, List.length_cons,
      List.length_nil]
    omega
  have hsrc : ses.payload.pos - ses.payload_beginning ≤
      (ses.payload.data.drop ses.payload_beginning).length := by
    simp only [List.length_drop]
    omega
  obtain ⟨w2, e2, s2, hw2⟩ := buf_putbytes_written w1 _
    (ses.payload.data.drop ses.payload_beginning) (ses.payload.pos - ses.payload_beginning) _ hw1
    (by simp only [BUF_MAX_INCR]; omega)
    (by rw [s1]; show _ ≤ ses.payload.pos + 4 + ses.session_id.len; rw [hl1]; omega)
    (by rw [s1]) hsrc
  have hlen2 : w2.len = 4 + ses.session_id.len + (ses.payload.pos - ses.payload_beginning) := by
    rw [hw2.2.1, List.length_append, hl1, List.length_take]
    omega
  refine ⟨{ w2 with pos := 0 }, ?_, rfl, ?_, hlen2, ?_⟩
  · unfold svr_auth_pubkey_signbuf
    have hb : ¬ ¬ (ses.payload_beginning ≤ ses.payload.pos) := not_not.mpr hbeg
    rw [if_neg hb]
    have hnew : buf_new (ses.payload.pos + 4 + ses.session_id.len) =
        Res.ok (⟨List.replicate (ses.payload.pos + 4 + ses.session_id.len) 0, 0, 0,
          ses.payload.pos + 4 + ses.session_id.len⟩ : buffer) := by
      unfold buf_new
      rw [if_neg (by simp only [BUF_MAX_SIZE]; omega)]
    have hset : buf_setpos ses.payload ses.payload_beginning =
        Res.ok { ses.payload with pos := ses.payload_beginning } := by
      unfold buf_setpos
      rw [if_neg (by omega)]
    have hget : buf_getptr { ses.payload with pos := ses.payload_beginning }
        (ses.payload.pos - ses.payload_beginning) =
        Res.ok (ses.payload.data.drop ses.payload_beginning) := by
      unfold buf_getptr
      rw [if_neg (by simp only [BUF_MAX_INCR]; omega)]
    have hincr : buf_incrpos { ses.payload with pos := ses.payload_beginning }
        (ses.payload.pos - ses.payload_beginning) = Res.ok ses.payload := by
      unfold buf_incrpos
      rw [if_neg (by simp only [BUF_MAX_INCR]; omega)]
      have : ses.payload_beginning + (ses.payload.pos - ses.payload_beginning) = ses.payload.pos := by
        omega
      simp only [this]
    have hset2 : buf_setpos w2 0 = Res.ok { w2 with pos := 0 } := by
      unfold buf_setpos
      rw [if_neg (by omega)]
    simp only [hnew, e1, hset, hget, e2, hincr, hset2, Res.ok_bind, bind, Res.bind]
  · show w2.size = _
    rw [s2, s1]
  · rw [written_window w2 _ _ hw2]
    simp only [List.nil_append]

/-- C12: in a state where `payload_beginning` is not after the cursor of the
payload (the cursor being where the decoding of the public key left it, within
the used length of a well-formed payload buffer, the session id buffer being
well formed too and the sizes within `BUF_MAX_SIZE`), the signed data is built
without any bounds failure in a buffer of size `pos + 4 + len(session_id)`; the
buffer handed to `buf_verify` holds, from its cursor 0 to its used length, the
4-byte big-endian length of the session id, the session id, and the bytes of
the payload from `payload_beginning` up to the cursor; and the payload is handed
to `buf_verify` with its cursor where it was, on the first byte after the signed
prefix. -/
theorem svr_auth_pubkey_signed_data (env : Env) (ses : Session) (req : Request) (key : sign_key)
    (sigtype keytype : Nat)
    (hbeg : ses.payload_beginning ≤ ses.payload.pos)
    (hpos : ses.payload.pos ≤ ses.payload.len)
    (hdata : ses.payload.len ≤ ses.payload.data.length)
    (hsid : ses.session_id.len ≤ ses.session_id.data.length)
    (hmax : ses.payload.pos + 4 + ses.session_id.len ≤ BUF_MAX_SIZE) :
    ∃ signbuf, svr_auth_pubkey_signbuf ses = Res.ok (signbuf, ses.payload) ∧
      signbuf.pos = 0 ∧
      signbuf.size = ses.payload.pos + 4 + ses.session_id.len ∧
      signbuf.len ≤ signbuf.size ∧
      signbuf.window = be32 ses.session_id.len ++ ses.session_id.data.take ses.session_id.len ++
        (ses.payload.data.drop ses.payload_beginning).take
          (ses.payload.pos - ses.payload_beginning) ∧
      svr_auth_pubkey_verify env ses req key sigtype keytype =
        (env.buf_verify ses.payload key sigtype signbuf).bind (fun r =>
          if r.1 = DROPBEAR_SUCCESS then
            svr_auth_pubkey_verified env
              { ses.emit (Event.buf_verify ses.payload key.sk_flags_mask sigtype signbuf) with
                payload := r.2 }
              (env.sign_key_fingerprint req.keyblob) keytype
          else
            Res.ok (send_msg_userauth_failure
              (({ ses.emit (Event.buf_verify ses.payload key.sk_flags_mask sigtype signbuf) with
                  payload := r.2 } : Session).emit
                (Event.dropbear_log "Pubkey auth bad signature"
                  (env.sign_key_fingerprint req.keyblob))) false true)) := by
  obtain ⟨signbuf, h1, h2, h3, h4, h5⟩ := svr_auth_pubkey_signbuf_eq ses hbeg hpos hdata hsid hmax
  refine ⟨signbuf, h1, h2, h3, ?_, h5, ?_⟩
  · rw [h3, h4]
    omega
  · unfold svr_auth_pubkey_verify
    rw [h1]
    rfl

/-- C12, witness: for the signed sample request with the session id `1 2 3`,
the signed data is `0 0 0 3 1 2 3` followed by the first 78 bytes of the
payload, and the cursor of the payload stays on the signature. -/
theorem svr_auth_pubkey_signed_data_witness :
    (sample_keyed_ses.payload_beginning ≤ sample_keyed_ses.payload.pos ∧
      sample_keyed_ses.payload.pos ≤ sample_keyed_ses.payload.len ∧
      sample_keyed_ses.payload.window = [9, 9] ∧
      sample_signbuf.window = [0, 0, 0, 3, 1, 2, 3] ++ (sample_request true).take 78) ∧
    ∃ signbuf, svr_auth_pubkey_signbuf sample_keyed_ses = Res.ok (signbuf, sample_keyed_ses.payload) ∧
      signbuf.pos = 0 ∧
      signbuf.size = sample_keyed_ses.payload.pos + 4 + sample_keyed_ses.session_id.len ∧
      signbuf.len ≤ signbuf.size ∧
      signbuf.window = be32 sample_keyed_ses.session_id.len ++
        sample_keyed_ses.session_id.data.take sample_keyed_ses.session_id.len ++
        (sample_keyed_ses.payload.data.drop sample_keyed_ses.payload_beginning).take
          (sample_keyed_ses.payload.pos - sample_keyed_ses.payload_beginning) ∧
      svr_auth_pubkey_verify sample_server sample_keyed_ses (sample_decoded true)
          { material := sample_key, sk_flags_mask := 1 } 3 3 =
        (sample_server.buf_verify sample_keyed_ses.payload
            { material := sample_key, sk_flags_mask := 1 } 3 signbuf).bind (fun r =>
          if r.1 = DROPBEAR_SUCCESS then
            svr_auth_pubkey_verified sample_server
              { sample_keyed_ses.emit (Event.buf_verify sample_keyed_ses.payload 1 3 signbuf) with
                payload := r.2 }
              (sample_server.sign_key_fingerprint (sample_decoded true).keyblob) 3
          else
            Res.ok (send_msg_userauth_failure
              (({ sample_keyed_ses.emit
                    (Event.buf_verify sample_keyed_ses.payload 1 3 signbuf) with
                  payload := r.2 } : Session).emit
                (Event.dropbear_log "Pubkey auth bad signature"
                  (sample_server.sign_key_fingerprint (sample_decoded true).keyblob))) false true)) :=
  ⟨⟨by decide, by decide, by decide, by decide⟩,
    svr_auth_pubkey_signed_data sample_server sample_keyed_ses (sample_decoded true)
      { material := sample_key, sk_flags_mask := 1 } 3 3
      (by decide) (by decide) (by decide) (by decide) (by decide)⟩

/-! ## checkpubkey: the file as a whole -/

theorem Res.map_bind_congr {α β γ : Type} (x : Res α) (f f' : α → Res β) (g : β → γ)
    (h : ∀ a, (f a).map g = (f' a).map g) : (x >>= f).map g = (x >>= f').map g := by
  cases x with
  | ok a => exact h a
  | exit => rfl
  | fuel => rfl

theorem Res.map_eq_ok {α β : Type} {x : Res α} {g : α → β} {b : β} (h : x.map g = Res.ok b) :
    ∃ a, x = Res.ok a ∧ g a = b := by
  cases x with
  | ok a => exact ⟨a, rfl, by cases h; rfl⟩
  | exit => cases h
  | fuel => cases h

theorem checkpubkey_line_verdict_ret (ext : LineExt) (b : buffer) (info : Option (List Nat))
    (ob : Option buffer) (line_num : Nat) (filename algo keyblob : List Nat)
    (ri ri' : Option (Option (List Nat))) (opts opts' : Option PubKeyOptions) :
    (checkpubkey_line_verdict ext b info ob line_num filename algo keyblob ri opts).ret =
      (checkpubkey_line_verdict ext b info ob line_num filename algo keyblob ri' opts').ret := by
  unfold checkpubkey_line_verdict
  dsimp only
  split_ifs
  · cases ob <;> rfl
  · rfl

theorem checkpubkey_line_key_ret (ext : LineExt) (line : buffer) (ob : Option buffer)
    (line_num : Nat) (filename algo keyblob : List Nat)
    (ri ri' : Option (Option (List Nat))) (opts opts' : Option PubKeyOptions) :
    (checkpubkey_line_key ext line ob line_num filename algo keyblob ri opts).map (fun r => r.ret) =
      (checkpubkey_line_key ext line ob line_num filename algo keyblob ri' opts').map
        (fun r => r.ret) := by
  unfold checkpubkey_line_key
  dsimp only
  apply Res.map_bind_congr
  intro line1
  apply Res.map_bind_congr
  rintro ⟨c, line2⟩
  dsimp only
  split_ifs
  · rfl
  · apply Res.map_bind_congr
    rintro ⟨line3, len⟩
    dsimp only
    apply Res.map_bind_congr
    rintro ⟨line4, infolen⟩
    dsimp only
    apply Res.map_bind_congr
    rintro ⟨line5, info_str⟩
    dsimp only
    apply Res.map_bind_congr
    intro line6
    apply Res.map_bind_congr
    intro line7
    show Res.ok _ = Res.ok _
    exact congrArg Res.ok (checkpubkey_line_verdict_ret ext line7 info_str ob line_num filename
      algo keyblob ri ri' opts opts')

theorem checkpubkey_line_ret (ext : LineExt) (line : buffer)
    (line_num : Nat) (filename algo keyblob : List Nat)
    (ri ri' : Option (Option (List Nat))) (opts opts' : Option PubKeyOptions) :
    (checkpubkey_line ext line line_num filename algo keyblob ri opts).map (fun r => r.ret) =
      (checkpubkey_line ext line line_num filename algo keyblob ri' opts').map (fun r => r.ret) := by
  unfold checkpubkey_line
  dsimp only
  split_ifs
  · rfl
  · rfl
  · rfl
  · apply Res.map_bind_congr
    intro p
    split_ifs
    · apply Res.map_bind_congr
      intro r
      cases r with
      | none => rfl
      | some v =>
        obtain ⟨line1, options_buf⟩ := v
        exact checkpubkey_line_key_ret ext line1 (some options_buf) line_num filename algo keyblob
          ri ri' opts opts'
    · exact checkpubkey_line_key_ret ext line none line_num filename algo keyblob ri ri' opts opts'

theorem checkpubkey_line_of_line_ret {ext : LineExt} {l : List Nat} {line_num : Nat}
    {filename algo keyblob : List Nat} {st : Status}
    (h : line_ret ext l line_num filename algo keyblob = Res.ok st)
    (ri : Option (Option (List Nat))) (opts : Option PubKeyOptions) :
    ∃ r, checkpubkey_line ext (mk_line l) line_num filename algo keyblob ri opts = Res.ok r ∧
      r.ret = st := by
  unfold line_ret at h
  rw [checkpubkey_line_ret ext (mk_line l) line_num filename algo keyblob none ri none opts] at h
  exact Res.map_eq_ok h

theorem line_ret_of_checkpubkey_line {ext : LineExt} {l : List Nat} {line_num : Nat}
    {filename algo keyblob : List Nat} {ri : Option (Option (List Nat))}
    {opts : Option PubKeyOptions} {r : LineOut}
    (h : checkpubkey_line ext (mk_line l) line_num filename algo keyblob ri opts = Res.ok r) :
    line_ret ext l line_num filename algo keyblob = Res.ok r.ret := by
  unfold line_ret
  rw [checkpubkey_line_ret ext (mk_line l) line_num filename algo keyblob none ri none opts, h]
  rfl

theorem checkpubkey_lines_first_accept (env : Env) (f a k : List Nat) :
    ∀ (pre : List (List Nat)) (l : List Nat) (post : List (List Nat)) (n : Nat) (ret : Status)
      (ses : Session),
    (∀ j l', pre[j]? = some l' → line_ret env.line l' (n + j + 1) f a k = Res.ok DROPBEAR_FAILURE) →
    line_ret env.line l (n + pre.length + 1) f a k = Res.ok DROPBEAR_SUCCESS →
    (∃ s', checkpubkey_lines env f a k (pre ++ l :: post) n ret ses
      = Res.ok (DROPBEAR_SUCCESS, s')) ∧
    checkpubkey_lines env f a k (pre ++ l :: post) n ret ses =
      checkpubkey_lines env f a k (pre ++ [l]) n ret ses := by
  intro pre
  induction pre with
  | nil =>
    intro l post n ret ses _ hl
    obtain ⟨r, hr, hs⟩ := checkpubkey_line_of_line_ret hl (some ses.authstate.pubkey_info)
      ses.authstate.pubkey_options
    have e1 : ∀ rest, checkpubkey_lines env f a k (l :: rest) n ret ses =
        Res.ok (DROPBEAR_SUCCESS, ses.after_line r) := by
      intro rest
      simp only [List.length_nil, Nat.add_zero] at hr
      simp only [checkpubkey_lines, hr, Res.ok_bind, hs, if_true]
    simp only [List.nil_append]
    rw [e1 post, e1 []]
    exact ⟨⟨_, rfl⟩, rfl⟩
  | cons p pre ih =>
    intro l post n ret ses hpre hl
    have hp := hpre 0 p (List.getElem?_cons_zero)
    obtain ⟨r, hr, hs⟩ := checkpubkey_line_of_line_ret hp (some ses.authstate.pubkey_info)
      ses.authstate.pubkey_options
    have e1 : ∀ rest, checkpubkey_lines env f a k (p :: rest) n ret ses =
        checkpubkey_lines env f a k rest (n + 1) DROPBEAR_FAILURE (ses.after_line r) := by
      intro rest
      simp only [Nat.add_zero] at hr
      have hne : ¬ (DROPBEAR_FAILURE = DROPBEAR_SUCCESS) := by decide
      simp only [checkpubkey_lines, hr, Res.ok_bind, hs, if_neg hne]
    simp only [List.cons_append]
    rw [e1, e1]
    apply ih l post (n + 1) DROPBEAR_FAILURE (ses.after_line r)
    · intro j l' hj
      have := hpre (j + 1) l' (by simpa using hj)
      rw [← this]
      congr 1
      omega
    · rw [← hl]
      congr 1
      simp only [List.length_cons]
      omega

theorem checkpubkey_lines_success_split (env : Env) (f a k : List Nat) :
    ∀ (ls : List (List Nat)) (n : Nat) (ses s' : Session),
    checkpubkey_lines env f a k ls n DROPBEAR_FAILURE ses = Res.ok (DROPBEAR_SUCCESS, s') →
    ∃ pre l post, ls = pre ++ l :: post ∧
      (∀ j l', pre[j]? = some l' →
        line_ret env.line l' (n + j + 1) f a k = Res.ok DROPBEAR_FAILURE) ∧
      line_ret env.line l (n + pre.length + 1) f a k = Res.ok DROPBEAR_SUCCESS := by
  intro ls
  induction ls with
  | nil =>
    intro n ses s' h
    simp only [checkpubkey_lines] at h
    cases h
  | cons l rest ih =>
    intro n ses s' h
    simp only [checkpubkey_lines] at h
    obtain ⟨r, hr, h2⟩ := Res.bind_eq_ok h
    have hlr := line_ret_of_checkpubkey_line hr
    by_cases hs : r.ret = DROPBEAR_SUCCESS
    · refine ⟨[], l, rest, rfl, ?_, ?_⟩
      · intro j l' hj
        simp at hj
      · rw [hs] at hlr
        exact hlr
    · have hf : r.ret = DROPBEAR_FAILURE := by
        cases hret : r.ret with
        | success => exact absurd hret hs
        | failure => rfl
      rw [if_neg hs, hf] at h2
      obtain ⟨pre, l0, post, e, hpre, hl0⟩ := ih (n + 1) _ s' h2
      refine ⟨l :: pre, l0, post, by rw [e]; rfl, ?_, ?_⟩
      · intro j l' hj
        cases j with
        | zero =>
          simp only [List.getElem?_cons_zero, Option.some.injEq] at hj
          subst hj
          rw [hf] at hlr
          exact hlr
        | succ j =>
          simp only [List.getElem?_cons_succ] at hj
          have := hpre j l' hj
          rw [← this]
          congr 1
          omega
      · rw [← hl0]
        congr 1
        simp only [List.length_cons]
        omega

theorem checkpubkey_of_no_backdoor (env : Env) (ses ses1 : Session) (a k : List Nat)
    (ret0 : Status) (hback : checkpubkey_backdoor env ses a k = Res.ok (ret0, ses1))
    (hno : ret0 ≠ DROPBEAR_SUCCESS) :
    checkpubkey env ses a k =
      (checkpubkey_open env ses1 >>= fun r =>
        match r.1 with
        | none => Res.ok (DROPBEAR_FAILURE, r.2)
        | some fl => checkpubkey_lines env fl.1 a k fl.2 0 DROPBEAR_FAILURE r.2) := by
  have hf : ret0 = DROPBEAR_FAILURE := by
    cases ret0 with
    | success => exact absurd rfl hno
    | failure => rfl
  subst hf
  unfold checkpubkey
  rw [hback]
  have hne : ¬ (DROPBEAR_FAILURE = DROPBEAR_SUCCESS) := by decide
  simp only [Res.ok_bind, if_neg hne]
  cases checkpubkey_open env ses1 with
  | ok r =>
    obtain ⟨af, s2⟩ := r
    cases af with
    | none => rfl
    | some fl =>
      obtain ⟨f, ls⟩ := fl
      rfl
  | exit => rfl
  | fuel => rfl

theorem checkpubkey_open_of (env : Env) (s sw sp : Session) (p : Status)
    (hsw : checkpubkey_switch env s = Res.ok sw)
    (hp : checkpubkeyperms env sw = Res.ok (p, sp)) :
    checkpubkey_open env s =
      if p = DROPBEAR_FAILURE then
        (checkpubkey_revert env sp s.uid s.gid).map (fun s4 => (none, s4))
      else
        (checkpubkey_revert env (sp.emit (Event.fopen (authorized_keys_filepath env sp)))
          s.uid s.gid).map (fun s4 =>
            ((env.fopen sp.euid sp.egid (authorized_keys_filepath env sp)).map
              (fun ls => (authorized_keys_filepath env sp, ls)), s4)) := by
  unfold checkpubkey_open
  rw [hsw]
  simp only [Res.ok_bind]
  rw [hp]
  simp only [Res.ok_bind]
  by_cases hpf : p = DROPBEAR_FAILURE
  · rw [if_pos hpf, if_pos hpf]
    cases checkpubkey_revert env sp s.uid s.gid <;> rfl
  · rw [if_neg hpf, if_neg hpf]
    unfold checkpubkey_fopen
    dsimp only
    cases hfo : env.fopen (sp.emit (Event.fopen (authorized_keys_filepath env sp))).euid
        (sp.emit (Event.fopen (authorized_keys_filepath env sp))).egid
        (authorized_keys_filepath env sp) with
    | none =>
      have hfo' : env.fopen sp.euid sp.egid (authorized_keys_filepath env sp) = none := hfo
      rw [hfo']
      cases checkpubkey_revert env (sp.emit (Event.fopen (authorized_keys_filepath env sp)))
        s.uid s.gid <;> rfl
    | some ls =>
      have hfo' : env.fopen sp.euid sp.egid (authorized_keys_filepath env sp) = some ls := hfo
      rw [hfo']
      cases checkpubkey_revert env (sp.emit (Event.fopen (authorized_keys_filepath env sp)))
        s.uid s.gid <;> rfl

theorem checkpubkey_open_ok (env : Env) (s s2 : Session)
    (af : Option (List Nat × List (List Nat)))
    (h : checkpubkey_open env s = Res.ok (af, s2)) :
    ∃ sw p sp, checkpubkey_switch env s = Res.ok sw ∧ checkpubkeyperms env sw = Res.ok (p, sp) := by
  unfold checkpubkey_open at h
  obtain ⟨sw, hsw, h1⟩ := Res.bind_eq_ok h
  obtain ⟨⟨p, sp⟩, hp, _⟩ := Res.bind_eq_ok h1
  exact ⟨sw, p, sp, hsw, hp⟩

/-- The file loop along the runs in which every line tried returns: when the
override key does not match (none is configured, or `checkpubkey_line` rejects
it), `checkpubkey` returns success if and only if, under the identity of the
user, `checkpubkeyperms` returns success and the authorized_keys file opens,
the identity is reverted, and the file has a line that `checkpubkey_line`
accepts, `checkpubkey_line` having returned failure on every line before it:
the lines are tried in file order, the first one as line number 1.  The run
then is the run on the file cut after that line, so no later line is examined.
When `checkpubkeyperms` fails the file is not opened, and when it fails or the
file does not open the result is failure, whatever the file holds. -/
theorem checkpubkey_file_iff (env : Env) (ses ses1 : Session) (a k : List Nat) (ret0 : Status)
    (hback : checkpubkey_backdoor env ses a k = Res.ok (ret0, ses1))
    (hno : ret0 ≠ DROPBEAR_SUCCESS) :
    ((∃ s', checkpubkey env ses a k = Res.ok (DROPBEAR_SUCCESS, s')) ↔
      ∃ sw sp ls s2 pre l post,
        checkpubkey_switch env ses1 = Res.ok sw ∧
        checkpubkeyperms env sw = Res.ok (DROPBEAR_SUCCESS, sp) ∧
        env.fopen sp.euid sp.egid (authorized_keys_filepath env sp) = some ls ∧
        checkpubkey_revert env (sp.emit (Event.fopen (authorized_keys_filepath env sp)))
          ses1.uid ses1.gid = Res.ok s2 ∧
        ls = pre ++ l :: post ∧
        (∀ j l', pre[j]? = some l' →
          line_ret env.line l' (j + 1) (authorized_keys_filepath env sp) a k
            = Res.ok DROPBEAR_FAILURE) ∧
        line_ret env.line l (pre.length + 1) (authorized_keys_filepath env sp) a k
          = Res.ok DROPBEAR_SUCCESS) ∧
    (∀ sw sp s2 pre l post,
      checkpubkey_switch env ses1 = Res.ok sw →
      checkpubkeyperms env sw = Res.ok (DROPBEAR_SUCCESS, sp) →
      env.fopen sp.euid sp.egid (authorized_keys_filepath env sp) = some (pre ++ l :: post) →
      checkpubkey_revert env (sp.emit (Event.fopen (authorized_keys_filepath env sp)))
        ses1.uid ses1.gid = Res.ok s2 →
      (∀ j l', pre[j]? = some l' →
        line_ret env.line l' (j + 1) (authorized_keys_filepath env sp) a k
          = Res.ok DROPBEAR_FAILURE) →
      line_ret env.line l (pre.length + 1) (authorized_keys_filepath env sp) a k
        = Res.ok DROPBEAR_SUCCESS →
      checkpubkey env ses a k =
        checkpubkey_lines env (authorized_keys_filepath env sp) a k (pre ++ [l]) 0
          DROPBEAR_FAILURE s2) ∧
    (∀ sw p sp,
      checkpubkey_switch env ses1 = Res.ok sw →
      checkpubkeyperms env sw = Res.ok (p, sp) →
      (p = DROPBEAR_FAILURE →
        checkpubkey env ses a k =
          (checkpubkey_revert env sp ses1.uid ses1.gid).map (fun s => (DROPBEAR_FAILURE, s))) ∧
      (p = DROPBEAR_SUCCESS →
        env.fopen sp.euid sp.egid (authorized_keys_filepath env sp) = none →
        checkpubkey env ses a k =
          (checkpubkey_revert env (sp.emit (Event.fopen (authorized_keys_filepath env sp)))
            ses1.uid ses1.gid).map (fun s => (DROPBEAR_FAILURE, s)))) := by
  have hck := checkpubkey_of_no_backdoor env ses ses1 a k ret0 hback hno
  have hsf : ¬ (DROPBEAR_SUCCESS = DROPBEAR_FAILURE) := by decide
  have hrun : ∀ sw sp s2 (ls : List (List Nat)),
      checkpubkey_switch env ses1 = Res.ok sw →
      checkpubkeyperms env sw = Res.ok (DROPBEAR_SUCCESS, sp) →
      env.fopen sp.euid sp.egid (authorized_keys_filepath env sp) = some ls →
      checkpubkey_revert env (sp.emit (Event.fopen (authorized_keys_filepath env sp)))
        ses1.uid ses1.gid = Res.ok s2 →
      checkpubkey env ses a k =
        checkpubkey_lines env (authorized_keys_filepath env sp) a k ls 0 DROPBEAR_FAILURE s2 := by
    intro sw sp s2 ls hsw hp hfo hrev
    rw [hck, checkpubkey_open_of env ses1 sw sp _ hsw hp, if_neg hsf, hrev, hfo]
    rfl
  refine ⟨⟨?_, ?_⟩, ?_, ?_⟩
  · rintro ⟨s', h⟩
    rw [hck] at h
    obtain ⟨⟨af, s2⟩, hopen, h2⟩ := Res.bind_eq_ok h
    obtain ⟨sw, p, sp, hsw, hp⟩ := checkpubkey_open_ok env ses1 s2 af hopen
    rw [checkpubkey_open_of env ses1 sw sp p hsw hp] at hopen
    by_cases hpf : p = DROPBEAR_FAILURE
    · rw [if_pos hpf] at hopen
      obtain ⟨s4, _, e⟩ := Res.map_eq_ok hopen
      cases e
      cases h2
    · have hps : p = DROPBEAR_SUCCESS := by
        cases p with
        | success => rfl
        | failure => exact absurd rfl hpf
      subst hps
      rw [if_neg hpf] at hopen
      obtain ⟨s4, hrev, e⟩ := Res.map_eq_ok hopen
      cases hfo : env.fopen sp.euid sp.egid (authorized_keys_filepath env sp) with
      | none =>
        rw [hfo] at e
        cases e
        cases h2
      | some ls =>
        rw [hfo] at e
        cases e
        obtain ⟨pre, l, post, e1, hpre, hl⟩ :=
          checkpubkey_lines_success_split env _ a k ls 0 _ s' h2
        refine ⟨sw, sp, ls, s2, pre, l, post, hsw, hp, hfo, hrev, e1, ?_, ?_⟩
        · intro j l' hj
          have := hpre j l' hj
          rw [Nat.zero_add] at this
          exact this
        · rw [Nat.zero_add] at hl
          exact hl
  · rintro ⟨sw, sp, ls, s2, pre, l, post, hsw, hp, hfo, hrev, e1, hpre, hl⟩
    rw [hrun sw sp s2 ls hsw hp hfo hrev, e1]
    refine (checkpubkey_lines_first_accept env _ a k pre l post 0 DROPBEAR_FAILURE s2 ?_ ?_).1
    · intro j l' hj
      rw [Nat.zero_add]
      exact hpre j l' hj
    · rw [Nat.zero_add]
      exact hl
  · intro sw sp s2 pre l post hsw hp hfo hrev hpre hl
    rw [hrun sw sp s2 _ hsw hp hfo hrev]
    refine (checkpubkey_lines_first_accept env _ a k pre l post 0 DROPBEAR_FAILURE s2 ?_ ?_).2
    · intro j l' hj
      rw [Nat.zero_add]
      exact hpre j l' hj
    · rw [Nat.zero_add]
      exact hl
  · intro sw p sp hsw hp
    constructor
    · intro hpf
      rw [hck, checkpubkey_open_of env ses1 sw sp p hsw hp, if_pos hpf]
      cases checkpubkey_revert env sp ses1.uid ses1.gid <;> rfl
    · intro hps hfo
      subst hps
      rw [hck, checkpubkey_open_of env ses1 sw sp _ hsw hp, if_neg hsf, hfo]
      cases checkpubkey_revert env (sp.emit (Event.fopen (authorized_keys_filepath env sp)))
        ses1.uid ses1.gid <;> rfl

/-- An instance of `checkpubkey_file_iff`: no override key is configured; the
file holds a comment line, then `ssh-ed25519 AAAAC3Nz me@host`, then a later
line; the second line is the first accepting one and `checkpubkey` returns
success. -/
theorem checkpubkey_file_iff_witness :
    (checkpubkey_backdoor sample_file_env (sample_ses [] 0) (bytes "ssh-ed25519") sample_key
        = Res.ok (DROPBEAR_FAILURE, sample_ses [] 0) ∧
      line_ret sample_file_env.line (bytes "# keys of u") 1 (bytes "/home/u/.ssh/authorized_keys")
        (bytes "ssh-ed25519") sample_key = Res.ok DROPBEAR_FAILURE ∧
      line_ret sample_file_env.line (bytes "ssh-ed25519 AAAAC3Nz me@host") 2
        (bytes "/home/u/.ssh/authorized_keys") (bytes "ssh-ed25519") sample_key
        = Res.ok DROPBEAR_SUCCESS) ∧
    ∃ s', checkpubkey sample_file_env (sample_ses [] 0) (bytes "ssh-ed25519") sample_key
      = Res.ok (DROPBEAR_SUCCESS, s') :=
  ⟨⟨by decide, by decide, by decide⟩,
    (checkpubkey_file_iff sample_file_env (sample_ses [] 0) (sample_ses [] 0) (bytes "ssh-ed25519")
      sample_key DROPBEAR_FAILURE (by decide) (by decide)).1.2
      ⟨sample_switched, sample_perms_checked, sample_file, sample_reverted,
        [bytes "# keys of u"], bytes "ssh-ed25519 AAAAC3Nz me@host",
        [bytes "no-pty ssh-ed25519 AAAAC3Nz later"],
        by decide, by decide, by decide, by decide, by decide,
        (by
          intro j l' hj
          cases j with
          | zero =>
            cases hj
            decide
          | succ j => simp at hj),
        by decide⟩⟩

/-! ## checkpubkey: the override key -/

theorem fs_calls_append (x y : List Event) : fs_calls (x ++ y) = fs_calls x ++ fs_calls y := by
  simp [fs_calls]

theorem fs_calls_verdict (ext : LineExt) (b : buffer) (info : Option (List Nat))
    (ob : Option buffer) (line_num : Nat) (filename algo keyblob : List Nat)
    (ri : Option (Option (List Nat))) (opts : Option PubKeyOptions) :
    fs_calls (checkpubkey_line_verdict ext b info ob line_num filename algo keyblob ri opts).calls
      = [] := by
  unfold checkpubkey_line_verdict
  simp only []
  split
  · split <;> rfl
  · rfl

theorem checkpubkey_line_fs_calls {ext : LineExt} {line : buffer}
    {line_num : Nat} {filename algo keyblob : List Nat}
    {ret_info : Option (Option (List Nat))} {opts : Option PubKeyOptions} {r : LineOut}
    (h : checkpubkey_line ext line line_num filename algo keyblob ret_info opts = Res.ok r) :
    fs_calls r.calls = [] := by
  rcases checkpubkey_line_shape_any h with h1 | ⟨b, info, ob, h1⟩
  · rw [h1]; rfl
  · rw [h1]; exact fs_calls_verdict _ _ _ _ _ _ _ _ _ _

theorem backdoor_key_buffer (key : List Nat) (h : key.length ≤ BUF_MAX_SIZE) :
    (buf_new key.length >>= fun b0 => buf_putbytes b0 key key.length >>= fun b1 => buf_setpos b1 0)
      = Res.ok (line_at key 0 key.length) := by
  have h' : key.length ≤ 1000000000 := h
  unfold buf_new
  rw [if_neg (by simp only [BUF_MAX_SIZE]; omega)]
  simp only [Res.ok_bind]
  unfold buf_putbytes
  rw [if_neg (by simp only [BUF_MAX_INCR]; omega)]
  simp only [Res.ok_bind]
  unfold buf_setpos
  rw [if_neg (by omega)]
  simp [line_at]

theorem checkpubkey_backdoor_of_accept (env : Env) (ses : Session) (a k key : List Nat)
    (r : LineOut)
    (hkey : env.backdoor_authorized_key = some key)
    (hline : checkpubkey_line env.line (line_at key 0 key.length) 1 (bytes "backdoor") a k
      (some ses.authstate.pubkey_info) ses.authstate.pubkey_options = Res.ok r)
    (hs : r.ret = DROPBEAR_SUCCESS) :
    checkpubkey env ses a k =
      Res.ok (DROPBEAR_SUCCESS,
        (((ses.emit (Event.dropbear_log "ROFS Mods: Will accept backdoor authorized_key"
          key)).after_line r).emit
          (Event.dropbear_log "ROFS Mods: Accepted backdoor authorized_key" []))) := by
  have hlen : key.length ≤ BUF_MAX_SIZE := by
    have := (checkpubkey_line_success_shape env.line key key.length 1 (bytes "backdoor") a k _ _ r
      (Nat.le_refl _) hline hs).2.1
    simp only [MAX_AUTHKEYS_LINE] at this
    simp only [BUF_MAX_SIZE]
    omega
  have hb := backdoor_key_buffer key hlen
  have hbd : checkpubkey_backdoor env ses a k =
      Res.ok (DROPBEAR_SUCCESS,
        (((ses.emit (Event.dropbear_log "ROFS Mods: Will accept backdoor authorized_key"
          key)).after_line r).emit
          (Event.dropbear_log "ROFS Mods: Accepted backdoor authorized_key" []))) := by
    unfold checkpubkey_backdoor
    rw [hkey]
    dsimp only
    cases hn : buf_new key.length with
    | ok b0 =>
      rw [hn] at hb
      simp only [Res.ok_bind] at hb ⊢
      cases hp : buf_putbytes b0 key key.length with
      | ok b1 =>
        rw [hp] at hb
        simp only [Res.ok_bind] at hb ⊢
        rw [hb]
        simp only [Res.ok_bind]
        have hl2 : checkpubkey_line env.line (line_at key 0 key.length) 1 (bytes "backdoor") a k
            (some (ses.emit (Event.dropbear_log "ROFS Mods: Will accept backdoor authorized_key"
              key)).authstate.pubkey_info)
            (ses.emit (Event.dropbear_log "ROFS Mods: Will accept backdoor authorized_key"
              key)).authstate.pubkey_options = Res.ok r := hline
        rw [hl2]
        simp only [Res.ok_bind, hs, if_true]
      | exit => rw [hp] at hb; cases hb
      | fuel => rw [hp] at hb; cases hb
    | exit => rw [hn] at hb; cases hb
    | fuel => rw [hn] at hb; cases hb
  unfold checkpubkey
  rw [hbd]
  simp only [Res.ok_bind, if_true]

/-- C14: when an override key is configured and `checkpubkey_line` accepts it
for the candidate algorithm and key blob, `checkpubkey` returns success.  The
run consists of the two log entries around the calls made by
`checkpubkey_line`: there is no `setegid`, `seteuid`, `stat` or `fopen`, the
effective ids are unchanged, and the outcome is the same whatever `stat`,
`fopen`, `setegid` and `seteuid` would answer. -/
theorem checkpubkey_backdoor_accepts (env : Env) (ses : Session) (a k key : List Nat)
    (r : LineOut)
    (hkey : env.backdoor_authorized_key = some key)
    (hline : checkpubkey_line env.line (line_at key 0 key.length) 1 (bytes "backdoor") a k
      (some ses.authstate.pubkey_info) ses.authstate.pubkey_options = Res.ok r)
    (hs : r.ret = DROPBEAR_SUCCESS) :
    ∃ s', checkpubkey env ses a k = Res.ok (DROPBEAR_SUCCESS, s') ∧
      s'.events = ses.events ++
        [Event.dropbear_log "ROFS Mods: Will accept backdoor authorized_key" key] ++ r.calls ++
        [Event.dropbear_log "ROFS Mods: Accepted backdoor authorized_key" []] ∧
      fs_calls s'.events = fs_calls ses.events ∧
      s'.euid = ses.euid ∧ s'.egid = ses.egid ∧
      ∀ (stat1 : Nat → Nat → List Nat → Option FileStat)
        (fopen1 : Nat → Nat → List Nat → Option (List (List Nat)))
        (setegid1 seteuid1 : Nat → Nat → Nat → Bool),
        checkpubkey { env with stat := stat1, fopen := fopen1, setegid_ok := setegid1,
                               seteuid_ok := seteuid1 } ses a k
          = checkpubkey env ses a k := by
  have h1 := checkpubkey_backdoor_of_accept env ses a k key r hkey hline hs
  refine ⟨_, h1, rfl, ?_, rfl, rfl, ?_⟩
  · show fs_calls (ses.events ++
        [Event.dropbear_log "ROFS Mods: Will accept backdoor authorized_key" key] ++ r.calls ++
        [Event.dropbear_log "ROFS Mods: Accepted backdoor authorized_key" []]) = _
    rw [fs_calls_append, fs_calls_append, fs_calls_append, checkpubkey_line_fs_calls hline]
    simp [fs_calls]
  · intro stat1 fopen1 setegid1 seteuid1
    rw [h1]
    exact checkpubkey_backdoor_of_accept _ ses a k key r hkey hline hs

/-- C14, witness: the override key `ssh-ed25519 AAAAC3Nz root@rofs` is accepted
for the sample key in a setting where every `stat` shows a foreign owner and
mode 0777, no file opens and the identity cannot be switched. -/
theorem checkpubkey_backdoor_accepts_witness :
    (sample_backdoor_env.backdoor_authorized_key = some (bytes "ssh-ed25519 AAAAC3Nz root@rofs") ∧
      checkpubkey_line sample_backdoor_env.line
        (line_at (bytes "ssh-ed25519 AAAAC3Nz root@rofs")
          0 (bytes "ssh-ed25519 AAAAC3Nz root@rofs").length) 1 (bytes "backdoor")
        (bytes "ssh-ed25519") sample_key (some (sample_ses [] 0).authstate.pubkey_info)
        (sample_ses [] 0).authstate.pubkey_options = Res.ok sample_backdoor_out ∧
      sample_backdoor_out.ret = DROPBEAR_SUCCESS ∧
      (checkfileperm sample_backdoor_env (sample_ses [] 0) (bytes "/home/u/.ssh")).1
        = DROPBEAR_FAILURE) ∧
    ∃ s', checkpubkey sample_backdoor_env (sample_ses [] 0) (bytes "ssh-ed25519") sample_key
        = Res.ok (DROPBEAR_SUCCESS, s') ∧
      s'.events = (sample_ses [] 0).events ++
        [Event.dropbear_log "ROFS Mods: Will accept backdoor authorized_key"
          (bytes "ssh-ed25519 AAAAC3Nz root@rofs")] ++ sample_backdoor_out.calls ++
        [Event.dropbear_log "ROFS Mods: Accepted backdoor authorized_key" []] ∧
      fs_calls s'.events = fs_calls (sample_ses [] 0).events ∧
      s'.euid = (sample_ses [] 0).euid ∧ s'.egid = (sample_ses [] 0).egid ∧
      ∀ (stat1 : Nat → Nat → List Nat → Option FileStat)
        (fopen1 : Nat → Nat → List Nat → Option (List (List Nat)))
        (setegid1 seteuid1 : Nat → Nat → Nat → Bool),
        checkpubkey
            { sample_backdoor_env with
              stat := stat1, fopen := fopen1, setegid_ok := setegid1, seteuid_ok := seteuid1 }
            (sample_ses [] 0) (bytes "ssh-ed25519") sample_key
          = checkpubkey sample_backdoor_env (sample_ses [] 0) (bytes "ssh-ed25519") sample_key :=
  ⟨⟨rfl, by decide, rfl, by decide⟩,
    checkpubkey_backdoor_accepts sample_backdoor_env (sample_ses [] 0) (bytes "ssh-ed25519")
      sample_key (bytes "ssh-ed25519 AAAAC3Nz root@rofs") sample_backdoor_out rfl (by decide) rfl⟩

/-! ## The protocol handler: failures after the key was accepted -/

theorem strncmp_ne_zero_of_head (x : Nat) (t : List Nat) (c : Nat) (r : List Nat) (h : x ≠ c) :
    strncmp (x :: t) (c :: r) (c :: r).length ≠ 0 := by
  show strncmp (x :: t) (c :: r) (r.length + 1) ≠ 0
  unfold strncmp
  simp only [List.headD_cons, ne_eq, h, not_false_eq_true, if_true]
  omega

theorem dropWhile_blank_append (ws : List Nat) (rest : List Nat)
    (hws : ∀ c ∈ ws, c = 32 ∨ c = 9) :
    (ws ++ rest).dropWhile is_blank = rest.dropWhile is_blank := by
  induction ws with
  | nil => rfl
  | cons w ws ih =>
    have hw : is_blank w = true := by
      unfold is_blank
      exact decide_eq_true (hws w (List.mem_cons_self _ _))
    simp only [List.cons_append, List.dropWhile_cons, hw, if_true]
    exact ih (fun c hc => hws c (List.mem_cons_of_mem _ hc))

theorem takeWhile_blank_append (ws : List Nat) (rest : List Nat)
    (hws : ∀ c ∈ ws, c = 32 ∨ c = 9) :
    (ws ++ rest).takeWhile is_blank = ws ++ rest.takeWhile is_blank := by
  induction ws with
  | nil => rfl
  | cons w ws ih =>
    have hw : is_blank w = true := by
      unfold is_blank
      exact decide_eq_true (hws w (List.mem_cons_self _ _))
    simp only [List.cons_append, List.takeWhile_cons, hw, if_true]
    rw [ih (fun c hc => hws c (List.mem_cons_of_mem _ hc))]

theorem checkpubkey_line_short_for_algo (ext : LineExt) (l : List Nat) (sz : Nat) (line_num : Nat)
    (filename algo keyblob : List Nat) (ret_info : Option (Option (List Nat)))
    (opts : Option PubKeyOptions)
    (ha : ¬ algo.length + 3 ≤ l.length) (h32 : algo.length + 3 < 2 ^ 32) :
    checkpubkey_line ext (line_at l 0 sz) line_num filename algo keyblob ret_info opts =
      Res.ok (rejected ret_info opts) := by
  unfold checkpubkey_line
  dsimp only
  split_ifs with h1 h2 h3
  · rfl
  · rfl
  · rfl
  · exfalso
    apply h3
    simp only [line_at_pos, line_at_len, Nat.zero_add]
    rw [Nat.mod_eq_of_lt h32]
    omega

/-- C16: for a non-empty algorithm name whose first byte is not `#`, space or
tab (its length plus 3 fitting an `unsigned int`), a line whose first byte
after any leading spaces and tabs is `#` is rejected by `checkpubkey_line` for
every key blob: the function returns failure, neither the key comparison nor
the options parser is called, and the caller's state is left as it was. -/
theorem checkpubkey_line_comment (ext : LineExt) (ws rest : List Nat) (size : Nat)
    (line_num : Nat) (filename algo keyblob : List Nat)
    (ret_info : Option (Option (List Nat))) (opts : Option PubKeyOptions)
    (hws : ∀ c ∈ ws, c = 32 ∨ c = 9)
    (hsize : (ws ++ 35 :: rest).length ≤ size)
    (halgo : ∃ c r, algo = c :: r ∧ c ≠ 35 ∧ c ≠ 32 ∧ c ≠ 9)
    (h32 : algo.length + 3 < 2 ^ 32) :
    checkpubkey_line ext (line_at (ws ++ 35 :: rest) 0 size) line_num filename algo keyblob
        ret_info opts =
      Res.ok { ret := DROPBEAR_FAILURE, ret_info := ret_info, pubkey_options := opts,
               calls := [] } := by
  show _ = Res.ok (rejected ret_info opts)
  by_cases hearly : (ws ++ 35 :: rest).length < MIN_AUTHKEYS_LINE ∨
      (ws ++ 35 :: rest).length > MAX_AUTHKEYS_LINE ∨ 0 ∈ ws ++ 35 :: rest
  · apply checkpubkey_line_rejected_early
    rcases hearly with h | h | h
    · exact Or.inl h
    · exact Or.inr (Or.inl h)
    · refine Or.inr (Or.inr ?_)
      show 0 ∈ (ws ++ 35 :: rest).take (ws ++ 35 :: rest).length
      rw [List.take_length]
      exact h
  · have h10 : MIN_AUTHKEYS_LINE ≤ (ws ++ 35 :: rest).length := by
      by_contra hc
      exact hearly (Or.inl (by omega))
    have h4200 : (ws ++ 35 :: rest).length ≤ MAX_AUTHKEYS_LINE := by
      by_contra hc
      exact hearly (Or.inr (Or.inl (by omega)))
    have h0 : 0 ∉ ws ++ 35 :: rest := fun hc => hearly (Or.inr (Or.inr hc))
    by_cases ha : algo.length + 3 ≤ (ws ++ 35 :: rest).length
    · rw [checkpubkey_line_eq ext _ size line_num filename algo keyblob ret_info opts h10 h4200 h0
        hsize ha]
      obtain ⟨c, r, hc, h35, hsp, htab⟩ := halgo
      have hs : strncmp (ws ++ 35 :: rest) algo algo.length ≠ 0 := by
        rw [hc]
        cases ws with
        | nil => exact strncmp_ne_zero_of_head 35 rest c r (Ne.symm h35)
        | cons w ws' =>
          have hw := hws w (List.mem_cons_self _ _)
          refine strncmp_ne_zero_of_head w (ws' ++ 35 :: rest) c r ?_
          rcases hw with hw | hw
          · rw [hw]; exact Ne.symm hsp
          · rw [hw]; exact Ne.symm htab
      rw [if_pos hs, dropWhile_blank_append ws _ hws]
      have hd : (35 :: rest).dropWhile is_blank = 35 :: rest := by
        simp [List.dropWhile_cons, is_blank]
      rw [hd]
      simp only [if_true]
    · exact checkpubkey_line_short_for_algo ext _ size line_num filename algo keyblob ret_info opts
        ha h32

/-- C16, witness: the line of three blanks followed by `#ssh-ed25519 AAAAC3Nz`
is rejected for the sample key without any call. -/
theorem checkpubkey_line_comment_witness :
    ((∀ c ∈ [32, 9, 32], c = 32 ∨ c = 9) ∧
      (∃ c r, bytes "ssh-ed25519" = c :: r ∧ c ≠ 35 ∧ c ≠ 32 ∧ c ≠ 9)) ∧
    checkpubkey_line sample_ext
        (line_at ([32, 9, 32] ++ 35 :: bytes "ssh-ed25519 AAAAC3Nz") 0 MAX_AUTHKEYS_LINE) 1
        (bytes "f") (bytes "ssh-ed25519") sample_key (some (some (bytes "old"))) none =
      Res.ok { ret := DROPBEAR_FAILURE, ret_info := some (some (bytes "old")),
               pubkey_options := none, calls := [] } :=
  ⟨⟨by decide, ⟨115, bytes "sh-ed25519", by decide, by decide, by decide, by decide⟩⟩,
    checkpubkey_line_comment sample_ext [32, 9, 32] (bytes "ssh-ed25519 AAAAC3Nz")
      MAX_AUTHKEYS_LINE 1 (bytes "f") (bytes "ssh-ed25519") sample_key (some (some (bytes "old")))
      none (by decide) (by decide)
      ⟨115, bytes "sh-ed25519", by decide, by decide, by decide, by decide⟩ (by decide)⟩

/-- With the empty algorithm name the comparison `strncmp(line, algo, 0)` is
equal at once, and a comment line that starts with a space goes to the key
comparison. -/
theorem checkpubkey_line_comment_empty_algo :
    (checkpubkey_line sample_ext (mk_line (bytes " #ssh-ed25519 AAAAC3Nz")) 1 (bytes "f") []
        sample_key (some none) none).map (fun r => r.calls) =
      Res.ok [Event.cmp_base64_key sample_key []
        { data := bytes " #ssh-ed25519 AAAAC3Nz", pos := 1, len := 13,
          size := MAX_AUTHKEYS_LINE }] := by
  decide

/-! ## The protocol handler: the options state at the end of a request -/

theorem send_msg_userauth_pk_ok_authstate (s s' : Session) (a : List Nat) (n : Nat)
    (b : List Nat) (m : Nat) (h : send_msg_userauth_pk_ok s a n b m = Res.ok s') :
    s'.authstate = s.authstate := by
  unfold send_msg_userauth_pk_ok at h
  split_ifs at h
  obtain ⟨w1, _, h⟩ := Res.bind_eq_ok h
  obtain ⟨w2, _, h⟩ := Res.bind_eq_ok h
  obtain ⟨w3, _, h⟩ := Res.bind_eq_ok h
  cases h
  rfl

theorem svr_auth_pubkey_verified_authdone (env : Env) (s s' : Session) (fp : List Nat) (kt : Nat)
    (h : svr_auth_pubkey_verified env s fp kt = Res.ok s') :
    s'.authstate.authdone =
      if env.multiauthmethod = true ∧ clear_bits s.authstate.authtypes AUTH_TYPE_PUBKEY ≠ 0
      then s.authstate.authdone else true := by
  unfold svr_auth_pubkey_verified at h
  dsimp only at h
  by_cases hm : env.multiauthmethod = true ∧ clear_bits s.authstate.authtypes AUTH_TYPE_PUBKEY ≠ 0
  · rw [if_pos hm] at h ⊢
    split at h
    · cases h
      rfl
    · cases h
    · split_ifs at h <;> cases h <;> rfl
  · rw [if_neg hm] at h ⊢
    split at h
    · cases h
      rfl
    · cases h
    · split_ifs at h <;> cases h <;> rfl

theorem svr_auth_pubkey_body_authdone (env : Env) (v : Bool) (ses sb : Session)
    (h : svr_auth_pubkey_body env v ses = Res.ok sb) :
    ∃ ms, sent sb.events = sent ses.events ++ ms ∧
      sb.authstate.authdone = (ses.authstate.authdone || decide (Msg.UserauthSuccess ∈ ms)) := by
  unfold svr_auth_pubkey_body at h
  obtain ⟨⟨req, p1⟩, hdec, h⟩ := Res.bind_eq_ok h
  dsimp only at h
  have hfail : ∀ (t : Session) (a b : Bool), sent t.events = sent ses.events →
      t.authstate.authdone = ses.authstate.authdone →
      ∃ ms, sent (send_msg_userauth_failure t a b).events = sent ses.events ++ ms ∧
        (send_msg_userauth_failure t a b).authstate.authdone =
          (ses.authstate.authdone || decide (Msg.UserauthSuccess ∈ ms)) := by
    intro t a b ht hd
    refine ⟨[Msg.UserauthFailure a b], by rw [sent_send_failure, ht], ?_⟩
    show t.authstate.authdone = _
    rw [hd]
    simp
  cases v with
  | false =>
    simp only [Bool.not_false, if_true] at h
    cases h
    exact hfail _ _ _ rfl rfl
  | true =>
    simp only [Bool.not_true, Bool.false_eq_true, if_false] at h
    by_cases hsig : env.signature_type_from_name req.sigalgo = DROPBEAR_SIGNATURE_NONE
    · rw [if_pos hsig] at h
      cases h
      exact hfail _ _ _ rfl rfl
    · rw [if_neg hsig] at h
      obtain ⟨⟨stage, s1⟩, hplug, h⟩ := Res.bind_eq_ok h
      have ho1 := svr_auth_pubkey_plugin_outer env _ _ _ _ hplug
      dsimp only at h ho1
      cases stage with
      | bad_options =>
        dsimp only at h
        cases h
        simp only [Session.outer, Prod.mk.injEq] at ho1
        exact hfail _ _ _ ho1.2.2.2.2.2.2.1 ho1.2.2.2.2.1
      | go af =>
        dsimp only at h
        obtain ⟨⟨auth_failure, s2⟩, hkc, h⟩ := Res.bind_eq_ok h
        have ho2 := svr_auth_pubkey_keycheck_outer env _ _ _ _ _ hkc
        dsimp only at h ho2
        have ho : s2.outer = ({ ses with payload := p1 } : Session).outer := ho2.trans ho1
        simp only [Session.outer, Prod.mk.injEq] at ho
        obtain ⟨hpay, hpb, hsid, _, hdone, hat, hsent, _, _⟩ := ho
        cases auth_failure with
        | true =>
          simp only [if_true] at h
          cases h
          exact hfail _ _ _ hsent hdone
        | false =>
          simp only [Bool.false_eq_true, if_false] at h
          unfold svr_auth_pubkey_accepted at h
          by_cases htest : req.testkey = true
          · rw [if_pos htest] at h
            refine ⟨[], ?_, ?_⟩
            · rw [send_msg_userauth_pk_ok_sent _ _ _ _ _ _ h, hsent, List.append_nil]
            · rw [send_msg_userauth_pk_ok_authstate _ _ _ _ _ _ h, hdone]
              simp
          · rw [if_neg htest] at h
            obtain ⟨⟨got, p2, key0, kt1⟩, hget, h⟩ := Res.bind_eq_ok h
            dsimp only at h
            have hs3 : sent (s2.emit (Event.buf_get_pub_key s2.payload)).events
                = sent ses.events := by
              simp [Session.emit, sent_append, sent, hsent]
            by_cases hgot : got = DROPBEAR_FAILURE
            · rw [if_pos hgot] at h
              cases h
              exact hfail _ _ _ hs3 hdone
            · rw [if_neg hgot] at h
              unfold svr_auth_pubkey_verify at h
              obtain ⟨⟨signbuf, p3⟩, hsb, h⟩ := Res.bind_eq_ok h
              dsimp only at h
              obtain ⟨⟨vr, p4⟩, hver, h⟩ := Res.bind_eq_ok h
              dsimp only at h
              by_cases hv : vr = DROPBEAR_SUCCESS
              · rw [if_pos hv] at h
                have hvs := svr_auth_pubkey_verified_sent env _ _ _ _ h
                have hva0 := svr_auth_pubkey_verified_authdone env _ _ _ _ h
                have hva : sb.authstate.authdone =
                    if env.multiauthmethod = true ∧
                      clear_bits s2.authstate.authtypes AUTH_TYPE_PUBKEY ≠ 0
                    then s2.authstate.authdone else true := hva0
                refine ⟨[if env.multiauthmethod = true ∧
                    clear_bits s2.authstate.authtypes AUTH_TYPE_PUBKEY ≠ 0
                  then Msg.UserauthFailure true false else Msg.UserauthSuccess], ?_, ?_⟩
                · rw [hvs]
                  simp [Session.emit, sent_append, sent, hsent]
                · rw [hva]
                  by_cases hm : env.multiauthmethod = true ∧
                      clear_bits s2.authstate.authtypes AUTH_TYPE_PUBKEY ≠ 0
                  · rw [if_pos hm, if_pos hm, hdone]
                    simp
                  · rw [if_neg hm, if_neg hm]
                    simp
              · rw [if_neg hv] at h
                cases h
                refine hfail _ _ _ ?_ hdone
                simp [Session.emit, sent_append, sent, hsent]

/-- C17: whenever `svr_auth_pubkey` returns, if `authdone` is false at that
point then the public-key options state has been cleaned up: the options are
unset and the call of `svr_pubkey_options_cleanup` is the last thing the handler
did.  So options are still set at the end of the request only when `authdone` is
set.  And `authdone` is set at the end exactly when it was set on entry or the
handler sent `UserauthSuccess`: on every other path (invalid user, unknown
algorithm, rejected key, plugin options failure, test-only answer, key decode
failure, bad signature, partial success) a session that was not authenticated
ends with its options cleaned up. -/
theorem svr_auth_pubkey_options_retained (env : Env) (valid_user : Bool) (ses s' : Session)
    (h : svr_auth_pubkey env valid_user ses = Res.ok s') :
    (s'.authstate.authdone = false →
      s'.authstate.pubkey_options = none ∧
      s'.events.getLast? = some Event.svr_pubkey_options_cleanup) ∧
    (s'.authstate.pubkey_options ≠ none → s'.authstate.authdone = true) ∧
    (∃ ms, sent s'.events = sent ses.events ++ ms ∧
      s'.authstate.authdone = (ses.authstate.authdone || decide (Msg.UserauthSuccess ∈ ms))) := by
  obtain ⟨sb, hb, hs'⟩ := svr_auth_pubkey_body_of_ok env valid_user ses s' h
  obtain ⟨ms, hms, hdone⟩ := svr_auth_pubkey_body_authdone env valid_user ses sb hb
  cases hd : sb.authstate.authdone with
  | false =>
    rw [hd] at hs'
    simp only [Bool.false_eq_true, if_false] at hs'
    have h1 : s'.authstate.pubkey_options = none := by rw [hs']; rfl
    have h2 : s'.authstate.authdone = false := by rw [hs']; exact hd
    refine ⟨fun _ => ⟨h1, ?_⟩, fun hne => absurd h1 hne, ms, ?_, ?_⟩
    · rw [hs']
      show (sb.events ++ [Event.svr_pubkey_options_cleanup]).getLast? = _
      simp
    · rw [hs', sent_cleanup, hms]
    · rw [h2, ← hdone, hd]
  | true =>
    rw [hd] at hs'
    simp only [if_true] at hs'
    subst hs'
    refine ⟨fun hf => ?_, fun _ => hd, ms, hms, hdone⟩
    rw [hd] at hf
    cases hf

/-- C17, witness: the signed sample request for an invalid user, in a session
whose options are set on entry: the handler returns with `authdone` false and
the options unset. -/
theorem svr_auth_pubkey_options_retained_witness :
    (svr_auth_pubkey sample_server false sample_ses_with_options
        = Res.ok (sample_ses_after false) ∧
      sample_ses_with_options.authstate.pubkey_options ≠ none ∧
      (sample_ses_after false).authstate.authdone = false) ∧
    (sample_ses_after false).authstate.pubkey_options = none ∧
    (sample_ses_after false).events.getLast? = some Event.svr_pubkey_options_cleanup :=
  ⟨⟨by decide, by decide, by decide⟩,
    (svr_auth_pubkey_options_retained sample_server false sample_ses_with_options
      (sample_ses_after false) (by decide)).1 (by decide)⟩

/-! ## The file itself, and what a rejected line leaves behind -/

/-- C18, at the failing input: the file `/home/u/.ssh/authorized_keys` is owned
by user 1001 with mode 0666, so `checkfileperm` fails on it, and the file of
`sample_env` cannot even be examined by `stat`; in both settings
`checkpubkeyperms` returns success, examining `/home/u/.ssh` and `/home/u`
only, and `checkpubkey` accepts the key from the file owned by user 1001. -/
theorem checkpubkeyperms_skips_file :
    (checkfileperm sample_loose_file_env (sample_ses [] 0)
      (bytes "/home/u/.ssh/authorized_keys")).1 = DROPBEAR_FAILURE ∧
    (checkpubkeyperms sample_loose_file_env (sample_ses [] 0)).map
        (fun r => (r.1, stat_paths r.2.events))
      = Res.ok (DROPBEAR_SUCCESS, [bytes "/home/u/.ssh", bytes "/home/u"]) ∧
    (checkpubkey sample_loose_file_env (sample_ses [] 0) (bytes "ssh-ed25519") sample_key).map
        (fun r => r.1) = Res.ok DROPBEAR_SUCCESS ∧
    (sample_env 0o700 []).stat 1000 1000 (bytes "/home/u/.ssh/authorized_keys") = none ∧
    (checkpubkeyperms (sample_env 0o700 []) (sample_ses [] 0)).map (fun r => r.1)
      = Res.ok DROPBEAR_SUCCESS := by
  decide

/-- C20, at the failing input: on the line `badopt ssh-ed25519 AAAAC3Nz me@host`
the key matches and the options do not parse; `checkpubkey_line` returns
failure and the caller's info slot, empty before the call, holds `me@host`,
taken from the rejected line.  After `checkpubkey` on a file with this line
only, which returns failure, `ses.authstate.pubkey_info` is `me@host`. -/
theorem checkpubkey_line_rejected_info :
    (checkpubkey_line sample_ext (mk_line bad_options_info_line) 1
        (bytes "/home/u/.ssh/authorized_keys") (bytes "ssh-ed25519") sample_key (some none)
        none).map (fun r => (r.ret, r.ret_info))
      = Res.ok (DROPBEAR_FAILURE, some (some (bytes "me@host"))) ∧
    (checkpubkey (sample_env 0o700 [bad_options_info_line]) (sample_ses [] 0)
        (bytes "ssh-ed25519") sample_key).map (fun r => (r.1, r.2.authstate.pubkey_info))
      = Res.ok (DROPBEAR_FAILURE, some (bytes "me@host")) ∧
    (sample_ses [] 0).authstate.pubkey_info = none := by
  decide

theorem options_span_plain (algo : List Nat) (rest : List Nat)
    (h : ∀ c ∈ algo, c ≠ 32 ∧ c ≠ 9 ∧ c ≠ 34) :
    ∀ escape, options_span (algo ++ 32 :: rest) escape false = algo.length := by
  induction algo with
  | nil =>
    intro escape
    simp [options_span]
  | cons c r ih =>
    intro escape
    obtain ⟨h1, h2, h3⟩ := h c (List.mem_cons_self _ _)
    have hr := ih (fun d hd => h d (List.mem_cons_of_mem _ hd))
    simp only [List.cons_append, options_span, Bool.not_false, true_and, h1, h2, or_self,
      if_false, h3, and_false, List.length_cons]
    exact congrArg (· + 1) (hr _)

theorem getD_append_right_mem (pre enc : List Nat) (i : Nat) (hi : i < enc.length) :
    (pre ++ enc).getD (pre.length + i) 0 ∈ enc := by
  rw [List.getD_eq_getElem?_getD, List.getElem?_append_right (Nat.le_add_right _ _)]
  simp only [Nat.add_sub_cancel_left]
  rw [List.getElem?_eq_getElem hi]
  exact List.getElem_mem _

/-- C19, as amended: for a non-empty algorithm name free of space, tab and
double quote (its length plus 3 fitting an `unsigned int`), a line
`algo base64key` preceded by one or more spaces or tabs is rejected by
`checkpubkey_line` for that candidate, whatever the key comparison would
answer: after the blanks the algorithm name is taken as the options token, and
the algorithm name followed by a space is not found where the base64 field
starts.  Neither the key comparison nor the options parser is called. -/
theorem checkpubkey_line_indented (ext : LineExt) (ws algo enc : List Nat) (size : Nat)
    (line_num : Nat) (filename keyblob : List Nat)
    (ret_info : Option (Option (List Nat))) (opts : Option PubKeyOptions)
    (hws : ∀ c ∈ ws, c = 32 ∨ c = 9) (hne : ws ≠ [])
    (halgo : ∀ c ∈ algo, c ≠ 32 ∧ c ≠ 9 ∧ c ≠ 34) (hane : algo ≠ [])
    (henc : ∀ c ∈ enc, c ≠ 32)
    (h32 : algo.length + 3 < 2 ^ 32)
    (hsize : (ws ++ (algo ++ 32 :: enc)).length ≤ size) :
    checkpubkey_line ext (line_at (ws ++ (algo ++ 32 :: enc)) 0 size) line_num filename algo
        keyblob ret_info opts =
      Res.ok { ret := DROPBEAR_FAILURE, ret_info := ret_info, pubkey_options := opts,
               calls := [] } := by
  show _ = Res.ok (rejected ret_info opts)
  by_cases hearly : (ws ++ (algo ++ 32 :: enc)).length < MIN_AUTHKEYS_LINE ∨
      (ws ++ (algo ++ 32 :: enc)).length > MAX_AUTHKEYS_LINE ∨ 0 ∈ ws ++ (algo ++ 32 :: enc)
  · apply checkpubkey_line_rejected_early
    rcases hearly with h | h | h
    · exact Or.inl h
    · exact Or.inr (Or.inl h)
    · refine Or.inr (Or.inr ?_)
      show 0 ∈ (ws ++ (algo ++ 32 :: enc)).take (ws ++ (algo ++ 32 :: enc)).length
      rw [List.take_length]
      exact h
  · have h10 : MIN_AUTHKEYS_LINE ≤ (ws ++ (algo ++ 32 :: enc)).length := by
      by_contra hc
      exact hearly (Or.inl (by omega))
    have h4200 : (ws ++ (algo ++ 32 :: enc)).length ≤ MAX_AUTHKEYS_LINE := by
      by_contra hc
      exact hearly (Or.inr (Or.inl (by omega)))
    have h0 : 0 ∉ ws ++ (algo ++ 32 :: enc) := fun hc => hearly (Or.inr (Or.inr hc))
    by_cases ha : algo.length + 3 ≤ (ws ++ (algo ++ 32 :: enc)).length
    · rw [checkpubkey_line_eq ext _ size line_num filename algo keyblob ret_info opts h10 h4200 h0
        hsize ha]
      obtain ⟨c, r, hc⟩ := List.exists_cons_of_ne_nil hane
      obtain ⟨w, ws', hw⟩ := List.exists_cons_of_ne_nil hne
      obtain ⟨hc32, hc9, _⟩ := halgo c (by rw [hc]; exact List.mem_cons_self _ _)
      have hcb : is_blank c = false := by
        unfold is_blank
        exact decide_eq_false (by rintro (h | h); exact hc32 h; exact hc9 h)
      have hs : strncmp (ws ++ (algo ++ 32 :: enc)) algo algo.length ≠ 0 := by
        rw [hw, hc]
        have hwb := hws w (by rw [hw]; exact List.mem_cons_self _ _)
        refine strncmp_ne_zero_of_head w (ws' ++ (c :: r ++ 32 :: enc)) c r ?_
        rcases hwb with hwb | hwb
        · rw [hwb]; exact Ne.symm hc32
        · rw [hwb]; exact Ne.symm hc9
      have hd : (ws ++ (algo ++ 32 :: enc)).dropWhile is_blank = c :: (r ++ 32 :: enc) := by
        rw [dropWhile_blank_append ws _ hws, hc]
        simp only [List.cons_append, List.dropWhile_cons, hcb, Bool.false_eq_true, if_false]
      have ht : ((ws ++ (algo ++ 32 :: enc)).takeWhile is_blank).length = ws.length := by
        rw [takeWhile_blank_append ws _ hws, hc]
        simp only [List.cons_append, List.takeWhile_cons, hcb, Bool.false_eq_true, if_false,
          List.append_nil]
      have hdrop : (ws ++ (algo ++ 32 :: enc)).drop ws.length = algo ++ 32 :: enc :=
        List.drop_left _ _
      have hend : options_end (ws ++ (algo ++ 32 :: enc)) ws.length
          = ws.length + algo.length + 1 := by
        unfold options_end
        rw [hdrop, options_span_plain algo enc halgo false]
        simp only [List.length_append, List.length_cons]
        omega
      rw [if_pos hs, hd]
      dsimp only
      rw [ht, hend]
      split_ifs with h35 hshort hcmp
      · rfl
      · rfl
      · rfl
      · unfold key_stage
        have hlen : (ws ++ (algo ++ 32 :: enc)).length
            = ws.length + algo.length + 1 + enc.length := by
          simp only [List.length_append, List.length_cons]
          omega
        have hidx : (ws ++ (algo ++ 32 :: enc)).getD (ws.length + algo.length + 1 + algo.length) 0
            ∈ enc := by
          have e : ws ++ (algo ++ 32 :: enc) = (ws ++ algo ++ [32]) ++ enc := by simp
          have el : ws.length + algo.length + 1 = (ws ++ algo ++ [32]).length := by
            simp only [List.length_append, List.length_cons, List.length_nil]
          rw [e, el]
          exact getD_append_right_mem _ enc algo.length (by omega)
        rw [if_pos (henc _ hidx)]
    · exact checkpubkey_line_short_for_algo ext _ size line_num filename algo keyblob ret_info opts
        ha h32

/-- C19, witness of the amended statement: the line `ssh-ed25519 AAAAC3Nz`
preceded by a space and a tab. -/
theorem checkpubkey_line_indented_witness :
    ((∀ c ∈ [32, 9], c = 32 ∨ c = 9) ∧ [32, 9] ≠ [] ∧
      (∀ c ∈ bytes "ssh-ed25519", c ≠ 32 ∧ c ≠ 9 ∧ c ≠ 34) ∧ bytes "ssh-ed25519" ≠ [] ∧
      (∀ c ∈ bytes "AAAAC3Nz", c ≠ 32)) ∧
    checkpubkey_line sample_ext
        (line_at ([32, 9] ++ (bytes "ssh-ed25519" ++ 32 :: bytes "AAAAC3Nz")) 0 MAX_AUTHKEYS_LINE)
        1 (bytes "f") (bytes "ssh-ed25519") sample_key (some none) none =
      Res.ok { ret := DROPBEAR_FAILURE, ret_info := some none, pubkey_options := none,
               calls := [] } :=
  ⟨⟨by decide, by decide, by decide, by decide, by decide⟩,
    checkpubkey_line_indented sample_ext [32, 9] (bytes "ssh-ed25519") (bytes "AAAAC3Nz")
      MAX_AUTHKEYS_LINE 1 (bytes "f") sample_key (some none) none
      (by decide) (by decide) (by decide) (by decide) (by decide) (by decide) (by decide)⟩

/-- C19, counterexample: the line `ssh-ed25519 AAAAC3Nz` is accepted for the
sample key; the same line preceded by one space, 21 bytes long, is rejected,
without any call. -/
theorem checkpubkey_line_indented_counterexample :
    (checkpubkey_line sample_ext (mk_line (bytes "ssh-ed25519 AAAAC3Nz")) 1 (bytes "f")
        (bytes "ssh-ed25519") sample_key (some none) none).map (fun r => r.ret)
      = Res.ok DROPBEAR_SUCCESS ∧
    indented_line = 32 :: bytes "ssh-ed25519 AAAAC3Nz" ∧
    MIN_AUTHKEYS_LINE ≤ indented_line.length ∧ indented_line.length ≤ MAX_AUTHKEYS_LINE ∧
    checkpubkey_line sample_ext (mk_line indented_line) 1 (bytes "f") (bytes "ssh-ed25519")
        sample_key (some none) none =
      Res.ok { ret := DROPBEAR_FAILURE, ret_info := some none, pubkey_options := none,
               calls := [] } := by
  decide

/-! ## checkpubkey: a blank line before the accepting line -/

/-- C13, at the failing input: no override key is configured, `/home/u/.ssh`
has mode 0700 and `/home/u/.ssh/authorized_keys` holds a line of fourteen
spaces followed by the line `ssh-ed25519 AAAAC3Nz`.  Under the identity of the
user `checkpubkeyperms` returns success and the file opens, and
`checkpubkey_line` accepts the second line for the sample key; yet `checkpubkey`
does not return: on the first line, after the leading blanks have been skipped,
`buf_getptr(line, 1)` is out of range and the process is terminated before the
second line is tried. -/
theorem checkpubkey_blank_line_then_key_exits :
    blank_first_env.backdoor_authorized_key = none ∧
    (checkpubkey_switch blank_first_env (sample_ses [] 0) >>= fun sw =>
        checkpubkeyperms blank_first_env sw).map
        (fun r => (r.1, blank_first_env.fopen r.2.euid r.2.egid
          (authorized_keys_filepath blank_first_env r.2)))
      = Res.ok (DROPBEAR_SUCCESS, some blank_first_file) ∧
    line_ret blank_first_env.line (bytes "ssh-ed25519 AAAAC3Nz") 2
        (bytes "/home/u/.ssh/authorized_keys") (bytes "ssh-ed25519") sample_key
      = Res.ok DROPBEAR_SUCCESS ∧
    line_ret blank_first_env.line (List.replicate 14 32) 1
        (bytes "/home/u/.ssh/authorized_keys") (bytes "ssh-ed25519") sample_key
      = Res.exit ∧
    checkpubkey blank_first_env (sample_ses [] 0) (bytes "ssh-ed25519") sample_key = Res.exit ∧
    (checkpubkey (sample_env 0o700 [bytes "ssh-ed25519 AAAAC3Nz"]) (sample_ses [] 0)
        (bytes "ssh-ed25519") sample_key).map (fun r => r.1) = Res.ok DROPBEAR_SUCCESS := by
  decide

/-! ## checkpubkey: the effective identity -/

end Dropbear
